import Mathlib

/-! # Postgres HA manager

A shallow embedding of `cmd/probe/internal/component/postgres/manager.go`.

Conventions of the embedding:

* A Go call that may crash (index out of range, nil dereference) has result type
  `Run α`: `Run.ret a` is a normal return, `Run.panic` a runtime panic.
* A Go `error` is a `GoError`; the nil error is `none : Option GoError`.  A Go function
  returning `(T, error)` returns a pair `T × Option GoError`.
* A pointer that may be nil is an `Option`.
* The database, the operating system and the coordination store are the `World`:
  one record of the answers they give while a single manager call runs.
-/

namespace Postgres

/-! ## Runtime results -/

/-- Outcome of running a Go function: a normal return or a runtime panic. -/
inductive Run (α : Type) where
  | ret (a : α) : Run α
  | panic : Run α
deriving DecidableEq, Repr

/-- Sequencing of Go statements: a panic stops the rest. -/
def Run.bind {α β : Type} (x : Run α) (f : α → Run β) : Run β :=
  match x with
  | Run.ret a => f a
  | Run.panic => Run.panic

instance : Monad Run where
  pure := Run.ret
  bind := Run.bind

/-- A Go error value. -/
abbrev GoError := String

/-- Go indexing `xs[i]`: panics when `i` is out of range. -/
def index {α : Type} (xs : List α) (i : Nat) : Run α :=
  match xs[i]? with
  | some x => Run.ret x
  | none => Run.panic

/-! ## Go standard library, as far as the manager uses it -/

/-- The function `strings.Split(s, sep)` for a separator of one character, on the characters. -/
def splitChars (sep : Char) : List Char → List (List Char)
  | [] => [[]]
  | c :: cs =>
    if c = sep then [] :: splitChars sep cs
    else
      match splitChars sep cs with
      | [] => [[c]]
      | p :: ps => (c :: p) :: ps

/-- The function `strings.Split(s, sep)` for a separator of one character. -/
def Split (s : String) (sep : Char) : List String :=
  (splitChars sep s.data).map String.mk

/-- The function `strings.TrimFunc(s, f)`: drops the leading and the trailing characters
that satisfy `f`. -/
def TrimFunc (s : String) (f : Char → Bool) : String :=
  String.mk ((s.data.dropWhile f).reverse.dropWhile f).reverse

/-- The function `strings.TrimSpace(s)` on the ASCII white space characters. -/
def TrimSpace (s : String) : String :=
  TrimFunc s (fun c => c = ' ' || c = '\t' || c = '\n' || c = '\r' || c.toNat = 11 || c.toNat = 12)

/-- The predicate `unicode.IsLetter` on ASCII; code points from 128 on are taken as
non-letters (the Unicode tables are not part of the embedding). -/
def IsLetter (c : Char) : Bool := c.isAlpha

/-- The predicate `unicode.IsDigit` on ASCII; code points from 128 on are taken as
non-digits. -/
def IsDigit (c : Char) : Bool := c.isDigit

/-- Value of a string of decimal digits, `none` when a character is not a digit. -/
def parseDecimal : List Char → Nat → Option Nat
  | [], acc => some acc
  | c :: cs, acc =>
    if c.isDigit then parseDecimal cs (acc * 10 + (c.toNat - 48)) else none

/-- Digits of `ParseInt` after the optional sign. -/
def parseIntBody (neg : Bool) (ds : List Char) (bitSize : Nat) : Int × Option GoError :=
  match ds with
  | [] => (0, some "invalid syntax")
  | _ :: _ =>
    match parseDecimal ds 0 with
    | none => (0, some "invalid syntax")
    | some n =>
      let cutoff : Nat := 2 ^ (bitSize - 1)
      if !neg && decide (cutoff ≤ n) then (((cutoff - 1 : Nat) : Int), some "value out of range")
      else if neg && decide (cutoff < n) then (-(cutoff : Int), some "value out of range")
      else (if neg then -(n : Int) else (n : Int), none)

/-- The function `strconv.ParseInt(s, 10, bitSize)`: on a syntax error the value is 0, on a
range error it is the nearest value of the size. -/
def ParseInt (s : String) (bitSize : Nat) : Int × Option GoError :=
  match s.data with
  | '+' :: ds => parseIntBody false ds bitSize
  | '-' :: ds => parseIntBody true ds bitSize
  | ds => parseIntBody false ds bitSize

/-- Two-complement wrap of an integer to `int64`. -/
def wrapInt64 (x : Int) : Int := (x + 2 ^ 63) % 2 ^ 64 - 2 ^ 63

/-- The values of `int64`. -/
def isInt64 (x : Int) : Prop := -(2 ^ 63) ≤ x ∧ x < 2 ^ 63

instance (x : Int) : Decidable (isInt64 x) := by
  unfold isInt64
  infer_instance

/-! ## Timeline history -/

/-- One entry of a primary timeline history (type `history`). -/
structure history where
  parentTimeline : Int
  switchPoint : Int
deriving DecidableEq, Repr

/-- The loop of `checkTimelineAndLsn` over the history entries (lines 550-564), with
`needRewind` as it stands before the entry is visited. -/
def walkHistory (isRecovery : Bool) (localTimeLine localLsn : Int) :
    List history → Bool → Bool
  | [], needRewind => needRewind
  | h :: rest, needRewind =>
    if h.parentTimeline = localTimeLine then
      if isRecovery then decide (localLsn > h.switchPoint)
      else if localLsn ≥ h.switchPoint then true
      else needRewind
    else if h.parentTimeline > localTimeLine then true
    else walkHistory isRecovery localTimeLine localLsn rest needRewind

/-- The method `Manager.getHistory`: a stub that returns the nil slice. -/
def getHistory : Option (List history) := none

/-- Lines 541-567 of `checkTimelineAndLsn`: the decision once both timelines are known.
The parameter `fetchHistory` stands for the call `mgr.getHistory()`. -/
def needRewindWith (fetchHistory : Option (List history)) (isRecovery : Bool)
    (localTimeLine localLsn primaryTimeLine : Int) : Bool :=
  let start : Bool × Option (List history) :=
    if localTimeLine > primaryTimeLine then (true, none)
    else if localTimeLine = primaryTimeLine then (false, none)
    else if primaryTimeLine > 1 then (false, fetchHistory)
    else (false, none)
  match start.2 with
  | some historys => walkHistory isRecovery localTimeLine localLsn historys start.1
  | none => start.1

/-! ## JSON produced by `QueryWithPool` -/

/-- A column value of a result row, as `json.Marshal` sees it. -/
inductive JVal where
  | null : JVal
  | bool (b : Bool) : JVal
  | int (i : Int) : JVal
  | str (s : String) : JVal
deriving DecidableEq, Repr

/-- A result row: the map from column name to value, listed in the order `json.Marshal`
writes a map (sorted by key). -/
abbrev Row := List (String × JVal)

/-- Lower-case hexadecimal digit. -/
def hexDigit (n : Nat) : Char :=
  if n < 10 then Char.ofNat (48 + n) else Char.ofNat (87 + n)

/-- How `encoding/json` writes one character of a string (HTML escaping on, as in
`json.Marshal`). -/
def escapeChar (c : Char) : List Char :=
  if c = '"' then ['\\', '"']
  else if c = '\\' then ['\\', '\\']
  else if c = '\n' then ['\\', 'n']
  else if c = '\r' then ['\\', 'r']
  else if c = '\t' then ['\\', 't']
  else if c.toNat < 32 || c = '<' || c = '>' || c = '&' then
    ['\\', 'u', '0', '0', hexDigit (c.toNat / 16), hexDigit (c.toNat % 16)]
  else if c.toNat = 0x2028 then ['\\', 'u', '2', '0', '2', '8']
  else if c.toNat = 0x2029 then ['\\', 'u', '2', '0', '2', '9']
  else [c]

/-- A JSON string literal. -/
def quote (s : String) : List Char :=
  '"' :: (s.data.flatMap escapeChar ++ ['"'])

/-- JSON text of a column value. -/
def marshalValue : JVal → List Char
  | JVal.null => "null".data
  | JVal.bool true => "true".data
  | JVal.bool false => "false".data
  | JVal.int i => (toString i).data
  | JVal.str s => quote s

/-- JSON text of one row. -/
def marshalRow (r : Row) : List Char :=
  '\x7b' :: ((",".data).intercalate (r.map fun kv => quote kv.1 ++ ':' :: marshalValue kv.2)
    ++ ['\x7d'])

/-- The call `json.Marshal(rs)` on the rows collected by `QueryWithPool`. -/
def Marshal (rows : List Row) : String :=
  String.mk ('[' :: ((",".data).intercalate (rows.map marshalRow) ++ [']']))

/-- The UTF-8 bytes of a character: what one character of a Go string holds. -/
def utf8Bytes (c : Char) : List Nat :=
  let n := c.toNat
  if n < 0x80 then [n]
  else if n < 0x800 then [0xC0 + n / 64, 0x80 + n % 64]
  else if n < 0x10000 then [0xE0 + n / 4096, 0x80 + n / 64 % 64, 0x80 + n % 64]
  else [0xF0 + n / 262144, 0x80 + n / 4096 % 64, 0x80 + n / 64 % 64, 0x80 + n % 64]

/-- The call `binary.BigEndian.Uint64(b)`: reads `b[0..7]`, panics on a shorter slice. -/
def BigEndianUint64 (b : List Nat) : Run Nat :=
  if b.length < 8 then Run.panic
  else Run.ret ((b.take 8).foldl (fun acc x => acc * 256 + x) 0)

/-! ## The coordination store (package `dcs`) -/

/-- Modelled from the spec: the type `dcs.Member` (package dcs, source not at hand): a
member has a unique name and a database port. -/
structure Member where
  Name : String
  DBPort : String
deriving DecidableEq, Repr

/-- Modelled from the spec: the type `dcs.Cluster` (package dcs, source not at hand): the
snapshot holds the leader (here its name, `cluster.Leader.Name`), the members in order, the
reference point `OpTime` and the policy value `HaConfig.GetMaxLagOnSwitchover()`. -/
structure Cluster where
  LeaderName : String
  Members : List Member
  OpTime : Int
  MaxLagOnSwitchover : Int
deriving DecidableEq, Repr

/-- Modelled from the spec: `Cluster.GetMemberWithName` (package dcs, source not at hand):
the member of that name, nil when there is none. -/
def Cluster.GetMemberWithName (c : Cluster) (name : String) : Option Member :=
  c.Members.find? (fun m => m.Name = name)

/-- Modelled from the spec: the type `PGStandby` returned by `parsePGSyncStandby` (source not
at hand): the parsed quorum specification: the set of member names and the wildcard. -/
structure PGStandby where
  Members : List String
  HasStar : Bool
deriving DecidableEq, Repr

/-- Modelled from the spec: the constant `binding.PRIMARY` (package binding, source not at
hand). -/
def PRIMARY : String := "primary"

/-- Modelled from the spec: the constant `binding.SECONDARY` (package binding, source not at
hand). -/
def SECONDARY : String := "secondary"

/-- Modelled from the spec: `component.MaxInt64` (package component, source not at hand): the
larger argument. -/
def MaxInt64 (x y : Int) : Int := if x > y then x else y

/-! ## The world of one manager call -/

/-- The server a connection pool talks to. -/
inductive Conn where
  | localDB : Conn
  | remote (host : String) : Conn
deriving DecidableEq, Repr

/-- A non-nil `*pgxpool.Pool`: the pool `mgr.Pool` of the manager or one built for a host. -/
inductive Pool where
  | mgr : Pool
  | forHost (host : String) : Pool
deriving DecidableEq, Repr

/-- The server behind the `pool` argument of the `...WithPool` methods: with the nil pool
they use `mgr.Pool`. -/
def connOf : Option Pool → Conn
  | none => Conn.localDB
  | some Pool.mgr => Conn.localDB
  | some (Pool.forHost host) => Conn.remote host

/-- What `cmd.Run()` leaves behind: its error and the two output buffers. -/
structure CmdResult where
  err : Option GoError
  stdout : String
  stderr : String
deriving DecidableEq, Repr

/-- The surroundings of the manager while one call runs.  Answers do not change during the
call; assignments to `mgr.Proc` and `mgr.Pool` are not tracked.  A pool built for a host is
closed by the first query on it (`defer pool.Close()`). -/
structure World where
  /-- The field `mgr.CurrentMemberName`. -/
  CurrentMemberName : String
  /-- The calls `pool.Query(ctx, sql)` with `rows.Scan`: the rows, or the error of the
  query or of a scan. -/
  query : Conn → String → Except GoError (List Row)
  /-- The call `cmd.Run()` of `exec.Command(args...)`. -/
  run : List String → CmdResult
  /-- The error of marshalling `config.pool` inside `util.DeepCopy`, nil when it marshals. -/
  deepCopy : Option GoError
  /-- The error of `pgxpool.NewWithConfig` for a host. -/
  newPool : String → Option GoError
  /-- Whether `mgr.Proc` is set and `mgr.Proc.IsRunning()` says true without error. -/
  procRunning : Bool
  /-- The error of `process.NewProcess(mgr.PidFile.pid)`. -/
  newProcess : Option GoError
  /-- The helper `parsePGSyncStandby`, whose source is not at hand. -/
  parsePGSyncStandby : String → Except GoError PGStandby
  /-- The helper `parsePgLsn`, whose source is not at hand. -/
  parsePgLsn : String → Int
  /-- The method `Cluster.GetMemberAddr` of package dcs, whose source is not at hand. -/
  GetMemberAddr : Cluster → Member → String

/-! ## Queries -/

/-- The statement of `GetMemberStateWithPool`. -/
def recoverySQL : String := "select pg_is_in_recovery();"

/-- The statement of `getReplicationMode`. -/
def syncCommitSQL : String := "select pg_catalog.current_setting('synchronous_commit');"

/-- The statement of `checkStandbySynchronizedToLeader`. -/
def standbyNamesSQL : String :=
  "select pg_catalog.current_setting('synchronous_standby_names');"

/-- The statement `getLsnWithPool` chooses by `switch types`; no case leaves it empty. -/
def lsnSQL (types : String) : String :=
  if types = "current" then
    "select pg_catalog.pg_wal_lsn_diff(pg_catalog.pg_current_wal_lsn(), '0/0')::bigint;"
  else if types = "replay" then
    "select pg_catalog.pg_wal_lsn_diff(pg_catalog.pg_last_wal_replay_lsn(), '0/0')::bigint;"
  else if types = "receive" then
    "select pg_catalog.pg_wal_lsn_diff(COALESCE(pg_catalog.pg_last_wal_receive_lsn(), '0/0'), '0/0')::bigint;"
  else ""

/-- The statement of `getReceivedTimeLine`. -/
def receivedTimeLineSQL : String :=
  "select case when latest_end_lsn is null then null " ++
    "else received_tli end as received_tli from pg_catalog.pg_stat_get_wal_receiver();"

/-- The method `Manager.QueryWithPool`: the rows as JSON. -/
def QueryWithPool (w : World) (sql : String) (pool : Option Pool) : String × Option GoError :=
  match w.query (connOf pool) sql with
  | Except.error err => ("", some ("error executing query: " ++ err))
  | Except.ok rows => (Marshal rows, none)

/-- The method `Manager.Query`. -/
def Query (w : World) (sql : String) : String × Option GoError :=
  QueryWithPool w sql none

/-- The call `rows.Scan(&isRecovery)`: one boolean column. -/
def scanBool : Row → Except GoError Bool
  | [(_, JVal.bool b)] => Except.ok b
  | _ => Except.error "cannot scan into *bool"

/-- The loop `for rows.Next()` of `GetMemberStateWithPool` on the pair
`(isRecovery, isReady)`. -/
def scanRecovery : List Row → Bool × Bool → Except GoError (Bool × Bool)
  | [], st => Except.ok st
  | r :: rs, _ =>
    match scanBool r with
    | Except.error err => Except.error err
    | Except.ok b => scanRecovery rs (b, true)

/-- The method `Manager.GetMemberStateWithPool`. -/
def GetMemberStateWithPool (w : World) (pool : Option Pool) : String × Option GoError :=
  let sql := recoverySQL
  match w.query (connOf pool) sql with
  | Except.error err => ("", some ("error executing " ++ sql ++ ": " ++ err))
  | Except.ok rows =>
    match scanRecovery rows (false, false) with
    | Except.error err => ("", some err)
    | Except.ok (isRecovery, isReady) =>
      if isRecovery then (SECONDARY, none)
      else if isReady then (PRIMARY, none)
      else ("", some ("exec sql " ++ sql ++ " failed: no data returned"))

/-- The method `Manager.IsLeaderWithPool`. -/
def IsLeaderWithPool (w : World) (pool : Option Pool) : Bool × Option GoError :=
  match GetMemberStateWithPool w pool with
  | (_, some err) => (false, some ("check is leader: " ++ err))
  | (role, none) => (role == PRIMARY, none)

/-- The method `Manager.getReplicationMode`. -/
def getReplicationMode (w : World) : Run (String × Option GoError) :=
  let sql := syncCommitSQL
  match Query w sql with
  | (_, some err) => Run.ret ("", some err)
  | (resp, none) => do
    let field ← index (Split resp ':') 1
    let mode := TrimFunc field (fun r => !IsLetter r)
    if mode = "off" then Run.ret ("asynchronous", none)
    else if mode = "local" then Run.ret ("asynchronous", none)
    else if mode = "remote_write" then Run.ret ("asynchronous", none)
    else if mode = "on" then Run.ret ("synchronous", none)
    else if mode = "remote_apply" then Run.ret ("synchronous", none)
    else Run.ret ("synchronous", none)

/-- Line 348 of `checkStandbySynchronizedToLeader`: the expression
`strings.Split(strings.Split(string(resp), ":")[1], "\"")[1]`. -/
def standbyNamesOf (resp : String) : Run String := do
  let field ← index (Split resp ':') 1
  index (Split field '"') 1

/-- The method `Manager.checkStandbySynchronizedToLeader`. -/
def checkStandbySynchronizedToLeader (w : World) (memberName : String) (isLeader : Bool)
    (cluster : Option Cluster) : Run Bool :=
  let sql := standbyNamesSQL
  match Query w sql with
  | (_, some _) => Run.ret false
  | (resp, none) => do
    let standbyNames ← standbyNamesOf resp
    match w.parsePGSyncStandby standbyNames with
    | Except.error _ => Run.ret false
    | Except.ok syncStandbys =>
      if isLeader then
        match cluster with
        | none => Run.panic
        | some c =>
          Run.ret (decide (memberName = c.LeaderName) || syncStandbys.Members.contains memberName
            || syncStandbys.HasStar)
      else Run.ret (syncStandbys.Members.contains memberName || syncStandbys.HasStar)

/-- The method `Manager.getLsnWithPool`. -/
def getLsnWithPool (w : World) (types : String) (pool : Option Pool) : Int × Option GoError :=
  let sql := lsnSQL types
  match QueryWithPool w sql pool with
  | (_, some err) => (0, some err)
  | (resp, none) =>
    let lsnStr := TrimFunc resp (fun r => !IsDigit r)
    ((ParseInt lsnStr 64).1, none)

/-- The method `Manager.getLsnWithPool` on a pool that an earlier query has used: a non-nil
pool was closed by the deferred `pool.Close()` of that query, so the query fails; the nil
pool stands for `mgr.Pool`, which is not closed. -/
def getLsnWithUsedPool (w : World) (types : String) (pool : Option Pool) :
    Int × Option GoError :=
  match pool with
  | none => getLsnWithPool w types none
  | some _ => (0, some "error executing query: closed pool")

/-- The method `Manager.getWalPositionWithPool`; the role query runs first and, for a non-nil
pool, closes it. -/
def getWalPositionWithPool (w : World) (pool : Option Pool) : Int × Option GoError :=
  let leader := IsLeaderWithPool w pool
  if leader.1 && leader.2.isNone then
    match getLsnWithUsedPool w "current" pool with
    | (_, some err) => (0, some err)
    | (lsn, none) => (lsn, none)
  else
    let replay := getLsnWithUsedPool w "replay" pool
    let receive := getLsnWithUsedPool w "receive" pool
    if replay.2.isSome && receive.2.isSome then
      (0, some "get replayLsn or receiveLsn failed")
    else (MaxInt64 replay.1 receive.1, none)

/-- The method `Manager.isLagging`; `cluster.GetOpTime()` and `cluster.HaConfig` dereference
the cluster. -/
def isLagging (walPosition : Int) (cluster : Option Cluster) : Run Bool :=
  match cluster with
  | none => Run.panic
  | some c =>
    let lag := wrapInt64 (c.OpTime - walPosition)
    Run.ret (decide (lag > c.MaxLagOnSwitchover))

/-! ## Pools for other members -/

/-- The assignment `resp[i] = v`: panics when `i` is out of range. -/
def assignIndex {α : Type} (xs : List α) (i : Nat) (v : α) : Run (List α) :=
  if i < xs.length then Run.ret (xs.set i v) else Run.panic

/-- The loop of `GetOtherPoolsWithHosts` from index `i` on.  `tempConfig` is the pointer
the body writes the host through (`tempConfig.ConnConfig.Host = host`). -/
def otherPoolsLoop (w : World) (tempConfig : Option Unit) :
    List String → Nat → List (Option Pool) → Run (List (Option Pool))
  | [], _, resp => Run.ret resp
  | host :: rest, i, resp =>
    match tempConfig with
    | none => Run.panic
    | some _ =>
      match w.newPool host with
      | some _ =>
        match assignIndex resp i none with
        | Run.panic => Run.panic
        | Run.ret resp1 => otherPoolsLoop w tempConfig rest (i + 1) resp1
      | none =>
        match assignIndex resp i (some (Pool.forHost host)) with
        | Run.panic => Run.panic
        | Run.ret resp1 => otherPoolsLoop w tempConfig rest (i + 1) resp1

/-- Modelled from the spec: `util.DeepCopy(dst, src)` (package util, source not at hand): the
copy goes through JSON, `src` is marshalled and the text unmarshalled into `dst`.
Unmarshalling into a nil pointer fails, so with a nil `dst` the call returns an error
whatever `src` is. -/
def DeepCopy (w : World) (dst : Option Unit) : Option GoError :=
  match w.deepCopy with
  | some err => some err
  | none =>
    match dst with
    | none => some "json: Unmarshal(nil *pgxpool.Config)"
    | some _ => none

/-- The method `Manager.GetOtherPoolsWithHosts`.  `tempConfig` is declared as a nil pointer
and handed to `DeepCopy` as it is, so `DeepCopy` returns an error and the loop is not
reached; `resp` is made with length 0. -/
def GetOtherPoolsWithHosts (w : World) (hosts : List String) :
    Run (List (Option Pool) × Option GoError) :=
  if hosts.length = 0 then Run.ret ([], some "Get other pool without hosts")
  else
    let tempConfig : Option Unit := none
    match DeepCopy w tempConfig with
    | some err => Run.ret ([], some err)
    | none =>
      match otherPoolsLoop w tempConfig hosts 0 [] with
      | Run.panic => Run.panic
      | Run.ret resp => Run.ret (resp, none)

/-! ## Member health -/

/-- Lines 273-287 of `IsMemberHealthy`: the slice `pools`; the result `none` stands for
`return false`. -/
def healthPools (w : World) (cluster : Option Cluster) (member : Option Member) :
    Run (Option (List (Option Pool))) :=
  match member, cluster with
  | some m, some c =>
    if m.Name ≠ w.CurrentMemberName then
      let host := w.GetMemberAddr c m
      match GetOtherPoolsWithHosts w [host] with
      | Run.panic => Run.panic
      | Run.ret (pools, err) =>
        if err.isSome then Run.ret none
        else do
          let first ← index pools 0
          if first.isNone then Run.ret none else Run.ret (some pools)
    else Run.ret (some [none])
  | _, _ => Run.ret (some [some Pool.mgr])

/-- Lines 289-300 of `IsMemberHealthy`: the replication mode and, in synchronous mode, the
synchronization check; the result `false` stands for `return false`. -/
def healthSync (w : World) (cluster : Option Cluster) (member : Option Member) : Run Bool := do
  let mode ← getReplicationMode w
  match mode with
  | (_, some _) => Run.ret false
  | (replicationMode, none) =>
    if replicationMode = "synchronous" then
      match member with
      | none => Run.panic
      | some m => checkStandbySynchronizedToLeader w m.Name true cluster
    else Run.ret true

/-- Lines 302-310 of `IsMemberHealthy`: the lag check on `pools[0]`. -/
def healthLag (w : World) (cluster : Option Cluster) (pools : List (Option Pool)) :
    Run Bool := do
  let pool ← index pools 0
  let walPosition := (getWalPositionWithPool w pool).1
  let lagging ← isLagging walPosition cluster
  if lagging then Run.ret false else Run.ret true

/-- The method `Manager.IsMemberHealthy`. -/
def IsMemberHealthy (w : World) (cluster : Option Cluster) (member : Option Member) :
    Run Bool := do
  let pools ← healthPools w cluster member
  match pools with
  | none => Run.ret false
  | some ps =>
    let synced ← healthSync w cluster member
    if synced then healthLag w cluster ps else Run.ret false

/-- The method `Manager.IsCurrentMemberHealthy`. -/
def IsCurrentMemberHealthy (w : World) : Run Bool :=
  IsMemberHealthy w none none

/-- The loop of `HasOtherHealthyMembers` over `cluster.Members`. -/
def healthyMembersLoop (w : World) (c : Cluster) (leader : String) :
    List Member → List Member → Run (List Member)
  | [], members => Run.ret members
  | m :: rest, members =>
    if m.Name ≠ leader then
      match IsMemberHealthy w (some c) (some m) with
      | Run.panic => Run.panic
      | Run.ret true => healthyMembersLoop w c leader rest (members ++ [m])
      | Run.ret false => healthyMembersLoop w c leader rest members
    else healthyMembersLoop w c leader rest members

/-- The method `Manager.HasOtherHealthyMembers`; the members appended are given by value. -/
def HasOtherHealthyMembers (w : World) (cluster : Option Cluster) (leader : String) :
    Run (List Member) :=
  match getReplicationMode w with
  | Run.panic => Run.panic
  | Run.ret (_, some _) => Run.ret []
  | Run.ret (replicationMode, none) =>
    if replicationMode = "synchronous" then
      match cluster with
      | none => Run.panic
      | some c => healthyMembersLoop w c leader c.Members []
    else Run.ret []

/-! ## Promotion and demotion -/

/-- The method `Manager.prePromote`. -/
def prePromote : Option GoError := none

/-- The method `Manager.postPromote`. -/
def postPromote : Option GoError := none

/-- The method `Manager.Premote`: the error it returns. -/
def Premote (w : World) : Option GoError :=
  match prePromote with
  | some err => some err
  | none =>
    let cmd := w.run ["su", "-c", "'pg_ctl promote'", "postgres"]
    if cmd.err.isSome || cmd.stderr ≠ "" then cmd.err
    else
      match postPromote with
      | _ => none

/-- The method `Manager.Demote`: the error it returns. -/
def Demote (w : World) : Option GoError :=
  let stopCmd := w.run ["su", "-c", "'pg_ctl stop -m fast'", "postgres"]
  if stopCmd.err.isSome || stopCmd.stderr ≠ "" then stopCmd.err
  else none

/-! ## Local and primary timeline -/

/-- The method `Manager.getPrimaryTimeLine`. -/
def getPrimaryTimeLine (w : World) : Run (Int × Option GoError) :=
  let cmd := w.run ["psql", "replication=database", "-c", "IDENTIFY_SYSTEM"]
  if cmd.err.isSome || cmd.stderr ≠ "" then Run.ret (0, cmd.err)
  else do
    let value ← index (Split cmd.stdout '\n') 2
    let primaryTimeLine ← index (Split value '|') 1
    Run.ret (ParseInt (TrimSpace primaryTimeLine) 64)

/-- A Go `map[string]string` as the list of its assignments, the latest first. -/
abbrev StringMap := List (String × String)

/-- The lookup `m[key]`: the empty string for a missing key. -/
def StringMap.get (m : StringMap) (key : String) : String :=
  match m.find? (fun kv => kv.1 = key) with
  | some kv => kv.2
  | none => ""

/-- The loop of `getPgControlData` over the lines of the output. -/
def controlDataLines : List String → StringMap → StringMap
  | [], result => result
  | s :: rest, result =>
    match Split s ':' with
    | [key, value] => controlDataLines rest ((key, TrimSpace value) :: result)
    | _ => controlDataLines rest result

/-- The method `Manager.getPgControlData`. -/
def getPgControlData (w : World) : StringMap :=
  let cmd := w.run ["pg_controldata"]
  if cmd.err.isSome || cmd.stderr ≠ "" then []
  else controlDataLines (Split cmd.stdout '\n') []

/-- The method `Manager.getLocalTimeLineAndLsnFromControlData`. -/
def getLocalTimeLineAndLsnFromControlData (w : World) : Bool × Int × Int :=
  let pgControlData := getPgControlData w
  let state := pgControlData.get "Database cluster state"
  let chosen : Bool × String × String :=
    if state = "shut down in recovery" ∨ state = "in archive recovery" then
      (true, pgControlData.get "Minimum recovery ending location",
        pgControlData.get "Min recovery ending loc's timeline")
    else if state = "shut down" then
      (false, pgControlData.get "Latest checkpoint location",
        pgControlData.get "Latest checkpoint's TimeLineID")
    else (false, "", "")
  let lsn : Int := if chosen.2.1 ≠ "" then w.parsePgLsn chosen.2.1 else 0
  let timeLine : Int := if chosen.2.2 ≠ "" then (ParseInt chosen.2.2 64).1 else 0
  (chosen.1, timeLine, lsn)

/-- The method `Manager.getReceivedTimeLine`. -/
def getReceivedTimeLine (w : World) : Run Int :=
  let sql := receivedTimeLineSQL
  match Query w sql with
  | (_, some _) => Run.ret 0
  | (resp, none) => do
    let value ← BigEndianUint64 (resp.data.flatMap utf8Bytes)
    Run.ret (wrapInt64 value)

/-- The method `Manager.IsRunning`. -/
def IsRunning (w : World) : Bool :=
  w.procRunning || w.newProcess.isNone

/-- The method `Manager.getLocalTimeLineAndLsn`. -/
def getLocalTimeLineAndLsn (w : World) : Run (Bool × Int × Int) :=
  if !IsRunning w then Run.ret (getLocalTimeLineAndLsnFromControlData w)
  else do
    let timeLine ← getReceivedTimeLine w
    let lsn := (getLsnWithPool w "replay" none).1
    Run.ret (true, timeLine, lsn)

/-! ## The rewind decision -/

/-- Lines 526-567 of `checkTimelineAndLsn`: from the pool of the leader on. -/
def checkTimelineAndLsnPool (w : World) (isRecovery : Bool) (localTimeLine localLsn : Int)
    (pool : Option Pool) : Run Bool :=
  match GetMemberStateWithPool w pool with
  | (_, some _) => Run.ret false
  | (role, none) =>
    if role ≠ PRIMARY then Run.ret false
    else do
      let primary ← getPrimaryTimeLine w
      match primary with
      | (_, some _) => Run.ret false
      | (primaryTimeLine, none) =>
        Run.ret (needRewindWith getHistory isRecovery localTimeLine localLsn primaryTimeLine)

/-- Lines 515-567 of `checkTimelineAndLsn`: from the local state returned in line 514 on. -/
def checkTimelineAndLsnLocal (w : World) (cluster : Option Cluster) (isRecovery : Bool)
    (localTimeLine localLsn : Int) : Run Bool :=
  if localTimeLine = 0 ∨ localLsn = 0 then Run.ret false
  else
    match cluster with
    | none => Run.panic
    | some c =>
      match c.GetMemberWithName c.LeaderName with
      | none => Run.panic
      | some leader =>
        let host := w.GetMemberAddr c leader
        match GetOtherPoolsWithHosts w [host] with
        | Run.panic => Run.panic
        | Run.ret (pools, err) =>
          if err.isSome then Run.ret false
          else do
            let pool ← index pools 0
            if pool.isNone then Run.ret false
            else checkTimelineAndLsnPool w isRecovery localTimeLine localLsn pool

/-- The method `Manager.checkTimelineAndLsn`. -/
def checkTimelineAndLsn (w : World) (cluster : Option Cluster) : Run Bool := do
  let state ← getLocalTimeLineAndLsn w
  checkTimelineAndLsnLocal w cluster state.1 state.2.1 state.2.2

/-- The comparison the history loop makes at the entry of the local timeline. -/
def pastSwitchPoint (isRecovery : Bool) (localLsn : Int) (h : history) : Prop :=
  if isRecovery then localLsn > h.switchPoint else localLsn ≥ h.switchPoint

instance (isRecovery : Bool) (localLsn : Int) (h : history) :
    Decidable (pastSwitchPoint isRecovery localLsn h) := by
  unfold pastSwitchPoint
  infer_instance

/-! ## Concrete worlds -/

/-- A world in which no database answers and every command prints nothing. -/
def quietWorld : World where
  CurrentMemberName := "m2"
  query := fun _ _ => Except.error "connection refused"
  run := fun _ => CmdResult.mk none "" ""
  deepCopy := some "unable to marshal src"
  newPool := fun _ => none
  procRunning := true
  newProcess := none
  parsePGSyncStandby := fun _ => Except.error "unparsable"
  parsePgLsn := fun _ => 0
  GetMemberAddr := fun _ m => m.Name

/-- The table `psql` prints for `IDENTIFY_SYSTEM`. -/
def identifySystem (timeline : String) : String :=
  "      systemid       | timeline |  xlogpos  | dbname\n" ++
  "---------------------+----------+-----------+--------\n" ++
  " 7215031171203653389 |        " ++ timeline ++ " | 0/3000148 | \n(1 row)\n"

/-- A world whose leader `m1` is a running primary on the given timeline. -/
def primaryWorld (timeline : String) : World :=
  { quietWorld with
    query := fun conn sql =>
      if conn = Conn.remote "m1" ∧ sql = recoverySQL then
        Except.ok [[("pg_is_in_recovery", JVal.bool false)]]
      else Except.error "connection refused"
    run := fun args =>
      if args = ["psql", "replication=database", "-c", "IDENTIFY_SYSTEM"] then
        CmdResult.mk none (identifySystem timeline) ""
      else CmdResult.mk none "" "" }

/-- A cluster of the leader `m1` and the member `m2`. -/
def twoMembers : Cluster where
  LeaderName := "m1"
  Members := [Member.mk "m1" "5432", Member.mk "m2" "5432"]
  OpTime := 1000
  MaxLagOnSwitchover := 100

/-- The world of `primaryWorld "1"` with the local server stopped in recovery on timeline 2,
its minimum recovery location still `0/0`. -/
def stoppedWorld : World :=
  { primaryWorld "1" with
    procRunning := false
    newProcess := some "process does not exist"
    parsePgLsn := fun s => if s = "0/0" then 0 else 1
    run := fun args =>
      if args = ["pg_controldata"] then
        CmdResult.mk none
          ("Database cluster state:               shut down in recovery\n" ++
           "Minimum recovery ending location:     0/0\n" ++
           "Min recovery ending loc's timeline:   2\n") ""
      else (primaryWorld "1").run args }

/-- A quorum parser for the worlds below: it knows the two specifications they use. -/
def tableParser (s : String) : Except GoError PGStandby :=
  if s = "1(m2)" then Except.ok (PGStandby.mk ["m2"] false)
  else if s = "*" then Except.ok (PGStandby.mk [] true)
  else Except.error "unparsable"

/-- A world whose local server is a standby: it reports the given `synchronous_commit` and
`synchronous_standby_names` settings and the given replay and receive positions. -/
def standbyWorld (current syncCommit standbyNames : String) (replay receive : Int) : World :=
  { quietWorld with
    CurrentMemberName := current
    parsePGSyncStandby := tableParser
    query := fun conn sql =>
      if conn = Conn.localDB then
        if sql = syncCommitSQL then Except.ok [[("current_setting", JVal.str syncCommit)]]
        else if sql = standbyNamesSQL then
          Except.ok [[("current_setting", JVal.str standbyNames)]]
        else if sql = recoverySQL then Except.ok [[("pg_is_in_recovery", JVal.bool true)]]
        else if sql = lsnSQL "replay" then Except.ok [[("pg_wal_lsn_diff", JVal.int replay)]]
        else if sql = lsnSQL "receive" then Except.ok [[("pg_wal_lsn_diff", JVal.int receive)]]
        else Except.error "unknown statement"
      else Except.error "connection refused" }

/-- A cluster of the leader `m1` and the members `m2`, `m3` and `m4`. -/
def fourMembers : Cluster where
  LeaderName := "m1"
  Members := [Member.mk "m1" "5432", Member.mk "m2" "5432", Member.mk "m3" "5432",
    Member.mk "m4" "5432"]
  OpTime := 1000
  MaxLagOnSwitchover := 100

/-- A cluster whose reference point `OpTime` is within the allowed lag of position 0. -/
def youngCluster : Cluster where
  LeaderName := "m1"
  Members := [Member.mk "m1" "5432", Member.mk "m2" "5432"]
  OpTime := 80
  MaxLagOnSwitchover := 100

/-- A world in asynchronous mode whose local server answers no role and no position
query. -/
def noPositionWorld : World :=
  { quietWorld with
    query := fun conn sql =>
      if conn = Conn.localDB ∧ sql = syncCommitSQL then
        Except.ok [[("current_setting", JVal.str "off")]]
      else Except.error "connection refused" }

/-- A world in asynchronous mode whose local server is a standby that answers the position
queries with a text that holds no number. -/
def badPositionWorld : World :=
  { quietWorld with
    query := fun conn sql =>
      if conn = Conn.localDB then
        if sql = syncCommitSQL then Except.ok [[("current_setting", JVal.str "off")]]
        else if sql = recoverySQL then Except.ok [[("pg_is_in_recovery", JVal.bool true)]]
        else Except.ok [[("pg_wal_lsn_diff", JVal.null)]]
      else Except.error "connection refused" }

/-- A world in which every command exits with status 0 and writes a line to stderr. -/
def stderrWorld : World :=
  { quietWorld with
    run := fun _ => CmdResult.mk none "" "pg_ctl: server is not in standby mode\n" }

/-- A setting value written as a word: letters, digits and underscores, with a letter at
both ends (the labels of an enumerated PostgreSQL setting are such words); the empty value
counts as one. -/
def settingWord (s : String) : Bool :=
  s.data.all (fun c => c.isAlphanum || c = '_') &&
  (match s.data.head? with
   | some c => c.isAlpha
   | none => true) &&
  (match s.data.getLast? with
   | some c => c.isAlpha
   | none => true)

/-! ## Files, configuration and commands of the host -/

/-- What `os.Stat` found. -/
inductive StatResult where
  | found : StatResult
  | notExist : StatResult
  | failed (err : GoError) : StatResult
deriving DecidableEq, Repr

/-- The files and settings of the host while one call runs. -/
structure Host where
  /-- The field `mgr.DataDir`. -/
  DataDir : String
  /-- The calls `os.Open(path)` and the `bufio.Scanner` loop over the file: the lines read
  into `text`, or the error of `os.Open`. -/
  scanFile : String → Except GoError (List String)
  /-- The call `os.Stat("postgresql/data/standby.signal")`. -/
  statStandbySignal : StatResult
  /-- The helper `parseSingleQuery`, whose source is not at hand. -/
  parseSingleQuery : String → Except GoError (List (String × JVal))
  /-- The helper `parsePrimaryConnInfo`, whose source is not at hand; it may return the nil
  map. -/
  parsePrimaryConnInfo : String → Option StringMap
  /-- The setting `config.username`. -/
  username : String
  /-- The setting `config.password`. -/
  password : String
  /-- The error of `os.OpenFile("/postgresql/conf/postgresql.conf", os.O_APPEND, 0644)`. -/
  openConf : Option GoError
  /-- The error of a write to the file `pgConf`: it is opened with the flag `os.O_APPEND`
  alone, that is for reading only, and every write to it fails. -/
  writeConf : GoError
  /-- The error of `os.Create("/postgresql/data/standby.signal")`. -/
  createStandbySignal : Option GoError
  /-- The error of `pgxpool.NewWithConfig(context.Background(), config.pool)`. -/
  newLocalPool : Option GoError

/-- The type `PidFile`. -/
structure PidFile where
  pid : Int
  dataDir : String
  startTs : Int
  port : Int
deriving DecidableEq, Repr

/-- The method `Manager.readPidFile`. -/
def readPidFile (h : Host) : Run (Option PidFile × Option GoError) :=
  match h.scanFile (h.DataDir ++ "/postmaster.pid") with
  | Except.error err => Run.ret (none, some err)
  | Except.ok text => do
    let first ← index text 0
    match ParseInt first 32 with
    | (_, some err) => Run.ret (none, some err)
    | (pid, none) => do
      let dataDir ← index text 1
      let third ← index text 2
      let startTS := (ParseInt third 64).1
      let fourth ← index text 3
      let port := (ParseInt fourth 64).1
      Run.ret (some (PidFile.mk pid dataDir startTS port), none)

/-! ## Following the leader -/

/-- What `follow` and `Start` do to the host. -/
inductive Effect where
  | appendConf (text : String) : Effect
  | command (args : List String) : Effect
  | createStandbySignal : Effect
  | newPool : Effect
deriving DecidableEq, Repr

/-- The statement of `readRecoveryParams`. -/
def primaryConnInfoSQL : String :=
  "SELECT name, setting FROM pg_catalog.pg_settings WHERE pg_catalog.lower(name) = 'primary_conninfo';"

/-- The method `Manager.readRecoveryParams`; the assertion `result["setting"].(string)`
panics when the value is no string. -/
def readRecoveryParams (w : World) (h : Host) : Run (Option StringMap) :=
  match Query w primaryConnInfoSQL with
  | (_, some _) => Run.ret none
  | (resp, none) =>
    match h.parseSingleQuery resp with
    | Except.error _ => Run.ret none
    | Except.ok result =>
      match result.find? (fun kv => kv.1 = "setting") with
      | some (_, JVal.str primaryInfoStr) => Run.ret (h.parsePrimaryConnInfo primaryInfoStr)
      | _ => Run.panic

/-- The method `Manager.checkRecoveryConf`: the pair `(needChange, needRestart)`. -/
def checkRecoveryConf (w : World) (h : Host) (leaderName : String) : Run (Bool × Bool) :=
  if h.statStandbySignal = StatResult.notExist then Run.ret (true, true)
  else do
    let primaryInfo ← readRecoveryParams w h
    match primaryInfo with
    | none => Run.ret (true, true)
    | some info => do
      let label ← index (Split (info.get "host") '.') 0
      if label ≠ leaderName then Run.ret (true, false)
      else Run.ret (false, false)

/-- Modelled from the spec: `Cluster.GetLeaderMember` (package dcs, source not at hand): the
member that holds the leader lock, nil when no member has the name of the leader. -/
def Cluster.GetLeaderMember (c : Cluster) : Option Member :=
  c.GetMemberWithName c.LeaderName

/-- The method `Manager.Start`: its error and what it did. -/
def Start (w : World) (h : Host) : Option GoError × List Effect :=
  match h.createStandbySignal with
  | some err => (some err, [])
  | none =>
    let args := ["docker-entrypoint.sh", "--config-file=/postgresql/conf/postgresql.conf",
      "--hba_file=postgresql/conf/pg_hba.conf", "&"]
    let cmd := w.run args
    if cmd.err.isSome || cmd.stderr ≠ "" then
      (cmd.err, [Effect.createStandbySignal, Effect.command args])
    else
      match h.newLocalPool with
      | some err =>
        (some ("unable to ping the DB: " ++ err),
          [Effect.createStandbySignal, Effect.command args])
      | none => (none, [Effect.createStandbySignal, Effect.command args, Effect.newPool])

/-- The call `writer.WriteString(primaryInfo)` on the `bufio.Writer` of `pgConf` (4096
bytes): a text that fits is kept in the buffer, a longer one is written through to the file,
which fails. -/
def WriteString (h : Host) (text : String) : Option GoError :=
  if text.utf8ByteSize ≤ 4096 then none else some h.writeConf

/-- The call `writer.Flush()`: the buffer holds `primaryInfo`, which is not empty, and is
written to the file, which fails. -/
def Flush (h : Host) : Option GoError := some h.writeConf

/-- The method `Manager.follow`: its error and what it did.  After `pgConf` is opened the
method returns the error of the write; the reload and the restart are not reached. -/
def follow (w : World) (h : Host) (needRestart : Bool) (cluster : Cluster) :
    Run (Option GoError × List Effect) :=
  match cluster.GetLeaderMember with
  | none => Run.panic
  | some leaderMember =>
    if w.CurrentMemberName = leaderMember.Name then Run.ret (none, [])
    else
      let primaryInfo := "host=" ++ w.GetMemberAddr cluster leaderMember ++ " port=" ++
        leaderMember.DBPort ++ " user=" ++ h.username ++ " password=" ++ h.password ++
        " application_name=my-application\n"
      match h.openConf with
      | some err => Run.ret (some err, [])
      | none =>
        match WriteString h primaryInfo with
        | some err => Run.ret (some err, [])
        | none =>
          match Flush h with
          | some err => Run.ret (some err, [])
          | none =>
            if !needRestart then
              let args := ["su", "-c", "'pg_ctl reload'", "reload"]
              let cmd := w.run args
              if cmd.err.isSome || cmd.stderr ≠ "" then
                Run.ret (cmd.err, [Effect.appendConf primaryInfo, Effect.command args])
              else Run.ret (none, [Effect.appendConf primaryInfo, Effect.command args])
            else
              let started := Start w h
              Run.ret (started.1, Effect.appendConf primaryInfo :: started.2)

/-- The method `Manager.executeRewind`. -/
def executeRewind : Option GoError := none

/-- The method `Manager.handleRewind`. -/
def handleRewind (w : World) (cluster : Option Cluster) : Run (Option GoError) := do
  let needRewind ← checkTimelineAndLsn w cluster
  if !needRewind then Run.ret none else Run.ret executeRewind

/-- The method `Manager.Follow`: its error and what `follow` did; the error of
`handleRewind` is only logged. -/
def Follow (w : World) (h : Host) (cluster : Option Cluster) :
    Run (Option GoError × List Effect) := do
  let _ ← handleRewind w cluster
  match cluster with
  | none => Run.panic
  | some c => do
    let conf ← checkRecoveryConf w h c.LeaderName
    if conf.1 then follow w h conf.2 c
    else Run.ret (none, [])

/-- A world in synchronous mode whose local server does not answer the query for
`synchronous_standby_names`. -/
def noQuorumWorld : World :=
  { quietWorld with
    query := fun conn sql =>
      if conn = Conn.localDB ∧ sql = syncCommitSQL then
        Except.ok [[("current_setting", JVal.str "on")]]
      else Except.error "connection refused" }

/-- A world whose local server is a running primary: it is not in recovery, has no WAL
receiver and has replayed nothing. -/
def runningPrimaryWorld : World :=
  { quietWorld with
    query := fun conn sql =>
      if conn = Conn.localDB then
        if sql = recoverySQL then Except.ok [[("pg_is_in_recovery", JVal.bool false)]]
        else if sql = receivedTimeLineSQL then Except.ok [[("received_tli", JVal.null)]]
        else if sql = lsnSQL "replay" then Except.ok [[("pg_wal_lsn_diff", JVal.null)]]
        else Except.error "unknown statement"
      else Except.error "connection refused" }

/-- A host with the standby signal file in place, a pid file of eight lines and no
readable recovery parameters. -/
def quietHost : Host where
  DataDir := "/postgresql/data"
  scanFile := fun path =>
    if path = "/postgresql/data/postmaster.pid" then
      Except.ok ["4242", "/postgresql/data", "1699000000", "5432", "/var/run/postgresql",
        "*", "  5432001    131072", "ready   "]
    else Except.error "no such file or directory"
  statStandbySignal := StatResult.found
  parseSingleQuery := fun _ => Except.error "unparsable"
  parsePrimaryConnInfo := fun _ => none
  username := "postgres"
  password := "secret"
  openConf := none
  writeConf := "write /postgresql/conf/postgresql.conf: bad file descriptor"
  createStandbySignal := none
  newLocalPool := none

/-- A host without the standby signal file. -/
def freshHost : Host :=
  { quietHost with statStandbySignal := StatResult.notExist }

/-- A cluster whose leader is the member `m2`. -/
def ledByM2 : Cluster where
  LeaderName := "m2"
  Members := [Member.mk "m1" "5432", Member.mk "m2" "5432"]
  OpTime := 1000
  MaxLagOnSwitchover := 100

/-- A world whose local server reports its `primary_conninfo` setting. -/
def followerWorld : World :=
  { quietWorld with
    query := fun conn sql =>
      if conn = Conn.localDB ∧ sql = primaryConnInfoSQL then
        Except.ok [[("name", JVal.str "primary_conninfo"),
          ("setting", JVal.str "host=m1.pg-headless port=5432")]]
      else Except.error "connection refused" }

/-- A host whose helpers read the recovery parameters of `followerWorld`: the configured
upstream is `m1.pg-headless`. -/
def followerHost : Host :=
  { quietHost with
    parseSingleQuery := fun _ =>
      Except.ok [("name", JVal.str "primary_conninfo"),
        ("setting", JVal.str "host=m1.pg-headless port=5432")]
    parsePrimaryConnInfo := fun _ => some [("host", "m1.pg-headless"), ("port", "5432")] }

/-! ## Another healthy leader -/

/-- Modelled from the spec: `Cluster.GetMemberAddrs` (package dcs, source not at hand): the
address of every member, in the order of the members. -/
def GetMemberAddrs (w : World) (c : Cluster) : List String :=
  c.Members.map (w.GetMemberAddr c)

/-- Modelled from the spec: `Cluster.GetMemberWithHost` (package dcs, source not at hand):
the first member whose address is `host`, nil when there is none. -/
def GetMemberWithHost (w : World) (c : Cluster) (host : String) : Option Member :=
  c.Members.find? (fun m => w.GetMemberAddr c m = host)

/-- The loop of `HasOtherHealthyLeader` over `pools` (lines 802-809), from index `i` on. -/
def healthyLeaderLoop (w : World) (c : Cluster) (hosts : List String) :
    List (Option Pool) → Nat → Run (Option Member)
  | [], _ => Run.ret none
  | none :: rest, i => healthyLeaderLoop w c hosts rest (i + 1)
  | some pool :: rest, i =>
    let leader := IsLeaderWithPool w (some pool)
    if leader.1 && leader.2.isNone then do
      let host ← index hosts i
      Run.ret (GetMemberWithHost w c host)
    else healthyLeaderLoop w c hosts rest (i + 1)

/-- The method `Manager.HasOtherHealthyLeader`. -/
def HasOtherHealthyLeader (w : World) (cluster : Option Cluster) : Run (Option Member) :=
  match cluster with
  | none => Run.panic
  | some c =>
    let hosts := GetMemberAddrs w c
    match GetOtherPoolsWithHosts w hosts with
    | Run.panic => Run.panic
    | Run.ret (pools, err) =>
      if err.isSome then Run.ret none
      else healthyLeaderLoop w c hosts pools 0

/-! ## More concrete worlds -/

/-- The world of `primaryWorld "1"` in which `psql` exits with status 0, prints the table
and writes a warning to stderr. -/
def warningWorld : World :=
  { primaryWorld "1" with
    run := fun args =>
      if args = ["psql", "replication=database", "-c", "IDENTIFY_SYSTEM"] then
        CmdResult.mk none (identifySystem "1")
          "WARNING: password file \"/root/.pgpass\" has group or world access\n"
      else CmdResult.mk none "" "" }

/-- A world whose local server is a standby with a WAL receiver on the given timeline. -/
def receiverWorld (timeline : Int) : World :=
  { quietWorld with
    query := fun conn sql =>
      if conn = Conn.localDB then
        if sql = recoverySQL then Except.ok [[("pg_is_in_recovery", JVal.bool true)]]
        else if sql = receivedTimeLineSQL then
          Except.ok [[("received_tli", JVal.int timeline)]]
        else Except.error "unknown statement"
      else Except.error "connection refused" }

/-- A world whose WAL-receiver query returns no row. -/
def noReceiverRowWorld : World :=
  { quietWorld with
    query := fun conn sql =>
      if conn = Conn.localDB ∧ sql = receivedTimeLineSQL then Except.ok []
      else Except.error "connection refused" }

/-- The world of `warningWorld` with the local server stopped in recovery on timeline 2 at
the position `0/3000000`. -/
def warningStoppedWorld : World :=
  { warningWorld with
    procRunning := false
    newProcess := some "process does not exist"
    parsePgLsn := fun _ => 50331648
    run := fun args =>
      if args = ["pg_controldata"] then
        CmdResult.mk none
          ("Database cluster state:               shut down in recovery\n" ++
           "Minimum recovery ending location:     0/3000000\n" ++
           "Min recovery ending loc's timeline:   2\n") ""
      else warningWorld.run args }

/-- A `synchronous_standby_names` value with a double-quoted member name. -/
def quotedNames : String := "FIRST 1 (\"m-1\", m2)"


/-- A world in synchronous mode whose `synchronous_standby_names` setting is `quotedNames`
and whose quorum parser accepts exactly this value. -/
def quotedNamesWorld : World :=
  { standbyWorld "m2" "on" quotedNames 950 940 with
    parsePGSyncStandby := fun s =>
      if s = quotedNames then Except.ok (PGStandby.mk ["m-1", "m2"] false)
      else Except.error "unparsable" }

end Postgres

/-! # Resource constraints

A shallow embedding of `apis/apps/v1alpha1/componentresourceconstraint_types.go`. -/

namespace V1alpha1

/-! ## Outcomes -/

/-- Outcome of running a Go function: a normal return, a runtime panic, or a loop that never
ends. -/
inductive Exec (α : Type) where
  | ret (a : α) : Exec α
  | panic : Exec α
  | hang : Exec α
deriving DecidableEq, Repr

/-- Sequencing of Go statements: a panic or an endless loop stops the rest. -/
def Exec.bind {α β : Type} (x : Exec α) (f : α → Exec β) : Exec β :=
  match x with
  | Exec.ret a => f a
  | Exec.panic => Exec.panic
  | Exec.hang => Exec.hang

instance : Monad Exec where
  pure := Exec.ret
  bind := Exec.bind

/-! ## Decimals (`inf.Dec`) and quantities (`resource.Quantity`) -/

/-- An `inf.Dec`: the number `unscaled / 10 ^ scale`.  A `Dec` of negative scale is kept as
the equal `Dec` of scale 0, which has the same `String()`. -/
structure Dec where
  unscaled : Int
  scale : Nat
deriving DecidableEq, Repr

/-- The number a `Dec` stands for. -/
def Dec.value (d : Dec) : ℚ := (d.unscaled : ℚ) / (10 : ℚ) ^ d.scale

/-- The method `Dec.Cmp`: -1, 0 or 1 as `x` is less than, equal to or greater than `y`. -/
def Dec.Cmp (x y : Dec) : Int :=
  let a := x.unscaled * 10 ^ y.scale
  let b := y.unscaled * 10 ^ x.scale
  if a < b then -1 else if a = b then 0 else 1

/-- The method `Dec.Mul`: the exact product, the scales added. -/
def Dec.Mul (x y : Dec) : Dec := Dec.mk (x.unscaled * y.unscaled) (x.scale + y.scale)

/-- The method `Dec.Add`: the exact sum at the larger scale. -/
def Dec.Add (x y : Dec) : Dec :=
  let s := max x.scale y.scale
  Dec.mk (x.unscaled * 10 ^ (s - x.scale) + y.unscaled * 10 ^ (s - y.scale)) s

/-- How often `p` divides `n`, found in at most `fuel` divisions. -/
def factorCount (p : Nat) : Nat → Nat → Nat
  | 0, _ => 0
  | fuel + 1, n => if n ≠ 0 ∧ n % p = 0 then factorCount p fuel (n / p) + 1 else 0

/-- The method `Dec.QuoExact`: the quotient `x / y` when it is a finite decimal, nil
otherwise; division by zero panics.  The quotient is taken at the scale
`x.scale - y.scale + f`, with `f` the larger of the powers of 2 and of 5 in the denominator
of the reduced fraction `x.unscaled / y.unscaled`. -/
def Dec.QuoExact (x y : Dec) : Exec (Option Dec) :=
  if y.unscaled = 0 then Exec.panic
  else
    let denom := y.unscaled.natAbs / Int.gcd x.unscaled y.unscaled
    let f := max (factorCount 2 denom denom) (factorCount 5 denom denom)
    let num := x.unscaled * 10 ^ f
    if num % y.unscaled ≠ 0 then Exec.ret none
    else if y.scale ≤ x.scale + f then
      Exec.ret (some (Dec.mk (num / y.unscaled) (x.scale + f - y.scale)))
    else Exec.ret (some (Dec.mk (num / y.unscaled * 10 ^ (y.scale - (x.scale + f))) 0))

/-- The `count` decimal digits of `n` below `10 ^ count`, zeros included. -/
def fracDigits : Nat → Nat → List Char
  | 0, _ => []
  | count + 1, n => fracDigits count (n / 10) ++ [Nat.digitChar (n % 10)]

/-- The method `Dec.String`: plain decimal notation with `scale` digits after the point. -/
def Dec.String (d : Dec) : String :=
  if d.scale = 0 then toString d.unscaled
  else
    String.mk ((if d.unscaled < 0 then ['-'] else []) ++
      (Nat.repr (d.unscaled.natAbs / 10 ^ d.scale)).data ++
      '.' :: fracDigits d.scale (d.unscaled.natAbs % 10 ^ d.scale))

/-- The function `strings.TrimRight(s, cutset)`. -/
def TrimRight (s : String) (cutset : String) : String :=
  String.mk (s.data.reverse.dropWhile (fun c => decide (c ∈ cutset.data))).reverse

/-- The function `strings.Contains(s, substr)` for a substring of one character. -/
def Contains (s : String) (c : Char) : Bool := decide (c ∈ s.data)

/-- A `resource.Quantity`: the decimal number it holds, as it is written. -/
structure Quantity where
  dec : Dec
deriving DecidableEq, Repr

/-- The number of a quantity. -/
def Quantity.value (q : Quantity) : ℚ := q.dec.value

/-- The method `Quantity.AsDec`. -/
def Quantity.AsDec (q : Quantity) : Dec := q.dec

/-- The method `Quantity.IsZero`. -/
def Quantity.IsZero (q : Quantity) : Bool := decide (q.dec.unscaled = 0)

/-- The method `Quantity.Cmp`. -/
def Quantity.Cmp (q y : Quantity) : Int := q.dec.Cmp y.dec

/-- The zero value of `resource.Quantity`. -/
def Quantity.zero : Quantity := Quantity.mk (Dec.mk 0 0)

/-- The call `resource.MustParse(d.String())`: the quantity of the decimal, rounded away
from zero to nine digits after the point when it has more. -/
def Quantity.ofDec (d : Dec) : Quantity :=
  if d.scale ≤ 9 then Quantity.mk d
  else
    let unit : Nat := 10 ^ (d.scale - 9)
    let whole := d.unscaled.natAbs / unit
    let rounded := if d.unscaled.natAbs % unit = 0 then whole else whole + 1
    Quantity.mk (Dec.mk (if d.unscaled < 0 then -(rounded : Int) else (rounded : Int)) 9)

/-- The function `slices.Index(s, v)`: the first index of `v`, -1 when it is not in `s`. -/
def slicesIndex (s : List Quantity) (v : Quantity) : Int :=
  if v ∈ s then (s.indexOf v : Int) else -1

/-! ## Constraints and resource lists -/

/-- The type `CPUConstraint`; `Slots` is a slice, nil when it is not set. -/
structure CPUConstraint where
  Max : Option Quantity
  Min : Option Quantity
  Step : Option Quantity
  Slots : Option (List Quantity)
deriving DecidableEq, Repr

/-- The type `MemoryConstraint`. -/
structure MemoryConstraint where
  SizePerCPU : Option Quantity
  MaxPerCPU : Option Quantity
  MinPerCPU : Option Quantity
deriving DecidableEq, Repr

/-- The type `StorageConstraint`. -/
structure StorageConstraint where
  Min : Option Quantity
  Max : Option Quantity
deriving DecidableEq, Repr

/-- The type `ResourceConstraint`. -/
structure ResourceConstraint where
  CPU : CPUConstraint
  Memory : MemoryConstraint
  Storage : StorageConstraint
deriving DecidableEq, Repr

/-- A `corev1.ResourceList` with the three resources the constraint looks at. -/
structure ResourceList where
  cpu : Option Quantity
  memory : Option Quantity
  storage : Option Quantity
deriving DecidableEq, Repr

/-- The method `ResourceList.Cpu`: the zero quantity when the resource is not listed. -/
def ResourceList.Cpu (r : ResourceList) : Quantity := r.cpu.getD Quantity.zero

/-- The method `ResourceList.Memory`. -/
def ResourceList.Memory (r : ResourceList) : Quantity := r.memory.getD Quantity.zero

/-- The method `ResourceList.Storage`. -/
def ResourceList.Storage (r : ResourceList) : Quantity := r.storage.getD Quantity.zero

/-- The length of a slice that may be nil. -/
def sliceLen (s : Option (List Quantity)) : Nat := (s.getD []).length

/-- Lines 150-159 of `ValidateCPU`: whether the check of `Step` lets the value pass. -/
def stepAllows (step : Option Quantity) (cpu : Quantity) : Exec Bool :=
  match step with
  | none => Exec.ret true
  | some st => do
    let result ← Dec.QuoExact cpu.AsDec st.AsDec
    match result with
    | none => Exec.ret false
    | some quotient =>
      if Contains (TrimRight quotient.String ".0") '.' then Exec.ret false
      else Exec.ret true

/-- The method `ResourceConstraint.ValidateCPU`, for a `cpu` as `resource.MustParse` gives
it.  The step check calls `cpu.AsDec()`, which moves the number of `*cpu` into a new
`inf.Dec`; `slices.Index` compares quantities with `==`, pointers included, so after the
step check `*cpu` equals no slot. -/
def ValidateCPU (m : ResourceConstraint) (cpu : Quantity) : Exec Bool :=
  if cpu.IsZero then Exec.ret true
  else if (match m.CPU.Min with
      | some mn => decide (mn.Cmp cpu > 0)
      | none => false) then Exec.ret false
  else if (match m.CPU.Max with
      | some mx => decide (mx.Cmp cpu < 0)
      | none => false) then Exec.ret false
  else do
    let allowed ← stepAllows m.CPU.Step cpu
    if !allowed then Exec.ret false
    else
      match m.CPU.Slots with
      | some slots =>
        let found : Int := if m.CPU.Step.isSome then -1 else slicesIndex slots cpu
        if found < 0 then Exec.ret false else Exec.ret true
      | none => Exec.ret true

/-- The loop of the default case of `ValidateMemory`, run at most `fuel` times. -/
def stepSlots (max step : Quantity) : Nat → Quantity → List Quantity
  | 0, _ => []
  | fuel + 1, slot =>
    if slot.Cmp max ≤ 0 then
      slot :: stepSlots max step fuel (Quantity.ofDec (Dec.Add slot.AsDec step.AsDec))
    else []

/-- The default case of the switch in `ValidateMemory`: the slots from `Min` to `Max` in
steps of `Step`.  With a step that is not positive the loop never ends; with a positive one
it ends within the number of steps between `Min` and `Max`. -/
def defaultSlots (m : ResourceConstraint) : Exec (List Quantity) :=
  match m.CPU.Min with
  | none => Exec.panic
  | some mn =>
    match m.CPU.Max with
    | none => Exec.panic
    | some mx =>
      if mn.Cmp mx > 0 then Exec.ret []
      else
        match m.CPU.Step with
        | none => Exec.panic
        | some st =>
          if st.dec.unscaled ≤ 0 then Exec.hang
          else
            let s := max (max mn.dec.scale mx.dec.scale) st.dec.scale
            let span := mx.dec.unscaled * 10 ^ (s - mx.dec.scale) -
              mn.dec.unscaled * 10 ^ (s - mn.dec.scale)
            let stride := st.dec.unscaled * 10 ^ (s - st.dec.scale)
            Exec.ret (stepSlots mx st ((span / stride).toNat + 2) mn)

/-- The loop of `ValidateMemory` over the slots. -/
def memoryMatches (m : ResourceConstraint) (memory : Quantity) : List Quantity → Exec Bool
  | [] => Exec.ret false
  | slot :: rest =>
    if (match m.Memory.SizePerCPU with
        | some size => !size.IsZero
        | none => false) then
      match m.Memory.SizePerCPU with
      | none => Exec.panic
      | some size =>
        if (Dec.Mul slot.AsDec size.AsDec).Cmp memory.AsDec = 0 then Exec.ret true
        else memoryMatches m memory rest
    else
      match m.Memory.MaxPerCPU with
      | none => Exec.panic
      | some maxPer =>
        match m.Memory.MinPerCPU with
        | none => Exec.panic
        | some minPer =>
          let maxMemory := Dec.Mul slot.AsDec maxPer.AsDec
          let minMemory := Dec.Mul slot.AsDec minPer.AsDec
          if maxMemory.Cmp memory.AsDec ≥ 0 ∧ minMemory.Cmp memory.AsDec ≤ 0 then
            Exec.ret true
          else memoryMatches m memory rest

/-- The method `ResourceConstraint.ValidateMemory`; `cpu` may be nil. -/
def ValidateMemory (m : ResourceConstraint) (cpu : Option Quantity) (memory : Quantity) :
    Exec Bool :=
  if memory.IsZero then Exec.ret true
  else do
    let slots ←
      (if (match cpu with
          | some c => !c.IsZero
          | none => false) then Exec.ret (match cpu with
          | some c => [c]
          | none => [])
      else if sliceLen m.CPU.Slots > 0 then Exec.ret (m.CPU.Slots.getD [])
      else defaultSlots m)
    memoryMatches m memory slots

/-- The method `ResourceConstraint.ValidateStorage`. -/
def ValidateStorage (m : ResourceConstraint) (storage : Quantity) : Bool :=
  if storage.IsZero then true
  else if (match m.Storage.Min with
      | some mn => decide (mn.Cmp storage > 0)
      | none => false) then false
  else if (match m.Storage.Max with
      | some mx => decide (mx.Cmp storage < 0)
      | none => false) then false
  else true

/-- The method `ResourceConstraint.ValidateResources`. -/
def ValidateResources (m : ResourceConstraint) (r : ResourceList) : Exec Bool := do
  let cpuOk ← ValidateCPU m r.Cpu
  if !cpuOk then Exec.ret false
  else do
    let memoryOk ← ValidateMemory m (some r.Cpu) r.Memory
    if !memoryOk then Exec.ret false
    else if !ValidateStorage m r.Storage then Exec.ret false
    else Exec.ret true

/-- The method `ResourceConstraint.GetMinimalResources`. -/
def GetMinimalResources (m : ResourceConstraint) : Exec ResourceList :=
  if decide (sliceLen m.CPU.Slots = 0) && (match m.CPU.Min with
      | some mn => mn.IsZero
      | none => true) then
    Exec.ret (ResourceList.mk (some (Quantity.mk (Dec.mk 1 0)))
      (some (Quantity.mk (Dec.mk 1073741824 0))) none)
  else do
    let first : Quantity :=
      if sliceLen m.CPU.Slots > 0 then (m.CPU.Slots.getD []).headD Quantity.zero
      else Quantity.zero
    let minCPU ←
      (if first.IsZero || (match m.CPU.Min with
          | some mn => decide (first.Cmp mn > 0)
          | none => false) then
        match m.CPU.Min with
        | some mn => Exec.ret mn
        | none => Exec.panic
      else Exec.ret first)
    let memory ←
      (match m.Memory.MinPerCPU with
      | some minPer => Exec.ret (Dec.Mul minCPU.AsDec minPer.AsDec)
      | none =>
        match m.Memory.SizePerCPU with
        | some size => Exec.ret (Dec.Mul minCPU.AsDec size.AsDec)
        | none => Exec.panic)
    Exec.ret (ResourceList.mk (some minCPU) (some (Quantity.ofDec memory)) none)

/-! ## Concrete constraints -/

/-- The quantity of a whole number. -/
def whole (n : Int) : Quantity := Quantity.mk (Dec.mk n 0)

/-- The quantity of a number of tenths. -/
def tenths (n : Int) : Quantity := Quantity.mk (Dec.mk n 1)

/-- No memory constraint. -/
def noMemory : MemoryConstraint := MemoryConstraint.mk none none none

/-- No storage constraint. -/
def noStorage : StorageConstraint := StorageConstraint.mk none none

/-- The first example of the documentation of `Step`: Min 2, Max 8, Step 2. -/
def evenCores : ResourceConstraint :=
  ResourceConstraint.mk (CPUConstraint.mk (some (whole 8)) (some (whole 2)) (some (whole 2)) none)
    noMemory noStorage

/-- The second example of the documentation of `Step`: Min 0.5, Max 2, Step 0.5. -/
def halfCores : ResourceConstraint :=
  ResourceConstraint.mk
    (CPUConstraint.mk (some (whole 2)) (some (tenths 5)) (some (tenths 5)) none)
    noMemory noStorage

/-- The quantity `1Gi`. -/
def gibi : Quantity := whole 1073741824

/-- A constraint of one gibibyte of memory per core, whatever the number of cores. -/
def gibiPerCore : ResourceConstraint :=
  ResourceConstraint.mk (CPUConstraint.mk none none none none)
    (MemoryConstraint.mk (some gibi) none none) noStorage

/-- A constraint of one to four gibibytes of memory per core. -/
def gibiRange : ResourceConstraint :=
  ResourceConstraint.mk (CPUConstraint.mk none none none none)
    (MemoryConstraint.mk none (some (whole 4294967296)) (some gibi)) noStorage

/-- The slots 4 and 8, with the range of `halfCores` (Min 0.5, Max 2, Step 0.5) left in
place. -/
def slotsWithRange : ResourceConstraint :=
  ResourceConstraint.mk
    (CPUConstraint.mk (some (whole 2)) (some (tenths 5)) (some (tenths 5))
      (some [whole 4, whole 8]))
    noMemory noStorage

/-- The slots 4 and 8 alone. -/
def slotsOnly : ResourceConstraint :=
  ResourceConstraint.mk (CPUConstraint.mk none none none (some [whole 4, whole 8]))
    noMemory noStorage

/-- At least one gibibyte of memory per core, no other memory constraint. -/
def gibiAtLeast : ResourceConstraint :=
  ResourceConstraint.mk (CPUConstraint.mk none none none none)
    (MemoryConstraint.mk none none (some gibi)) noStorage

/-- At most half a core, one gibibyte per core. -/
def atMostHalf : ResourceConstraint :=
  ResourceConstraint.mk (CPUConstraint.mk (some (tenths 5)) none none none)
    (MemoryConstraint.mk (some gibi) none none) noStorage

/-- The slots 2 and 1, in this order, one gibibyte per core. -/
def unsortedSlots : ResourceConstraint :=
  ResourceConstraint.mk (CPUConstraint.mk none none none (some [whole 2, whole 1]))
    (MemoryConstraint.mk (some gibi) none none) noStorage

end V1alpha1

/-! # OIDC round tripper

A shallow embedding of `internal/cli/cmd/cloud/auth/provider/oidc.go`. -/

namespace Authprovider

open Postgres (GoError)

/-- A Go `http.Header`: the map from header name to values, as the list of its entries. -/
abbrev Header := List (String × List String)

/-- The map read `h[key]`. -/
def Header.lookup (h : Header) (key : String) : Option (List String) :=
  match h with
  | [] => none
  | (k, v) :: rest => if k = key then some v else Header.lookup rest key

/-- The map assignment `h[key] = values`. -/
def Header.assign (h : Header) (key : String) (values : List String) : Header :=
  match h with
  | [] => [(key, values)]
  | (k, v) :: rest =>
    if k = key then (k, values) :: rest else (k, v) :: Header.assign rest key values

/-- The method `Header.Get` for a key in canonical form, as `Authorization` is: the first
value of the key, the empty string when there is none. -/
def Header.Get (h : Header) (key : String) : String :=
  match h.lookup key with
  | some (v :: _) => v
  | _ => ""

/-- The method `Header.Set` for a key in canonical form: the key gets the one value. -/
def Header.Set (h : Header) (key : String) (value : String) : Header :=
  h.assign key [value]

/-- The header maps that exist, each at its address: a map is a reference in Go, and two
requests may hold the same one. -/
abbrev Store := List Header

/-- The map at an address (the empty map at an address not in use). -/
def Store.read (st : Store) (addr : Nat) : Header := st.getD addr []

/-- The map at an address replaced. -/
def Store.write (st : Store) (addr : Nat) (h : Header) : Store := st.set addr h

/-- The fields of `http.Request` that matter here: `Header` holds the address of the map;
the other fields are copied as they are by `*r2 = *req`. -/
structure Request where
  Method : String
  URL : String
  Header : Nat
deriving DecidableEq, Repr

/-- The loop `for k, s := range req.Header` of `RoundTrip`: each entry is assigned to the map
at `target`. -/
def copyHeader (target : Nat) : List (String × List String) → Store → Store
  | [], st => st
  | (k, s) :: rest, st =>
    copyHeader target rest (st.write target ((st.read target).assign k s))

/-- The surroundings of a round tripper: the answer of `provider.GetIDToken()`. -/
structure Provider where
  GetIDToken : String × Option GoError

/-- What `RoundTrip` did: the store when it hands over to the wrapped transport (or
returns), the request it passed to `wrapped.RoundTrip` if any, whether it asked the provider
for a token, and its own error. -/
structure Trip where
  store : Store
  forwarded : Option Request
  tokenFetched : Bool
  err : Option GoError
deriving DecidableEq, Repr

/-- The method `roundTripper.RoundTrip` up to the call of the wrapped transport. -/
def RoundTrip (provider : Provider) (st : Store) (req : Request) : Trip :=
  if ((st.read req.Header).Get "Authorization").length ≠ 0 then
    Trip.mk st (some req) false none
  else
    match provider.GetIDToken with
    | (_, some err) => Trip.mk st none true (some ("auth error: " ++ err))
    | (token, none) =>
      let fresh := st.length
      let st1 := st ++ [[]]
      let r2 : Request := { req with Header := fresh }
      let st2 := copyHeader fresh (st.read req.Header) st1
      let st3 := st2.write fresh ((st2.read fresh).Set "Authorization" ("Bearer " ++ token))
      Trip.mk st3 (some r2) true none

/-- A store of one map with the headers `Accept` and `User-Agent`. -/
def plainStore : Store := [[("Accept", ["application/json"]), ("User-Agent", ["kbcli"])]]

/-- A store of one map that holds an `Authorization` header. -/
def signedStore : Store := [[("Accept", ["application/json"]), ("Authorization", ["Bearer old"])]]

/-- A request whose header map is at address 0. -/
def firstRequest : Request := Request.mk "GET" "https://api.example/v1/targets" 0

/-- A provider with the token `tok`. -/
def tokProvider : Provider := Provider.mk ("tok", none)

end Authprovider

/-! # Theorems -/

namespace Postgres

@[simp] theorem Run.ret_bind {α β : Type} (a : α) (f : α → Run β) :
    (Run.ret a >>= f) = f a := rfl

@[simp] theorem Run.panic_bind {α β : Type} (f : α → Run β) :
    ((Run.panic : Run α) >>= f) = Run.panic := rfl

@[simp] theorem Run.pure_eq {α : Type} (a : α) : (pure a : Run α) = Run.ret a := rfl

/-! ## The rewind decision (C1 to C4) -/

theorem needRewindWith_gt (H : Option (List history)) (r : Bool) (tl lsn ptl : Int)
    (h : tl > ptl) : needRewindWith H r tl lsn ptl = true := by
  simp [needRewindWith, h]

theorem needRewindWith_eq (H : Option (List history)) (r : Bool) (tl lsn : Int) :
    needRewindWith H r tl lsn tl = false := by
  simp [needRewindWith]

theorem needRewindWith_getHistory_lt (r : Bool) (tl lsn ptl : Int) (h : tl < ptl) :
    needRewindWith getHistory r tl lsn ptl = false := by
  have h1 : ¬ tl > ptl := by omega
  have h2 : ¬ tl = ptl := by omega
  simp only [needRewindWith, getHistory, h1, h2, if_false]
  split_ifs <;> simp

theorem needRewindWith_lt (H : Option (List history)) (r : Bool) (tl lsn ptl : Int)
    (hlt : tl < ptl) (hp : 1 < ptl) :
    needRewindWith H r tl lsn ptl =
      match H with
      | some hs => walkHistory r tl lsn hs false
      | none => false := by
  have h1 : ¬ tl > ptl := by omega
  have h2 : ¬ tl = ptl := by omega
  cases H <;> simp [needRewindWith, h1, h2, hp]

theorem walkHistory_entry (isRecovery : Bool) (tl lsn : Int) (h : history) (b : Bool) :
    ∀ hs : List history, h ∈ hs → h.parentTimeline = tl →
      (∀ x ∈ hs, x.parentTimeline = tl → x.switchPoint = h.switchPoint) →
      pastSwitchPoint isRecovery lsn h →
      walkHistory isRecovery tl lsn hs b = true := by
  intro hs
  induction hs with
  | nil => intro hmem; simp at hmem
  | cons x rest ih =>
    intro hmem hpar huniq hpast
    unfold walkHistory
    by_cases hx : x.parentTimeline = tl
    · have hsw : x.switchPoint = h.switchPoint := huniq x (List.mem_cons_self _ _) hx
      unfold pastSwitchPoint at hpast
      cases isRecovery <;> simp_all
    · have hne : h ≠ x := fun heq => hx (heq ▸ hpar)
      have hrest : h ∈ rest := by
        rcases List.mem_cons.mp hmem with heq | hin
        · exact absurd heq hne
        · exact hin
      simp only [hx, if_false]
      split_ifs
      · rfl
      · exact ih hrest hpar (fun y hy => huniq y (List.mem_cons_of_mem _ hy)) hpast

theorem walkHistory_no_entry (isRecovery : Bool) (tl lsn : Int) (b : Bool) :
    ∀ hs : List history, (∀ x ∈ hs, x.parentTimeline ≠ tl) →
      walkHistory isRecovery tl lsn hs b =
        (hs.any (fun x => decide (x.parentTimeline > tl)) || b) := by
  intro hs
  induction hs with
  | nil => intro _; simp [walkHistory]
  | cons x rest ih =>
    intro hne
    have hx : x.parentTimeline ≠ tl := hne x (List.mem_cons_self _ _)
    have hrest := ih (fun y hy => hne y (List.mem_cons_of_mem _ hy))
    unfold walkHistory
    simp only [hx, if_false]
    by_cases hgt : x.parentTimeline > tl
    · simp [hgt]
    · simp [hgt, hrest]

theorem checkTimelineAndLsnPool_eq (w : World) (pool : Option Pool) (isRecovery : Bool)
    (localTimeLine localLsn primaryTimeLine : Int)
    (hrole : GetMemberStateWithPool w pool = (PRIMARY, none))
    (hprimary : getPrimaryTimeLine w = Run.ret (primaryTimeLine, none)) :
    checkTimelineAndLsnPool w isRecovery localTimeLine localLsn pool =
      Run.ret (needRewindWith getHistory isRecovery localTimeLine localLsn primaryTimeLine) := by
  simp [checkTimelineAndLsnPool, hrole, hprimary]

theorem checkTimelineAndLsnLocal_zero (w : World) (cluster : Option Cluster) (isRecovery : Bool)
    (localTimeLine localLsn : Int) (h : localTimeLine = 0 ∨ localLsn = 0) :
    checkTimelineAndLsnLocal w cluster isRecovery localTimeLine localLsn = Run.ret false := by
  simp [checkTimelineAndLsnLocal, h]

theorem checkTimelineAndLsnLocal_cases (w : World) (cluster : Option Cluster)
    (isRecovery : Bool) (localTimeLine localLsn : Int) :
    checkTimelineAndLsnLocal w cluster isRecovery localTimeLine localLsn = Run.ret false ∨
    checkTimelineAndLsnLocal w cluster isRecovery localTimeLine localLsn = Run.panic ∨
    ∃ pool, checkTimelineAndLsnLocal w cluster isRecovery localTimeLine localLsn =
      checkTimelineAndLsnPool w isRecovery localTimeLine localLsn pool := by
  unfold checkTimelineAndLsnLocal
  split_ifs with hz
  · exact Or.inl rfl
  · cases cluster with
    | none => exact Or.inr (Or.inl rfl)
    | some c =>
      simp only []
      cases c.GetMemberWithName c.LeaderName with
      | none => exact Or.inr (Or.inl rfl)
      | some leader =>
        simp only []
        cases GetOtherPoolsWithHosts w [w.GetMemberAddr c leader] with
        | panic => exact Or.inr (Or.inl rfl)
        | ret res =>
          obtain ⟨pools, err⟩ := res
          simp only []
          split_ifs with herr
          · exact Or.inl rfl
          · cases hidx : index pools 0 with
            | panic => exact Or.inr (Or.inl rfl)
            | ret pool =>
              simp only [Run.ret_bind]
              split_ifs
              · exact Or.inl rfl
              · exact Or.inr (Or.inr ⟨pool, rfl⟩)

/-- C1, as stated, fails: the local server of `stoppedWorld` is on timeline 2 with LSN 0, the
primary is on timeline 1, and `checkTimelineAndLsn` returns false (line 515 returns before any
timeline is compared). -/
theorem checkTimelineAndLsn_ahead_zero_lsn :
    getLocalTimeLineAndLsn stoppedWorld = Run.ret (true, 2, 0) ∧
    getPrimaryTimeLine stoppedWorld = Run.ret (1, none) ∧ (2 : Int) > 1 ∧
    checkTimelineAndLsn stoppedWorld (some twoMembers) = Run.ret false := by
  decide

/-- C1 (amended): from the pool of the leader on, when the leader reports the primary role
and its timeline is read without error, a local timeline strictly greater than the primary
timeline makes `checkTimelineAndLsn` return true; with a local timeline or a local LSN of 0
it returns false before that. -/
theorem checkTimelineAndLsn_ahead (w : World) (cluster : Option Cluster) (pool : Option Pool)
    (isRecovery : Bool) (localTimeLine localLsn primaryTimeLine : Int)
    (hrole : GetMemberStateWithPool w pool = (PRIMARY, none))
    (hprimary : getPrimaryTimeLine w = Run.ret (primaryTimeLine, none))
    (hgt : localTimeLine > primaryTimeLine) :
    checkTimelineAndLsnPool w isRecovery localTimeLine localLsn pool = Run.ret true ∧
    (localTimeLine = 0 ∨ localLsn = 0 →
      checkTimelineAndLsnLocal w cluster isRecovery localTimeLine localLsn = Run.ret false) := by
  refine ⟨?_, checkTimelineAndLsnLocal_zero w cluster isRecovery localTimeLine localLsn⟩
  rw [checkTimelineAndLsnPool_eq w pool isRecovery localTimeLine localLsn primaryTimeLine hrole
    hprimary, needRewindWith_gt _ _ _ _ _ hgt]

/-- Witness of `checkTimelineAndLsn_ahead`: local timeline 2 against a primary on timeline 1. -/
theorem checkTimelineAndLsn_ahead_witness :
    checkTimelineAndLsnPool (primaryWorld "1") true 2 100 (some (Pool.forHost "m1")) =
      Run.ret true :=
  (checkTimelineAndLsn_ahead (primaryWorld "1") (some twoMembers) (some (Pool.forHost "m1"))
    true 2 100 1 (by decide) (by decide) (by decide)).1

/-- C2: when the local timeline equals the primary timeline, the decision is false for every
local LSN, in-recovery flag and history, and `checkTimelineAndLsn` returns false from the
pool of the leader on (and never true from line 515 on). -/
theorem checkTimelineAndLsn_same_timeline (w : World) (cluster : Option Cluster)
    (pool : Option Pool) (isRecovery : Bool) (timeLine localLsn : Int)
    (fetchHistory : Option (List history))
    (hprimary : getPrimaryTimeLine w = Run.ret (timeLine, none)) :
    needRewindWith fetchHistory isRecovery timeLine localLsn timeLine = false ∧
    checkTimelineAndLsnPool w isRecovery timeLine localLsn pool = Run.ret false ∧
    checkTimelineAndLsnLocal w cluster isRecovery timeLine localLsn ≠ Run.ret true := by
  have hpool : ∀ p, checkTimelineAndLsnPool w isRecovery timeLine localLsn p = Run.ret false := by
    intro p
    unfold checkTimelineAndLsnPool
    rcases hst : GetMemberStateWithPool w p with ⟨role, _ | err⟩
    · simp only []
      split_ifs
      · rfl
      · simp [hprimary, needRewindWith_eq]
    · rfl
  refine ⟨needRewindWith_eq _ _ _ _, hpool pool, ?_⟩
  rcases checkTimelineAndLsnLocal_cases w cluster isRecovery timeLine localLsn with
    h | h | ⟨p, h⟩
  · rw [h]; simp
  · rw [h]; simp
  · rw [h, hpool p]; simp

/-- Witness of `checkTimelineAndLsn_same_timeline`: both servers on timeline 3. -/
theorem checkTimelineAndLsn_same_timeline_witness :
    needRewindWith (some [history.mk 3 50]) false 3 100 3 = false ∧
    checkTimelineAndLsnPool (primaryWorld "3") false 3 100 (some (Pool.forHost "m1")) =
      Run.ret false ∧
    checkTimelineAndLsnLocal (primaryWorld "3") (some twoMembers) false 3 100 ≠ Run.ret true :=
  checkTimelineAndLsn_same_timeline (primaryWorld "3") (some twoMembers)
    (some (Pool.forHost "m1")) false 3 100 (some [history.mk 3 50]) (by decide)

/-- C3, as stated, fails: the primary is on timeline 2, its history has the entry of parent
timeline 1 with switch point 100 and the local server is on timeline 1 at LSN 200, so the
walk over that history says true; `getHistory` returns no entries and `checkTimelineAndLsn`
returns false. -/
theorem checkTimelineAndLsn_history_not_read :
    (∃ h ∈ [history.mk 1 100], h.parentTimeline = 1 ∧ (200 : Int) ≥ h.switchPoint) ∧
    needRewindWith (some [history.mk 1 100]) false 1 200 2 = true ∧
    GetMemberStateWithPool (primaryWorld "2") (some (Pool.forHost "m1")) = (PRIMARY, none) ∧
    getPrimaryTimeLine (primaryWorld "2") = Run.ret (2, none) ∧
    checkTimelineAndLsnPool (primaryWorld "2") false 1 200 (some (Pool.forHost "m1")) =
      Run.ret false := by
  decide

/-- C3 (amended): with a local timeline below the primary timeline `checkTimelineAndLsn`
returns false, because `getHistory` returns no entries; the walk it would make over a history
returns true when the entry of the local timeline (one switch point for that parent) has the
local LSN at or past its switch point (strictly past it in recovery), and when no entry has
the local timeline as parent but some entry has a greater parent. -/
theorem checkTimelineAndLsn_behind (w : World) (pool : Option Pool) (isRecovery : Bool)
    (localTimeLine localLsn primaryTimeLine : Int)
    (hrole : GetMemberStateWithPool w pool = (PRIMARY, none))
    (hprimary : getPrimaryTimeLine w = Run.ret (primaryTimeLine, none))
    (hpos : 0 < localTimeLine) (hlt : localTimeLine < primaryTimeLine) :
    checkTimelineAndLsnPool w isRecovery localTimeLine localLsn pool = Run.ret false ∧
    (∀ (hs : List history) (h : history), h ∈ hs → h.parentTimeline = localTimeLine →
      (∀ x ∈ hs, x.parentTimeline = localTimeLine → x.switchPoint = h.switchPoint) →
      pastSwitchPoint isRecovery localLsn h →
      needRewindWith (some hs) isRecovery localTimeLine localLsn primaryTimeLine = true) ∧
    (∀ hs : List history, (∀ x ∈ hs, x.parentTimeline ≠ localTimeLine) →
      (∃ x ∈ hs, x.parentTimeline > localTimeLine) →
      needRewindWith (some hs) isRecovery localTimeLine localLsn primaryTimeLine = true) := by
  have hp : 1 < primaryTimeLine := by omega
  refine ⟨?_, ?_, ?_⟩
  · rw [checkTimelineAndLsnPool_eq w pool isRecovery localTimeLine localLsn primaryTimeLine
      hrole hprimary, needRewindWith_getHistory_lt _ _ _ _ hlt]
  · intro hs h hmem hpar huniq hpast
    rw [needRewindWith_lt _ _ _ _ _ hlt hp]
    exact walkHistory_entry isRecovery localTimeLine localLsn h false hs hmem hpar huniq hpast
  · intro hs hne hex
    rw [needRewindWith_lt _ _ _ _ _ hlt hp]
    simp only []
    rw [walkHistory_no_entry isRecovery localTimeLine localLsn false hs hne]
    obtain ⟨x, hx, hgt⟩ := hex
    simp only [Bool.or_false, List.any_eq_true, decide_eq_true_eq]
    exact ⟨x, hx, hgt⟩

/-- Witness of `checkTimelineAndLsn_behind`: local timeline 1 against a primary on
timeline 2. -/
theorem checkTimelineAndLsn_behind_witness :
    checkTimelineAndLsnPool (primaryWorld "2") false 1 200 (some (Pool.forHost "m1")) =
      Run.ret false ∧
    needRewindWith (some [history.mk 1 100]) false 1 200 2 = true ∧
    needRewindWith (some [history.mk 2 100]) false 1 200 2 = true :=
  have h := checkTimelineAndLsn_behind (primaryWorld "2") (some (Pool.forHost "m1")) false
    1 200 2 (by decide) (by decide) (by decide) (by decide)
  ⟨h.1,
    h.2.1 [history.mk 1 100] (history.mk 1 100) (by decide) rfl
      (by intro x hx _; simp at hx; rw [hx]) (by decide),
    h.2.2 [history.mk 2 100] (by decide) (by decide)⟩

/-- C4, as stated, fails: the primary is on timeline 3, the local server on timeline 1 at
LSN 200, no history entry has parent timeline 1 (`getHistory` returns none at all), and
`checkTimelineAndLsn` returns false; so does the walk over a history whose only entry has
parent timeline 0. -/
theorem checkTimelineAndLsn_no_entry_no_rewind :
    GetMemberStateWithPool (primaryWorld "3") (some (Pool.forHost "m1")) = (PRIMARY, none) ∧
    getPrimaryTimeLine (primaryWorld "3") = Run.ret (3, none) ∧ (1 : Int) < 3 ∧ (3 : Int) > 1 ∧
    getHistory = none ∧
    checkTimelineAndLsnPool (primaryWorld "3") false 1 200 (some (Pool.forHost "m1")) =
      Run.ret false ∧
    needRewindWith (some [history.mk 0 50]) false 1 200 3 = false := by
  decide

/-- C4 (amended): when the local timeline is below the primary timeline, the primary
timeline is greater than 1 and no entry of the history walked has the local timeline as
parent, the decision is true exactly when some entry has a parent timeline greater than the
local timeline; with the entries `getHistory` returns (none) it is false. -/
theorem needRewind_without_entry (fetchHistory : Option (List history)) (isRecovery : Bool)
    (localTimeLine localLsn primaryTimeLine : Int)
    (hlt : localTimeLine < primaryTimeLine) (hp : 1 < primaryTimeLine)
    (hno : ∀ hs, fetchHistory = some hs → ∀ x ∈ hs, x.parentTimeline ≠ localTimeLine) :
    needRewindWith fetchHistory isRecovery localTimeLine localLsn primaryTimeLine =
      (match fetchHistory with
       | some hs => hs.any (fun x => decide (x.parentTimeline > localTimeLine))
       | none => false) ∧
    needRewindWith getHistory isRecovery localTimeLine localLsn primaryTimeLine = false := by
  refine ⟨?_, needRewindWith_getHistory_lt _ _ _ _ hlt⟩
  rw [needRewindWith_lt _ _ _ _ _ hlt hp]
  cases fetchHistory with
  | none => rfl
  | some hs =>
    simp only []
    rw [walkHistory_no_entry isRecovery localTimeLine localLsn false hs (hno hs rfl)]
    simp

/-- Witness of `needRewind_without_entry`: a history whose entries have the parents 0 and 2,
walked for the local timeline 1 under a primary on timeline 3. -/
theorem needRewind_without_entry_witness :
    needRewindWith (some [history.mk 0 50, history.mk 2 300]) false 1 200 3 =
      [history.mk 0 50, history.mk 2 300].any (fun x => decide (x.parentTimeline > 1)) ∧
    needRewindWith getHistory false 1 200 3 = false :=
  needRewind_without_entry (some [history.mk 0 50, history.mk 2 300]) false 1 200 3
    (by decide) (by decide)
    (by
      intro hs hhs x hx
      cases hhs
      simp at hx
      rcases hx with rfl | rfl <;> decide)

/-! ## Lag and member health (C5, C7, C10) -/

theorem trim_head_not (f : Char → Bool) (l : List Char) (c : Char) (rest : List Char)
    (h : ((l.dropWhile f).reverse.dropWhile f).reverse = c :: rest) : f c = false := by
  have hp : (c :: rest) <+: l.dropWhile f := by
    rw [← h]
    exact List.rdropWhile_prefix f (List.dropWhile f l)
  obtain ⟨t, ht⟩ := hp
  have hhead := List.head?_dropWhile_not f l
  rw [← ht] at hhead
  simpa using hhead

theorem parseIntBody_range (ds : List Char) :
    0 ≤ (parseIntBody false ds 64).1 ∧ (parseIntBody false ds 64).1 < 2 ^ 63 := by
  unfold parseIntBody
  cases ds with
  | nil => simp
  | cons d ds =>
    simp only []
    cases parseDecimal (d :: ds) 0 with
    | none => simp
    | some n =>
      by_cases h1 : 2 ^ (64 - 1) ≤ n
      · have h1' : 9223372036854775808 ≤ n := by simpa using h1
        simp [h1']
      · have h2 : (n : Int) < ((2 ^ (64 - 1) : Nat) : Int) := by
          exact_mod_cast Nat.lt_of_not_le h1
        have h3 : (0 : Int) ≤ (n : Int) := Int.natCast_nonneg n
        simp only [Bool.not_false, Bool.true_and, decide_eq_true_eq, h1, if_false,
          Bool.false_and, Bool.false_eq_true]
        constructor
        · exact h3
        · simpa using h2

theorem ParseInt_trim_range (s : String) :
    0 ≤ (ParseInt (TrimFunc s (fun r => !IsDigit r)) 64).1 ∧
    (ParseInt (TrimFunc s (fun r => !IsDigit r)) 64).1 < 2 ^ 63 := by
  unfold ParseInt TrimFunc
  simp only []
  cases h : ((s.data.dropWhile (fun r => !IsDigit r)).reverse.dropWhile
      (fun r => !IsDigit r)).reverse with
  | nil => exact parseIntBody_range []
  | cons c rest =>
    have hc := trim_head_not _ _ _ _ h
    simp only [Bool.not_eq_false_eq_eq_true, IsDigit] at hc
    split
    · rename_i heq
      simp only [List.cons.injEq] at heq
      rw [heq.1] at hc
      exact absurd hc (by decide)
    · rename_i heq
      simp only [List.cons.injEq] at heq
      rw [heq.1] at hc
      exact absurd hc (by decide)
    · exact parseIntBody_range _

theorem getLsnWithPool_range (w : World) (types : String) (pool : Option Pool) :
    0 ≤ (getLsnWithPool w types pool).1 ∧ (getLsnWithPool w types pool).1 < 2 ^ 63 := by
  unfold getLsnWithPool
  simp only []
  split
  · norm_num
  · exact ParseInt_trim_range _

theorem getLsnWithUsedPool_range (w : World) (types : String) (pool : Option Pool) :
    0 ≤ (getLsnWithUsedPool w types pool).1 ∧ (getLsnWithUsedPool w types pool).1 < 2 ^ 63 := by
  cases pool with
  | none => exact getLsnWithPool_range w types none
  | some p => simp [getLsnWithUsedPool]

theorem getWalPositionWithPool_range (w : World) (pool : Option Pool) :
    0 ≤ (getWalPositionWithPool w pool).1 ∧ (getWalPositionWithPool w pool).1 < 2 ^ 63 := by
  unfold getWalPositionWithPool
  simp only []
  split_ifs
  · split
    · norm_num
    · rename_i lsn heq
      have h := getLsnWithUsedPool_range w "current" pool
      rw [heq] at h
      exact h
  · norm_num
  · have h1 := getLsnWithUsedPool_range w "replay" pool
    have h2 := getLsnWithUsedPool_range w "receive" pool
    unfold MaxInt64
    split_ifs
    · exact h1
    · exact h2

theorem wrapInt64_of_isInt64 (x : Int) (h : isInt64 x) : wrapInt64 x = x := by
  unfold isInt64 at h
  unfold wrapInt64
  omega

theorem isLagging_of_gt (walPosition : Int) (c : Cluster) (hwal : 0 ≤ walPosition)
    (hOp : isInt64 c.OpTime) (hMax : isInt64 c.MaxLagOnSwitchover)
    (hlag : c.OpTime - walPosition > c.MaxLagOnSwitchover) :
    isLagging walPosition (some c) = Run.ret true := by
  have hin : isInt64 (c.OpTime - walPosition) := by
    unfold isInt64 at *
    omega
  simp [isLagging, wrapInt64_of_isInt64 _ hin, hlag]

theorem IsMemberHealthy_of_pools (w : World) (cluster : Option Cluster)
    (member : Option Member) (pool : Option Pool) (rest : List (Option Pool))
    (hpools : healthPools w cluster member = Run.ret (some (pool :: rest))) :
    IsMemberHealthy w cluster member =
      (healthSync w cluster member >>= fun synced =>
        if synced then
          (isLagging (getWalPositionWithPool w pool).1 cluster >>= fun lagging =>
            if lagging then Run.ret false else Run.ret true)
        else Run.ret false) := by
  simp [IsMemberHealthy, healthLag, hpools, index]

theorem IsMemberHealthy_lagging (w : World) (c : Cluster) (m : Member) (pool : Option Pool)
    (rest : List (Option Pool))
    (hOp : isInt64 c.OpTime) (hMax : isInt64 c.MaxLagOnSwitchover)
    (hpools : healthPools w (some c) (some m) = Run.ret (some (pool :: rest)))
    (hlag : c.OpTime - (getWalPositionWithPool w pool).1 > c.MaxLagOnSwitchover) :
    IsMemberHealthy w (some c) (some m) ≠ Run.ret true ∧
    (healthSync w (some c) (some m) ≠ Run.panic →
      IsMemberHealthy w (some c) (some m) = Run.ret false) := by
  have hl := isLagging_of_gt _ c (getWalPositionWithPool_range w pool).1 hOp hMax hlag
  rw [IsMemberHealthy_of_pools w (some c) (some m) pool rest hpools, hl]
  cases healthSync w (some c) (some m) with
  | panic => simp
  | ret synced => cases synced <;> simp

/-- C5: when the cluster `OpTime` minus the WAL position measured for the member exceeds
`MaxLagOnSwitchover` (all of them 64-bit values), `isLagging` returns true and
`IsMemberHealthy` does not report the member healthy: it returns false, provided the
replication-mode step before it does not crash. -/
theorem IsMemberHealthy_false_of_lag (w : World) (c : Cluster) (m : Member)
    (pool : Option Pool) (rest : List (Option Pool))
    (hOp : isInt64 c.OpTime) (hMax : isInt64 c.MaxLagOnSwitchover)
    (hpools : healthPools w (some c) (some m) = Run.ret (some (pool :: rest)))
    (hlag : c.OpTime - (getWalPositionWithPool w pool).1 > c.MaxLagOnSwitchover) :
    isLagging (getWalPositionWithPool w pool).1 (some c) = Run.ret true ∧
    IsMemberHealthy w (some c) (some m) ≠ Run.ret true ∧
    (healthSync w (some c) (some m) ≠ Run.panic →
      IsMemberHealthy w (some c) (some m) = Run.ret false) :=
  ⟨isLagging_of_gt _ c (getWalPositionWithPool_range w pool).1 hOp hMax hlag,
    IsMemberHealthy_lagging w c m pool rest hOp hMax hpools hlag⟩

/-- Witness of `IsMemberHealthy_false_of_lag`: the standby `m2` has replayed up to 100 while
the cluster is at 1000 and allows a lag of 100. -/
theorem IsMemberHealthy_false_of_lag_witness :
    isLagging (getWalPositionWithPool (standbyWorld "m2" "on" "1(m2)" 100 90) none).1
      (some fourMembers) = Run.ret true ∧
    IsMemberHealthy (standbyWorld "m2" "on" "1(m2)" 100 90) (some fourMembers)
      (some (Member.mk "m2" "5432")) = Run.ret false :=
  have h := IsMemberHealthy_false_of_lag (standbyWorld "m2" "on" "1(m2)" 100 90) fourMembers
    (Member.mk "m2" "5432") none [] (by decide) (by decide) (by decide) (by decide)
  ⟨h.1, h.2.2 (by decide)⟩

/-! ## The synchronization check (C6) -/

theorem checkStandby_eq (w : World) (c : Cluster) (memberName resp names : String)
    (spec : PGStandby)
    (hquery : Query w standbyNamesSQL = (resp, none))
    (hnames : standbyNamesOf resp = Run.ret names)
    (hparse : w.parsePGSyncStandby names = Except.ok spec) :
    checkStandbySynchronizedToLeader w memberName true (some c) =
      Run.ret (decide (memberName = c.LeaderName) || spec.Members.contains memberName
        || spec.HasStar) := by
  simp [checkStandbySynchronizedToLeader, hquery, hnames, hparse]

theorem IsMemberHealthy_of_not_synced (w : World) (cluster : Option Cluster)
    (member : Option Member)
    (hsync : healthSync w cluster member = Run.ret false) :
    IsMemberHealthy w cluster member ≠ Run.ret true ∧
    (healthPools w cluster member ≠ Run.panic →
      IsMemberHealthy w cluster member = Run.ret false) := by
  unfold IsMemberHealthy
  cases healthPools w cluster member with
  | panic => simp
  | ret pools =>
    cases pools with
    | none => simp
    | some ps => simp [hsync]

/-- C6: in synchronous mode with a parsed quorum specification the synchronization check of
`IsMemberHealthy` returns true exactly when the member is the leader of the cluster, or its
name is in the member set, or the wildcard is set; a member that is none of these is not
reported healthy whatever its lag (`IsMemberHealthy` returns false unless the pool step
crashes), and with the wildcard the check passes whatever the member set holds. -/
theorem checkStandbySynchronizedToLeader_iff (w : World) (c : Cluster) (m : Member)
    (resp names : String) (spec : PGStandby)
    (hmode : getReplicationMode w = Run.ret ("synchronous", none))
    (hquery : Query w standbyNamesSQL = (resp, none))
    (hnames : standbyNamesOf resp = Run.ret names)
    (hparse : w.parsePGSyncStandby names = Except.ok spec) :
    (checkStandbySynchronizedToLeader w m.Name true (some c) =
      Run.ret (decide (m.Name = c.LeaderName) || spec.Members.contains m.Name
        || spec.HasStar)) ∧
    (checkStandbySynchronizedToLeader w m.Name true (some c) = Run.ret true ↔
      m.Name = c.LeaderName ∨ m.Name ∈ spec.Members ∨ spec.HasStar = true) ∧
    (m.Name ≠ c.LeaderName → m.Name ∉ spec.Members → spec.HasStar = false →
      IsMemberHealthy w (some c) (some m) ≠ Run.ret true ∧
      (healthPools w (some c) (some m) ≠ Run.panic →
        IsMemberHealthy w (some c) (some m) = Run.ret false)) ∧
    (spec.HasStar = true →
      checkStandbySynchronizedToLeader w m.Name true (some c) = Run.ret true) := by
  have heq := checkStandby_eq w c m.Name resp names spec hquery hnames hparse
  refine ⟨heq, ?_, ?_, ?_⟩
  · rw [heq]
    simp [Bool.or_assoc]
  · intro hleader hmem hstar
    apply IsMemberHealthy_of_not_synced
    simp [healthSync, hmode, heq, hleader, hmem, hstar]
  · intro hstar
    rw [heq, hstar]
    simp

/-- Witness of `checkStandbySynchronizedToLeader_iff`: with the specification `1(m2)` the
member `m4`, at zero lag, is not synchronized and is reported unhealthy. -/
theorem checkStandbySynchronizedToLeader_iff_witness :
    checkStandbySynchronizedToLeader (standbyWorld "m4" "on" "1(m2)" 1000 1000) "m4" true
      (some fourMembers) = Run.ret false ∧
    IsMemberHealthy (standbyWorld "m4" "on" "1(m2)" 1000 1000) (some fourMembers)
      (some (Member.mk "m4" "5432")) = Run.ret false :=
  have h := checkStandbySynchronizedToLeader_iff (standbyWorld "m4" "on" "1(m2)" 1000 1000)
    fourMembers (Member.mk "m4" "5432") "[\x7b\"current_setting\":\"1(m2)\"\x7d]" "1(m2)"
    (PGStandby.mk ["m2"] false) (by decide) (by decide) (by decide) rfl
  ⟨h.1, (h.2.2.1 (by decide) (by decide) rfl).2 (by decide)⟩

/-! ## Other healthy members (C7) -/

theorem healthyMembersLoop_sound (w : World) (c : Cluster) (leader : String) :
    ∀ (l acc ms : List Member), healthyMembersLoop w c leader l acc = Run.ret ms →
      ∀ m ∈ ms, m ∈ acc ∨
        (m ∈ l ∧ m.Name ≠ leader ∧ IsMemberHealthy w (some c) (some m) = Run.ret true) := by
  intro l
  induction l with
  | nil =>
    intro acc ms h m hm
    simp only [healthyMembersLoop, Run.ret.injEq] at h
    exact Or.inl (h ▸ hm)
  | cons x rest ih =>
    intro acc ms h m hm
    unfold healthyMembersLoop at h
    by_cases hx : x.Name ≠ leader
    · simp only [hx, if_true, ne_eq, not_false_eq_true] at h
      cases hh : IsMemberHealthy w (some c) (some x) with
      | panic => simp [hh] at h
      | ret b =>
        cases b with
        | true =>
          simp only [hh] at h
          rcases ih _ _ h m hm with hacc | ⟨h1, h2, h3⟩
          · rcases List.mem_append.mp hacc with ha | hb
            · exact Or.inl ha
            · have hmx : m = x := by simpa using hb
              subst hmx
              exact Or.inr ⟨List.mem_cons_self _ _, hx, hh⟩
          · exact Or.inr ⟨List.mem_cons_of_mem _ h1, h2, h3⟩
        | false =>
          simp only [hh] at h
          rcases ih _ _ h m hm with hacc | ⟨h1, h2, h3⟩
          · exact Or.inl hacc
          · exact Or.inr ⟨List.mem_cons_of_mem _ h1, h2, h3⟩
    · simp only [hx, if_false] at h
      rcases ih _ _ h m hm with hacc | ⟨h1, h2, h3⟩
      · exact Or.inl hacc
      · exact Or.inr ⟨List.mem_cons_of_mem _ h1, h2, h3⟩

/-- C7: every member returned by `HasOtherHealthyMembers` is a member of the cluster whose
name differs from `leader` and for which `IsMemberHealthy` returned true; a member whose
measured lag exceeds `MaxLagOnSwitchover` is not in the result. -/
theorem HasOtherHealthyMembers_sound (w : World) (c : Cluster) (leader : String)
    (ms : List Member)
    (h : HasOtherHealthyMembers w (some c) leader = Run.ret ms) :
    (∀ m ∈ ms, m ∈ c.Members ∧ m.Name ≠ leader ∧
      IsMemberHealthy w (some c) (some m) = Run.ret true) ∧
    (∀ (m : Member) (pool : Option Pool) (rest : List (Option Pool)),
      isInt64 c.OpTime → isInt64 c.MaxLagOnSwitchover →
      healthPools w (some c) (some m) = Run.ret (some (pool :: rest)) →
      c.OpTime - (getWalPositionWithPool w pool).1 > c.MaxLagOnSwitchover → m ∉ ms) := by
  have hall : ∀ m ∈ ms, m ∈ c.Members ∧ m.Name ≠ leader ∧
      IsMemberHealthy w (some c) (some m) = Run.ret true := by
    intro m hm
    unfold HasOtherHealthyMembers at h
    cases hmode : getReplicationMode w with
    | panic => simp [hmode] at h
    | ret res =>
      obtain ⟨mode, err⟩ := res
      cases err with
      | some e =>
        simp only [hmode, Run.ret.injEq] at h
        rw [← h] at hm
        simp at hm
      | none =>
        simp only [hmode] at h
        split_ifs at h with hsync
        · rcases healthyMembersLoop_sound w c leader c.Members [] ms h m hm with hnil | hok
          · simp at hnil
          · exact hok
        · simp only [Run.ret.injEq] at h
          rw [← h] at hm
          simp at hm
  refine ⟨hall, ?_⟩
  intro m pool rest hOp hMax hpools hlag hm
  exact (IsMemberHealthy_lagging w c m pool rest hOp hMax hpools hlag).1 (hall m hm).2.2

/-- Witness of `HasOtherHealthyMembers_sound`: in synchronous mode with the specification
`1(m2)` the result for the leader `m1` is the member `m2`. -/
theorem HasOtherHealthyMembers_sound_witness :
    HasOtherHealthyMembers (standbyWorld "m2" "on" "1(m2)" 950 940) (some fourMembers) "m1" =
      Run.ret [Member.mk "m2" "5432"] ∧
    ∀ m ∈ [Member.mk "m2" "5432"], m ∈ fourMembers.Members ∧ m.Name ≠ "m1" ∧
      IsMemberHealthy (standbyWorld "m2" "on" "1(m2)" 950 940) (some fourMembers) (some m) =
        Run.ret true :=
  have h : HasOtherHealthyMembers (standbyWorld "m2" "on" "1(m2)" 950 940)
      (some fourMembers) "m1" = Run.ret [Member.mk "m2" "5432"] := by decide
  ⟨h, (HasOtherHealthyMembers_sound (standbyWorld "m2" "on" "1(m2)" 950 940) fourMembers "m1"
    [Member.mk "m2" "5432"] h).1⟩

/-! ## Promotion and demotion (C9) -/

/-- C9 fails on the code: in `stderrWorld` the `pg_ctl` command exits with status 0 and
writes to stderr, which `Premote` and `Demote` take as a failure (they log it and return
early), yet both return the nil error. -/
theorem Premote_Demote_nil_on_stderr :
    (stderrWorld.run ["su", "-c", "'pg_ctl promote'", "postgres"]).stderr ≠ "" ∧
    (stderrWorld.run ["su", "-c", "'pg_ctl stop -m fast'", "postgres"]).stderr ≠ "" ∧
    Premote stderrWorld = none ∧ Demote stderrWorld = none := by
  decide

/-! ## Health without a WAL position (C10) -/

/-- C10 fails on the code: in `noPositionWorld` every position query fails and in
`badPositionWorld` the position queries answer a text without a number, so the position of
`m2` is not obtained; `IsMemberHealthy` goes on with position 0 and, the cluster `OpTime`
being within the allowed lag of 0, reports `m2` healthy. -/
theorem IsMemberHealthy_true_without_position :
    (getWalPositionWithPool noPositionWorld none).2.isSome = true ∧
    IsMemberHealthy noPositionWorld (some youngCluster) (some (Member.mk "m2" "5432")) =
      Run.ret true ∧
    (ParseInt (TrimFunc (QueryWithPool badPositionWorld (lsnSQL "replay") none).1
      (fun r => !IsDigit r)) 64).2.isSome = true ∧
    (ParseInt (TrimFunc (QueryWithPool badPositionWorld (lsnSQL "receive") none).1
      (fun r => !IsDigit r)) 64).2.isSome = true ∧
    IsMemberHealthy badPositionWorld (some youngCluster) (some (Member.mk "m2" "5432")) =
      Run.ret true := by
  decide

/-! ## The replication mode (C8) -/

theorem splitChars_no_sep (sep : Char) :
    ∀ l : List Char, sep ∉ l → splitChars sep l = [l] := by
  intro l
  induction l with
  | nil => intro _; rfl
  | cons c cs ih =>
    intro h
    have hc : c ≠ sep := fun heq => h (heq ▸ List.mem_cons_self _ _)
    have hcs : sep ∉ cs := fun hin => h (List.mem_cons_of_mem _ hin)
    simp [splitChars, hc, ih hcs]

theorem splitChars_append_sep (sep : Char) (b : List Char) :
    ∀ a : List Char, sep ∉ a → splitChars sep (a ++ sep :: b) = a :: splitChars sep b := by
  intro a
  induction a with
  | nil => intro _; simp [splitChars]
  | cons c cs ih =>
    intro h
    have hc : c ≠ sep := fun heq => h (heq ▸ List.mem_cons_self _ _)
    have hcs : sep ∉ cs := fun hin => h (List.mem_cons_of_mem _ hin)
    simp [splitChars, hc, ih hcs]

theorem alphanum_bounds (c : Char) (h : (c.isAlphanum || c = '_') = true) :
    (48 ≤ c.toNat ∧ c.toNat ≤ 57) ∨ (65 ≤ c.toNat ∧ c.toNat ≤ 90) ∨ c.toNat = 95 ∨
      (97 ≤ c.toNat ∧ c.toNat ≤ 122) := by
  simp only [Char.isAlphanum, Char.isAlpha, Char.isUpper, Char.isLower, Char.isDigit,
    Bool.or_eq_true, Bool.and_eq_true, decide_eq_true_eq, ge_iff_le] at h
  have hval : c.toNat = c.val.toNat := rfl
  rcases h with ((⟨h1, h2⟩ | ⟨h1, h2⟩) | ⟨h1, h2⟩) | h
  · right; left
    rw [hval]
    exact ⟨by simpa using UInt32.le_def.mp h1, by simpa using UInt32.le_def.mp h2⟩
  · right; right; right
    rw [hval]
    exact ⟨by simpa using UInt32.le_def.mp h1, by simpa using UInt32.le_def.mp h2⟩
  · left
    rw [hval]
    exact ⟨by simpa using UInt32.le_def.mp h1, by simpa using UInt32.le_def.mp h2⟩
  · right; right; left
    rw [h]
    rfl

theorem ne_of_toNat_ne (c d : Char) (h : c.toNat ≠ d.toNat) : c ≠ d := by
  rintro rfl
  exact h rfl

theorem escapeChar_plain (c : Char) (h : (c.isAlphanum || c = '_') = true) :
    escapeChar c = [c] := by
  have hb := alphanum_bounds c h
  have h1 : c ≠ '"' := ne_of_toNat_ne _ _ (by
    have : ('"' : Char).toNat = 34 := rfl
    omega)
  have h2 : c ≠ '\\' := ne_of_toNat_ne _ _ (by
    have : ('\\' : Char).toNat = 92 := rfl
    omega)
  have h3 : c ≠ '\n' := ne_of_toNat_ne _ _ (by
    have : ('\n' : Char).toNat = 10 := rfl
    omega)
  have h4 : c ≠ '\r' := ne_of_toNat_ne _ _ (by
    have : ('\r' : Char).toNat = 13 := rfl
    omega)
  have h5 : c ≠ '\t' := ne_of_toNat_ne _ _ (by
    have : ('\t' : Char).toNat = 9 := rfl
    omega)
  have h6 : c ≠ '<' := ne_of_toNat_ne _ _ (by
    have : ('<' : Char).toNat = 60 := rfl
    omega)
  have h7 : c ≠ '>' := ne_of_toNat_ne _ _ (by
    have : ('>' : Char).toNat = 62 := rfl
    omega)
  have h8 : c ≠ '&' := ne_of_toNat_ne _ _ (by
    have : ('&' : Char).toNat = 38 := rfl
    omega)
  have h9 : ¬ c.toNat < 32 := by omega
  have h10 : c.toNat ≠ 0x2028 := by omega
  have h11 : c.toNat ≠ 0x2029 := by omega
  simp [escapeChar, h1, h2, h3, h4, h5, h6, h7, h8, h9, h10, h11]

theorem flatMap_escapeChar_plain :
    ∀ l : List Char, (∀ c ∈ l, (c.isAlphanum || c = '_') = true) →
      l.flatMap escapeChar = l := by
  intro l
  induction l with
  | nil => intro _; rfl
  | cons c cs ih =>
    intro h
    rw [List.flatMap_cons, escapeChar_plain c (h c (List.mem_cons_self _ _)),
      ih (fun d hd => h d (List.mem_cons_of_mem _ hd))]
    rfl

theorem colon_not_mem_plain (l : List Char)
    (h : ∀ c ∈ l, (c.isAlphanum || c = '_') = true) : ':' ∉ l := by
  intro hin
  have hb := alphanum_bounds _ (h _ hin)
  have : (':' : Char).toNat = 58 := rfl
  omega

theorem dropWhile_of_head (p : Char → Bool) (l : List Char)
    (h : ∀ c, l.head? = some c → p c = false) : l.dropWhile p = l := by
  cases l with
  | nil => rfl
  | cons c cs => simp [List.dropWhile, h c rfl]

theorem trim_quoted_word (l : List Char)
    (hhead : ∀ c, l.head? = some c → c.isAlpha = true)
    (hlast : ∀ c, l.getLast? = some c → c.isAlpha = true) :
    ((('"' :: (l ++ ['"', '\x7d', ']'])).dropWhile (fun r => !IsLetter r)).reverse.dropWhile
      (fun r => !IsLetter r)).reverse = l := by
  cases l with
  | nil => decide
  | cons c t =>
    have hc : c.isAlpha = true := hhead c rfl
    have h1 : ('"' :: (c :: t ++ ['"', '\x7d', ']'])).dropWhile (fun r => !IsLetter r) =
        c :: t ++ ['"', '\x7d', ']'] := by
      rw [List.dropWhile_cons]
      have hq : (!IsLetter '"') = true := by decide
      simp only [hq, if_true]
      exact dropWhile_of_head _ _ (by
        intro d hd
        simp only [List.cons_append, List.head?_cons, Option.some.injEq] at hd
        subst hd
        simp [IsLetter, hc])
    rw [h1]
    have h2 : (c :: t ++ ['"', '\x7d', ']']).reverse = ']' :: '\x7d' :: '"' :: (c :: t).reverse := by
      simp
    rw [h2]
    have h3 : (']' :: '\x7d' :: '"' :: (c :: t).reverse).dropWhile (fun r => !IsLetter r) =
        (c :: t).reverse := by
      have hq1 : (!IsLetter ']') = true := by decide
      have hq2 : (!IsLetter '\x7d') = true := by decide
      have hq3 : (!IsLetter '"') = true := by decide
      rw [List.dropWhile_cons]
      simp only [hq1, if_true]
      rw [List.dropWhile_cons]
      simp only [hq2, if_true]
      rw [List.dropWhile_cons]
      simp only [hq3, if_true]
      exact dropWhile_of_head _ _ (by
        intro d hd
        rw [List.head?_reverse] at hd
        simp [IsLetter, hlast d hd])
    rw [h3, List.reverse_reverse]

theorem settingWord_plain (s : String) (h : settingWord s = true) :
    (∀ c ∈ s.data, (c.isAlphanum || c = '_') = true) ∧
    (∀ c, s.data.head? = some c → c.isAlpha = true) ∧
    (∀ c, s.data.getLast? = some c → c.isAlpha = true) := by
  simp only [settingWord, Bool.and_eq_true, List.all_eq_true] at h
  obtain ⟨⟨h1, h2⟩, h3⟩ := h
  refine ⟨h1, ?_, ?_⟩
  · intro c hc
    rw [hc] at h2
    exact h2
  · intro c hc
    rw [hc] at h3
    exact h3

theorem Marshal_setting (s : String)
    (h : ∀ c ∈ s.data, (c.isAlphanum || c = '_') = true) :
    (Marshal [[("current_setting", JVal.str s)]]).data =
      "[\x7b\"current_setting\"".data ++ ':' :: ('"' :: (s.data ++ ['"', '\x7d', ']'])) := by
  have hq : quote "current_setting" = "\"current_setting\"".data := by decide
  simp only [Marshal, marshalRow, marshalValue, List.map_cons, List.map_nil, hq]
  simp only [quote, flatMap_escapeChar_plain s.data h]
  simp [List.intercalate]

theorem getReplicationMode_mode (w : World) (s : String) (hword : settingWord s = true)
    (hquery : w.query Conn.localDB syncCommitSQL =
      Except.ok [[("current_setting", JVal.str s)]]) :
    (index (Split (Query w syncCommitSQL).1 ':') 1 >>= fun field =>
      Run.ret (TrimFunc field (fun r => !IsLetter r))) = Run.ret s := by
  obtain ⟨hplain, hhead, hlast⟩ := settingWord_plain s hword
  have hresp : (Query w syncCommitSQL).1 = Marshal [[("current_setting", JVal.str s)]] := by
    simp [Query, QueryWithPool, connOf, hquery]
  have hsplit : splitChars ':' (Marshal [[("current_setting", JVal.str s)]]).data =
      ["[\x7b\"current_setting\"".data, '"' :: (s.data ++ ['"', '\x7d', ']'])] := by
    rw [Marshal_setting s hplain, splitChars_append_sep ':' _ _ (by decide)]
    rw [splitChars_no_sep]
    intro hin
    rcases List.mem_cons.mp hin with h | h
    · exact absurd h (by decide)
    · rcases List.mem_append.mp h with h | h
      · exact colon_not_mem_plain _ hplain h
      · exact absurd h (by decide)
  rw [hresp]
  simp only [Split, hsplit, List.map_cons, List.map_nil, index, List.getElem?_cons_succ,
    List.getElem?_cons_zero, Run.ret_bind, TrimFunc]
  rw [trim_quoted_word s.data hhead hlast]

/-- C8, as stated, fails: the settings `off1`, `1off2` and `_off` are none of off, local and
remote_write, and `getReplicationMode` returns "asynchronous" for them: line 322 trims the
characters that are not letters from both ends of the field before the comparison. -/
theorem getReplicationMode_trims_unknown :
    "off1" ∉ ["off", "local", "remote_write"] ∧
    getReplicationMode (standbyWorld "m2" "off1" "1(m2)" 950 940) =
      Run.ret ("asynchronous", none) ∧
    getReplicationMode (standbyWorld "m2" "1off2" "1(m2)" 950 940) =
      Run.ret ("asynchronous", none) ∧
    getReplicationMode (standbyWorld "m2" "_off" "1(m2)" 950 940) =
      Run.ret ("asynchronous", none) := by
  decide

/-- C8 (amended): for a `synchronous_commit` setting that is a word (letters, digits and
underscores, a letter at both ends), `getReplicationMode` returns "asynchronous" exactly when
the setting is off, local or remote_write, and "synchronous" for on, remote_apply and every
other word; it returns without error. -/
theorem getReplicationMode_spec (w : World) (s : String) (hword : settingWord s = true)
    (hquery : w.query Conn.localDB syncCommitSQL =
      Except.ok [[("current_setting", JVal.str s)]]) :
    getReplicationMode w =
      Run.ret (if s = "off" ∨ s = "local" ∨ s = "remote_write" then "asynchronous"
        else "synchronous", none) := by
  have hmode := getReplicationMode_mode w s hword hquery
  have hq : Query w syncCommitSQL =
      (Marshal [[("current_setting", JVal.str s)]], none) := by
    simp [Query, QueryWithPool, connOf, hquery]
  rw [hq] at hmode
  unfold getReplicationMode
  simp only [hq]
  cases hidx : index (Split (Marshal [[("current_setting", JVal.str s)]]) ':') 1 with
  | panic => simp [hidx] at hmode
  | ret field =>
    simp only [hidx, Run.ret_bind, Run.ret.injEq] at hmode
    simp only [Run.ret_bind, hmode]
    by_cases h1 : s = "off"
    · simp [h1]
    · by_cases h2 : s = "local"
      · simp [h2]
      · by_cases h3 : s = "remote_write"
        · simp [h3]
        · simp [h1, h2, h3]

/-- Witness of `getReplicationMode_spec`: the settings `remote_write`, `on` and a word that
is no label of the setting. -/
theorem getReplicationMode_spec_witness :
    getReplicationMode (standbyWorld "m2" "remote_write" "1(m2)" 950 940) =
      Run.ret ("asynchronous", none) ∧
    getReplicationMode (standbyWorld "m2" "on" "1(m2)" 950 940) =
      Run.ret ("synchronous", none) ∧
    getReplicationMode (standbyWorld "m2" "remote_flush" "1(m2)" 950 940) =
      Run.ret ("synchronous", none) :=
  ⟨(getReplicationMode_spec (standbyWorld "m2" "remote_write" "1(m2)" 950 940) "remote_write"
      (by decide) rfl).trans (by decide),
    (getReplicationMode_spec (standbyWorld "m2" "on" "1(m2)" 950 940) "on"
      (by decide) rfl).trans (by decide),
    (getReplicationMode_spec (standbyWorld "m2" "remote_flush" "1(m2)" 950 940) "remote_flush"
      (by decide) rfl).trans (by decide)⟩

/-! ## An unreadable quorum specification (C11) -/

theorem checkStandby_of_query_error (w : World) (memberName : String) (isLeader : Bool)
    (cluster : Option Cluster) (resp : String) (err : GoError)
    (hquery : Query w standbyNamesSQL = (resp, some err)) :
    checkStandbySynchronizedToLeader w memberName isLeader cluster = Run.ret false := by
  simp [checkStandbySynchronizedToLeader, hquery]

theorem checkStandby_of_parse_error (w : World) (memberName : String) (isLeader : Bool)
    (cluster : Option Cluster) (resp names : String) (err : GoError)
    (hquery : Query w standbyNamesSQL = (resp, none))
    (hnames : standbyNamesOf resp = Run.ret names)
    (hparse : w.parsePGSyncStandby names = Except.error err) :
    checkStandbySynchronizedToLeader w memberName isLeader cluster = Run.ret false := by
  simp [checkStandbySynchronizedToLeader, hquery, hnames, hparse]

/-- C11: in synchronous mode, when the query for the quorum specification fails or the
specification read from the response does not parse, `checkStandbySynchronizedToLeader`
returns false and `IsMemberHealthy` never returns true: it returns false (unless the pool
step before it crashes). -/
theorem IsMemberHealthy_false_of_unreadable_quorum (w : World) (cluster : Option Cluster)
    (m : Member)
    (hmode : getReplicationMode w = Run.ret ("synchronous", none))
    (hfail : (∃ resp err, Query w standbyNamesSQL = (resp, some err)) ∨
      (∃ resp names err, Query w standbyNamesSQL = (resp, none) ∧
        standbyNamesOf resp = Run.ret names ∧
        w.parsePGSyncStandby names = Except.error err)) :
    (∀ (memberName : String) (isLeader : Bool) (c : Option Cluster),
      checkStandbySynchronizedToLeader w memberName isLeader c = Run.ret false) ∧
    IsMemberHealthy w cluster (some m) ≠ Run.ret true ∧
    (healthPools w cluster (some m) ≠ Run.panic →
      IsMemberHealthy w cluster (some m) = Run.ret false) := by
  have hcheck : ∀ (memberName : String) (isLeader : Bool) (c : Option Cluster),
      checkStandbySynchronizedToLeader w memberName isLeader c = Run.ret false := by
    intro memberName isLeader c
    rcases hfail with ⟨resp, err, hq⟩ | ⟨resp, names, err, hq, hn, hp⟩
    · exact checkStandby_of_query_error w memberName isLeader c resp err hq
    · exact checkStandby_of_parse_error w memberName isLeader c resp names err hq hn hp
  refine ⟨hcheck, ?_⟩
  apply IsMemberHealthy_of_not_synced
  simp [healthSync, hmode, hcheck]

/-- Witness of `IsMemberHealthy_false_of_unreadable_quorum`: the query for the quorum
specification fails in `noQuorumWorld`, and the specification `2(m2` does not parse. -/
theorem IsMemberHealthy_false_of_unreadable_quorum_witness :
    IsMemberHealthy noQuorumWorld (some fourMembers) (some (Member.mk "m2" "5432")) =
      Run.ret false ∧
    IsMemberHealthy (standbyWorld "m2" "on" "2(m2" 1000 1000) (some fourMembers)
      (some (Member.mk "m2" "5432")) = Run.ret false :=
  ⟨(IsMemberHealthy_false_of_unreadable_quorum noQuorumWorld (some fourMembers)
      (Member.mk "m2" "5432") (by decide)
      (Or.inl ⟨"", "error executing query: connection refused", by decide⟩)).2.2 (by decide),
    (IsMemberHealthy_false_of_unreadable_quorum (standbyWorld "m2" "on" "2(m2" 1000 1000)
      (some fourMembers) (Member.mk "m2" "5432") (by decide)
      (Or.inr ⟨"[\x7b\"current_setting\":\"2(m2\"\x7d]", "2(m2", "unparsable",
        by decide, by decide, rfl⟩)).2.2 (by decide)⟩

/-! ## The role of a server (C13) -/

/-- C13: `GetMemberStateWithPool` returns Secondary when the row of the recovery query says
in recovery, Primary when it says not in recovery, and an error when the query fails or
returns no row; `IsLeaderWithPool` returns true exactly when that role is Primary, and
false with an error when the role query gave an error. -/
theorem GetMemberStateWithPool_spec (w : World) (pool : Option Pool) :
    (∀ col, w.query (connOf pool) recoverySQL = Except.ok [[(col, JVal.bool true)]] →
      GetMemberStateWithPool w pool = (SECONDARY, none) ∧
      IsLeaderWithPool w pool = (false, none)) ∧
    (∀ col, w.query (connOf pool) recoverySQL = Except.ok [[(col, JVal.bool false)]] →
      GetMemberStateWithPool w pool = (PRIMARY, none) ∧
      IsLeaderWithPool w pool = (true, none)) ∧
    (∀ err, w.query (connOf pool) recoverySQL = Except.error err →
      (GetMemberStateWithPool w pool).2.isSome = true ∧
      (IsLeaderWithPool w pool).1 = false ∧ (IsLeaderWithPool w pool).2.isSome = true) ∧
    (w.query (connOf pool) recoverySQL = Except.ok [] →
      (GetMemberStateWithPool w pool).2.isSome = true ∧
      (IsLeaderWithPool w pool).1 = false ∧ (IsLeaderWithPool w pool).2.isSome = true) ∧
    ((IsLeaderWithPool w pool).1 = true ↔ GetMemberStateWithPool w pool = (PRIMARY, none)) ∧
    (∀ err, (GetMemberStateWithPool w pool).2 = some err →
      IsLeaderWithPool w pool = (false, some ("check is leader: " ++ err))) := by
  refine ⟨?_, ?_, ?_, ?_, ?_, ?_⟩
  · intro col h
    simp [IsLeaderWithPool, GetMemberStateWithPool, h, scanRecovery, scanBool, SECONDARY,
      PRIMARY]
  · intro col h
    simp [IsLeaderWithPool, GetMemberStateWithPool, h, scanRecovery, scanBool]
  · intro err h
    simp [IsLeaderWithPool, GetMemberStateWithPool, h]
  · intro h
    simp [IsLeaderWithPool, GetMemberStateWithPool, h, scanRecovery]
  · unfold IsLeaderWithPool
    rcases hst : GetMemberStateWithPool w pool with ⟨role, _ | err⟩
    · simp
    · simp
  · intro err h
    unfold IsLeaderWithPool
    rcases hst : GetMemberStateWithPool w pool with ⟨role, _ | e⟩
    · rw [hst] at h
      simp at h
    · rw [hst] at h
      simp only [Option.some.injEq] at h
      simp [h]

/-! ## The in-recovery flag of the local server (C14) -/

/-- C14, as stated, fails: the local server of `runningPrimaryWorld` is running and answers
that it is not in recovery (its role is Primary), and `getLocalTimeLineAndLsn` returns the
in-recovery flag true. -/
theorem getLocalTimeLineAndLsn_running_primary :
    IsRunning runningPrimaryWorld = true ∧
    GetMemberStateWithPool runningPrimaryWorld none = (PRIMARY, none) ∧
    getLocalTimeLineAndLsn runningPrimaryWorld =
      Run.ret (true, 6591900354309481833, 0) := by
  decide

/-- C14 (amended): for a running server `getLocalTimeLineAndLsn` returns the in-recovery
flag true whatever the recovery state of the engine (it returns once the received timeline
is read); for a stopped server it returns the flag of the control data, which is true
exactly when the cluster state is "shut down in recovery" or "in archive recovery". -/
theorem getLocalTimeLineAndLsn_flag (w : World) :
    (IsRunning w = true →
      (∀ timeLine, getReceivedTimeLine w = Run.ret timeLine →
        getLocalTimeLineAndLsn w =
          Run.ret (true, timeLine, (getLsnWithPool w "replay" none).1)) ∧
      (∀ state, getLocalTimeLineAndLsn w = Run.ret state → state.1 = true)) ∧
    (IsRunning w = false →
      getLocalTimeLineAndLsn w = Run.ret (getLocalTimeLineAndLsnFromControlData w) ∧
      ((getLocalTimeLineAndLsnFromControlData w).1 = true ↔
        (getPgControlData w).get "Database cluster state" = "shut down in recovery" ∨
        (getPgControlData w).get "Database cluster state" = "in archive recovery")) := by
  constructor
  · intro hrun
    constructor
    · intro timeLine htl
      simp [getLocalTimeLineAndLsn, hrun, htl]
    · intro state hstate
      unfold getLocalTimeLineAndLsn at hstate
      simp only [hrun, Bool.not_true, Bool.false_eq_true, if_false] at hstate
      cases htl : getReceivedTimeLine w with
      | panic => simp [htl] at hstate
      | ret timeLine =>
        simp only [htl, Run.ret_bind, Run.ret.injEq] at hstate
        rw [← hstate]
  · intro hstop
    constructor
    · simp [getLocalTimeLineAndLsn, hstop]
    · unfold getLocalTimeLineAndLsnFromControlData
      simp only []
      split_ifs with h1 h2
      · simp [h1]
      · simp [h1]
      · simp [h1]

/-! ## The pid file (C15) -/

/-- C15: for a pid file of at least four lines `readPidFile` returns, when the first line
parses as a decimal 32-bit integer, the `PidFile` with that pid, the second line as data
directory and the third and fourth line parsed as integers; when the first line does not
parse as a decimal 32-bit integer it returns the error of the parse. -/
theorem readPidFile_spec (h : Host) (l1 l2 l3 l4 : String) (rest : List String)
    (hfile : h.scanFile (h.DataDir ++ "/postmaster.pid") =
      Except.ok (l1 :: l2 :: l3 :: l4 :: rest)) :
    ((ParseInt l1 32).2 = none →
      readPidFile h =
        Run.ret (some (PidFile.mk (ParseInt l1 32).1 l2 (ParseInt l3 64).1 (ParseInt l4 64).1),
          none)) ∧
    (∀ err, (ParseInt l1 32).2 = some err → readPidFile h = Run.ret (none, some err)) := by
  constructor
  · intro hpid
    rcases hp : ParseInt l1 32 with ⟨pid, e⟩
    rw [hp] at hpid
    simp only at hpid
    subst hpid
    simp [readPidFile, hfile, index, hp]
  · intro err herr
    rcases hp : ParseInt l1 32 with ⟨pid, e⟩
    rw [hp] at herr
    simp only at herr
    subst herr
    simp [readPidFile, hfile, index, hp]

/-- Witness of `readPidFile_spec`: the pid file of `quietHost`, and the same file with a
first line that is no number. -/
theorem readPidFile_spec_witness :
    readPidFile quietHost =
      Run.ret (some (PidFile.mk 4242 "/postgresql/data" 1699000000 5432), none) ∧
    readPidFile
      { quietHost with scanFile := fun _ => Except.ok ["pid", "/postgresql/data", "1", "2"] } =
      Run.ret (none, some "invalid syntax") :=
  ⟨((readPidFile_spec quietHost "4242" "/postgresql/data" "1699000000" "5432"
      ["/var/run/postgresql", "*", "  5432001    131072", "ready   "] rfl).1
      (by decide)).trans (by decide),
    (readPidFile_spec
      { quietHost with scanFile := fun _ => Except.ok ["pid", "/postgresql/data", "1", "2"] }
      "pid" "/postgresql/data" "1" "2" [] rfl).2 "invalid syntax" (by decide)⟩

/-! ## Following the leader (C12) -/

theorem splitChars_ne_nil (sep : Char) : ∀ l : List Char, splitChars sep l ≠ [] := by
  intro l
  induction l with
  | nil => simp [splitChars]
  | cons c cs ih =>
    unfold splitChars
    split_ifs
    · simp
    · cases hs : splitChars sep cs with
      | nil => exact absurd hs ih
      | cons p ps => simp

theorem index_Split_zero (s : String) (sep : Char) :
    ∃ label, index (Split s sep) 0 = Run.ret label ∧ (Split s sep).head? = some label := by
  unfold Split
  cases hs : splitChars sep s.data with
  | nil => exact absurd hs (splitChars_ne_nil sep s.data)
  | cons p ps => exact ⟨String.mk p, by simp [index], by simp⟩

theorem checkRecoveryConf_of_info (w : World) (h : Host) (leaderName : String)
    (info : StringMap) (hstat : h.statStandbySignal ≠ StatResult.notExist)
    (hinfo : readRecoveryParams w h = Run.ret (some info)) :
    checkRecoveryConf w h leaderName =
      Run.ret (if (Split (info.get "host") '.').head? = some leaderName then (false, false)
        else (true, false)) := by
  obtain ⟨label, hidx, hhead⟩ := index_Split_zero (info.get "host") '.'
  simp only [checkRecoveryConf, hstat, if_false, hinfo, Run.ret_bind, hidx, hhead,
    Option.some.injEq]
  by_cases hl : label = leaderName
  · simp [hl]
  · simp [hl]

theorem checkRecoveryConf_unchanged_iff (w : World) (h : Host) (leaderName : String) :
    checkRecoveryConf w h leaderName = Run.ret (false, false) ↔
      h.statStandbySignal ≠ StatResult.notExist ∧
      ∃ info, readRecoveryParams w h = Run.ret (some info) ∧
        (Split (info.get "host") '.').head? = some leaderName := by
  constructor
  · intro hconf
    by_cases hstat : h.statStandbySignal = StatResult.notExist
    · simp [checkRecoveryConf, hstat] at hconf
    · refine ⟨hstat, ?_⟩
      cases hp : readRecoveryParams w h with
      | panic => simp [checkRecoveryConf, hstat, hp] at hconf
      | ret res =>
        cases res with
        | none => simp [checkRecoveryConf, hstat, hp] at hconf
        | some info =>
          refine ⟨info, rfl, ?_⟩
          rw [checkRecoveryConf_of_info w h leaderName info hstat hp] at hconf
          by_contra hne
          simp [hne] at hconf
  · rintro ⟨hstat, info, hinfo, hhead⟩
    rw [checkRecoveryConf_of_info w h leaderName info hstat hinfo]
    simp [hhead]

theorem checkRecoveryConf_change (w : World) (h : Host) (leaderName : String)
    (conf : Bool × Bool) (hconf : checkRecoveryConf w h leaderName = Run.ret conf) :
    conf = (false, false) ∨ conf.1 = true := by
  by_cases hstat : h.statStandbySignal = StatResult.notExist
  · simp only [checkRecoveryConf, hstat, if_true, Run.ret.injEq] at hconf
    right
    rw [← hconf]
  · cases hp : readRecoveryParams w h with
    | panic => simp [checkRecoveryConf, hstat, hp] at hconf
    | ret res =>
      cases res with
      | none =>
        simp only [checkRecoveryConf, hstat, if_false, hp, Run.ret_bind, Run.ret.injEq]
          at hconf
        right
        rw [← hconf]
      | some info =>
        rw [checkRecoveryConf_of_info w h leaderName info hstat hp] at hconf
        simp only [Run.ret.injEq] at hconf
        rw [← hconf]
        split_ifs
        · left; rfl
        · right; rfl

/-- C12, as stated, fails: the host has no standby signal file, so `checkRecoveryConf`
reports that a change (and a restart) is needed, but the current member `m2` is the leader
of the cluster and `Follow` returns nil without appending to the configuration, reloading
or restarting. -/
theorem Follow_nothing_for_leader :
    freshHost.statStandbySignal = StatResult.notExist ∧
    checkRecoveryConf quietWorld freshHost ledByM2.LeaderName = Run.ret (true, true) ∧
    quietWorld.CurrentMemberName = ledByM2.LeaderName ∧
    Follow quietWorld freshHost (some ledByM2) = Run.ret (none, []) := by
  decide

/-- What `follow` does for a member that is not the leader: the configuration file is opened
for reading only, so the method returns an error and has changed nothing. -/
theorem follow_of_not_leader (w : World) (h : Host) (needRestart : Bool) (c : Cluster)
    (leader : Member) (hleader : c.GetLeaderMember = some leader)
    (hcur : w.CurrentMemberName ≠ leader.Name) :
    ∃ err, follow w h needRestart c = Run.ret (some err, []) := by
  simp only [follow, hleader, hcur, if_false, Flush]
  cases h.openConf with
  | some err => exact ⟨err, rfl⟩
  | none =>
    simp only [WriteString]
    split_ifs
    · exact ⟨_, rfl⟩
    · exact ⟨_, rfl⟩

/-- C12 (amended): `checkRecoveryConf` returns (false, false) exactly when `os.Stat` does not
report the standby signal file missing, the recovery parameters are read and the first
dot-separated label of their host equals the name of the leader, and reports a needed change
in every other case in which it returns.  Once the rewind step has returned, `Follow`
returns nil and does nothing in the first case and calls `follow` in the others; `follow`
returns nil and does nothing when the current member is the leader. -/
theorem Follow_spec (w : World) (h : Host) (c : Cluster) (rewind : Option GoError)
    (hrewind : handleRewind w (some c) = Run.ret rewind) :
    (checkRecoveryConf w h c.LeaderName = Run.ret (false, false) ↔
      h.statStandbySignal ≠ StatResult.notExist ∧
      ∃ info, readRecoveryParams w h = Run.ret (some info) ∧
        (Split (info.get "host") '.').head? = some c.LeaderName) ∧
    (∀ conf, checkRecoveryConf w h c.LeaderName = Run.ret conf →
      conf = (false, false) ∨ conf.1 = true) ∧
    (checkRecoveryConf w h c.LeaderName = Run.ret (false, false) →
      Follow w h (some c) = Run.ret (none, [])) ∧
    (∀ needRestart, checkRecoveryConf w h c.LeaderName = Run.ret (true, needRestart) →
      Follow w h (some c) = follow w h needRestart c) ∧
    (∀ needRestart leader, c.GetLeaderMember = some leader →
      w.CurrentMemberName = leader.Name →
      follow w h needRestart c = Run.ret (none, [])) := by
  refine ⟨checkRecoveryConf_unchanged_iff w h c.LeaderName,
    checkRecoveryConf_change w h c.LeaderName, ?_, ?_, ?_⟩
  · intro hconf
    simp [Follow, hrewind, hconf]
  · intro needRestart hconf
    simp [Follow, hrewind, hconf]
  · intro needRestart leader hleader hcur
    simp [follow, hleader, hcur]

/-- Witness of `Follow_spec`: the upstream configured on `followerHost` is the leader `m1`
of `twoMembers`; `Follow` returns nil and does nothing. -/
theorem Follow_spec_witness :
    checkRecoveryConf followerWorld followerHost twoMembers.LeaderName =
      Run.ret (false, false) ∧
    Follow followerWorld followerHost (some twoMembers) = Run.ret (none, []) :=
  have h := Follow_spec followerWorld followerHost twoMembers none (by decide)
  have hconf : checkRecoveryConf followerWorld followerHost twoMembers.LeaderName =
      Run.ret (false, false) := by decide
  ⟨hconf, h.2.2.1 hconf⟩

/-! ## The health of the current member (C21) -/

/-- C21 fails on the code: `IsCurrentMemberHealthy` crashes whenever the replication mode
is read.  In synchronous mode line 296 reads `member.Name` of the nil member, in
asynchronous mode `isLagging` reads the nil cluster; it returns (false) only when the query
for the replication mode gives an error. -/
theorem IsCurrentMemberHealthy_crashes :
    IsCurrentMemberHealthy (standbyWorld "m2" "on" "1(m2)" 950 940) = Run.panic ∧
    IsCurrentMemberHealthy (standbyWorld "m2" "off" "1(m2)" 950 940) = Run.panic ∧
    (∀ (w : World) (mode : String), getReplicationMode w = Run.ret (mode, none) →
      IsCurrentMemberHealthy w = Run.panic) ∧
    (∀ (w : World) (b : Bool), IsCurrentMemberHealthy w = Run.ret b →
      b = false ∧ ∃ mode err, getReplicationMode w = Run.ret (mode, some err)) := by
  have hgen : ∀ (w : World) (mode : String), getReplicationMode w = Run.ret (mode, none) →
      IsCurrentMemberHealthy w = Run.panic := by
    intro w mode h
    by_cases hm : mode = "synchronous"
    · simp [IsCurrentMemberHealthy, IsMemberHealthy, healthPools, healthSync, h, hm]
    · simp [IsCurrentMemberHealthy, IsMemberHealthy, healthPools, healthSync, h, hm,
        healthLag, index, isLagging]
  refine ⟨by decide, by decide, hgen, ?_⟩
  intro w b hb
  cases hmode : getReplicationMode w with
  | panic =>
    simp [IsCurrentMemberHealthy, IsMemberHealthy, healthPools, healthSync, hmode] at hb
  | ret r =>
    obtain ⟨mode, err⟩ := r
    cases err with
    | none => rw [hgen w mode hmode] at hb; exact absurd hb (by simp)
    | some e =>
      simp [IsCurrentMemberHealthy, IsMemberHealthy, healthPools, healthSync, hmode] at hb
      exact ⟨hb, mode, e, rfl⟩

/-! ## The pools of other hosts (C24) -/

theorem DeepCopy_nil (w : World) : ∃ err, DeepCopy w none = some err := by
  unfold DeepCopy
  cases w.deepCopy with
  | none => exact ⟨_, rfl⟩
  | some e => exact ⟨e, rfl⟩

theorem GetOtherPoolsWithHosts_of_hosts (w : World) (hosts : List String) (hne : hosts ≠ []) :
    ∃ err, DeepCopy w none = some err ∧
      GetOtherPoolsWithHosts w hosts = Run.ret ([], some err) := by
  obtain ⟨err, herr⟩ := DeepCopy_nil w
  refine ⟨err, herr, ?_⟩
  cases hosts with
  | nil => exact absurd rfl hne
  | cons host rest => simp [GetOtherPoolsWithHosts, herr]

theorem GetOtherPoolsWithHosts_never_pools (w : World) (hosts : List String)
    (pools : List (Option Pool)) (err : Option GoError)
    (h : GetOtherPoolsWithHosts w hosts = Run.ret (pools, err)) :
    pools = [] ∧ err.isSome = true := by
  cases hosts with
  | nil =>
    simp only [GetOtherPoolsWithHosts, List.length_nil, if_true, Run.ret.injEq,
      Prod.mk.injEq] at h
    obtain ⟨h1, h2⟩ := h
    subst h1 h2
    exact ⟨rfl, rfl⟩
  | cons host rest =>
    obtain ⟨e, _, he⟩ := GetOtherPoolsWithHosts_of_hosts w (host :: rest) (by simp)
    rw [he] at h
    simp only [Run.ret.injEq, Prod.mk.injEq] at h
    obtain ⟨h1, h2⟩ := h
    subst h1 h2
    exact ⟨rfl, rfl⟩

theorem GetOtherPoolsWithHosts_no_panic (w : World) (hosts : List String) :
    GetOtherPoolsWithHosts w hosts ≠ Run.panic := by
  cases hosts with
  | nil => simp [GetOtherPoolsWithHosts]
  | cons host rest =>
    obtain ⟨e, _, he⟩ := GetOtherPoolsWithHosts_of_hosts w (host :: rest) (by simp)
    rw [he]
    simp

/-- C24: `GetOtherPoolsWithHosts` returns for every host list, without an access out of
range.  For the empty list it returns an error.  For a non-empty list the copy of the pool
configuration into the nil `tempConfig` fails, and the method returns that error with the nil
slice before its loop: the case of a copied configuration, for which one entry per host is
claimed, does not occur. -/
theorem GetOtherPoolsWithHosts_spec (w : World) (hosts : List String) :
    GetOtherPoolsWithHosts w hosts ≠ Run.panic ∧
    (hosts = [] →
      GetOtherPoolsWithHosts w hosts = Run.ret ([], some "Get other pool without hosts")) ∧
    (hosts ≠ [] → ∃ err, DeepCopy w none = some err ∧
      GetOtherPoolsWithHosts w hosts = Run.ret ([], some err)) ∧
    (∀ pools err, GetOtherPoolsWithHosts w hosts = Run.ret (pools, err) →
      pools = [] ∧ err.isSome = true) := by
  refine ⟨GetOtherPoolsWithHosts_no_panic w hosts, ?_,
    GetOtherPoolsWithHosts_of_hosts w hosts, GetOtherPoolsWithHosts_never_pools w hosts⟩
  intro h
  subst h
  rfl

/-! ## A failed probe of the primary timeline (C22) -/

theorem checkTimelineAndLsnLocal_of_leader (w : World) (c : Cluster) (leader : Member)
    (isRecovery : Bool) (localTimeLine localLsn : Int)
    (hleader : c.GetMemberWithName c.LeaderName = some leader) :
    checkTimelineAndLsnLocal w (some c) isRecovery localTimeLine localLsn = Run.ret false := by
  obtain ⟨e, _, he⟩ :=
    GetOtherPoolsWithHosts_of_hosts w [w.GetMemberAddr c leader] (by simp)
  unfold checkTimelineAndLsnLocal
  split_ifs
  · rfl
  · simp [hleader, he]

theorem checkTimelineAndLsnLocal_ne_true (w : World) (cluster : Option Cluster)
    (isRecovery : Bool) (localTimeLine localLsn : Int) :
    checkTimelineAndLsnLocal w cluster isRecovery localTimeLine localLsn ≠ Run.ret true := by
  by_cases hz : localTimeLine = 0 ∨ localLsn = 0
  · rw [checkTimelineAndLsnLocal_zero w cluster isRecovery localTimeLine localLsn hz]
    simp
  · cases cluster with
    | none => simp [checkTimelineAndLsnLocal, hz]
    | some c =>
      cases hleader : c.GetMemberWithName c.LeaderName with
      | none => simp [checkTimelineAndLsnLocal, hz, hleader]
      | some leader =>
        rw [checkTimelineAndLsnLocal_of_leader w c leader isRecovery localTimeLine localLsn
          hleader]
        simp

/-- C22: when the probe of the primary timeline fails (`cmd.Run()` returns an error or
`psql` writes to stderr), `getPrimaryTimeLine` returns timeline 0 with the error of
`cmd.Run()`, and `checkTimelineAndLsn` never returns true.  It returns false whenever the
local state is read and is zero or the cluster holds its leader member: the pool of the
leader is not obtained (line 523), so the method returns false before the probe is looked
at. -/
theorem checkTimelineAndLsn_of_failed_probe (w : World) (cluster : Option Cluster)
    (hfail : (w.run ["psql", "replication=database", "-c", "IDENTIFY_SYSTEM"]).err.isSome = true ∨
      (w.run ["psql", "replication=database", "-c", "IDENTIFY_SYSTEM"]).stderr ≠ "") :
    getPrimaryTimeLine w =
      Run.ret (0, (w.run ["psql", "replication=database", "-c", "IDENTIFY_SYSTEM"]).err) ∧
    checkTimelineAndLsn w cluster ≠ Run.ret true ∧
    (∀ state, getLocalTimeLineAndLsn w = Run.ret state →
      (state.2.1 = 0 ∨ state.2.2 = 0 ∨
        ∃ c leader, cluster = some c ∧ c.GetMemberWithName c.LeaderName = some leader) →
      checkTimelineAndLsn w cluster = Run.ret false) := by
  refine ⟨?_, ?_, ?_⟩
  · rcases hfail with h | h
    · simp [getPrimaryTimeLine, h]
    · simp [getPrimaryTimeLine, h]
  · unfold checkTimelineAndLsn
    cases getLocalTimeLineAndLsn w with
    | panic => simp
    | ret state =>
      simp only [Run.ret_bind]
      exact checkTimelineAndLsnLocal_ne_true w cluster _ _ _
  · intro state hstate hcase
    unfold checkTimelineAndLsn
    rw [hstate]
    simp only [Run.ret_bind]
    rcases hcase with h | h | ⟨c, leader, hc, hleader⟩
    · exact checkTimelineAndLsnLocal_zero w cluster _ _ _ (Or.inl h)
    · exact checkTimelineAndLsnLocal_zero w cluster _ _ _ (Or.inr h)
    · subst hc
      exact checkTimelineAndLsnLocal_of_leader w c leader _ _ _ hleader

/-- Witness of `checkTimelineAndLsn_of_failed_probe`: `psql` exits with status 0 and writes
a warning to stderr; the local server is stopped on timeline 2 at a non-zero position, and
`checkTimelineAndLsn` returns false. -/
theorem checkTimelineAndLsn_of_failed_probe_witness :
    (warningStoppedWorld.run ["psql", "replication=database", "-c", "IDENTIFY_SYSTEM"]).stderr
      ≠ "" ∧
    getLocalTimeLineAndLsn warningStoppedWorld = Run.ret (true, 2, 50331648) ∧
    checkTimelineAndLsn warningStoppedWorld (some twoMembers) = Run.ret false :=
  have h := checkTimelineAndLsn_of_failed_probe warningStoppedWorld (some twoMembers)
    (Or.inr (by decide))
  ⟨by decide, by decide,
    h.2.2 (true, 2, 50331648) (by decide)
      (Or.inr (Or.inr ⟨twoMembers, Member.mk "m1" "5432", rfl, by decide⟩))⟩

/-! ## The received timeline (C25) -/

theorem Marshal_received (v : JVal) :
    (Marshal [[("received_tli", v)]]).data =
      "[\x7b\"received_tli\":".data ++ (marshalValue v ++ ['\x7d', ']']) := by
  have hq : quote "received_tli" = "\"received_tli\"".data := by decide
  simp only [Marshal, marshalRow, List.map_cons, List.map_nil, hq]
  simp [List.intercalate]

theorem BigEndianUint64_append (p q : List Nat) (h : 8 ≤ p.length) :
    BigEndianUint64 (p ++ q) = BigEndianUint64 p := by
  unfold BigEndianUint64
  have h1 : ¬ (p ++ q).length < 8 := by
    rw [List.length_append]
    omega
  have h2 : ¬ p.length < 8 := by omega
  simp only [h1, h2, if_false]
  rw [List.take_append_of_le_length h]

theorem getReceivedTimeLine_of_row (w : World) (v : JVal)
    (hquery : w.query Conn.localDB receivedTimeLineSQL = Except.ok [[("received_tli", v)]]) :
    getReceivedTimeLine w = Run.ret 6591900354309481833 := by
  have hresp : Query w receivedTimeLineSQL = (Marshal [[("received_tli", v)]], none) := by
    simp [Query, QueryWithPool, connOf, hquery]
  unfold getReceivedTimeLine
  simp only [hresp]
  rw [Marshal_received, List.flatMap_append, BigEndianUint64_append _ _ (by decide)]
  decide

/-- C25 fails on the code: `getReceivedTimeLine` hands the JSON text of the response to
`binary.BigEndian.Uint64`, which reads its first eight bytes.  For a row with the column
`received_tli` it returns 6591900354309481833 whatever the value of the column, for a result
without rows (the text of two bytes) it crashes; it returns 0 when the query fails. -/
theorem getReceivedTimeLine_reads_text :
    getReceivedTimeLine (receiverWorld 1) = Run.ret 6591900354309481833 ∧
    (∀ (w : World) (v : JVal),
      w.query Conn.localDB receivedTimeLineSQL = Except.ok [[("received_tli", v)]] →
      getReceivedTimeLine w = Run.ret 6591900354309481833) ∧
    getReceivedTimeLine noReceiverRowWorld = Run.panic ∧
    (∀ w : World, w.query Conn.localDB receivedTimeLineSQL = Except.ok [] →
      getReceivedTimeLine w = Run.panic) ∧
    (∀ (w : World) (err : GoError),
      w.query Conn.localDB receivedTimeLineSQL = Except.error err →
      getReceivedTimeLine w = Run.ret 0) := by
  refine ⟨by decide, getReceivedTimeLine_of_row, by decide, ?_, ?_⟩
  · intro w h
    have hresp : Query w receivedTimeLineSQL = (Marshal [], none) := by
      simp [Query, QueryWithPool, connOf, h]
    unfold getReceivedTimeLine
    simp only [hresp]
    decide
  · intro w err h
    simp [getReceivedTimeLine, Query, QueryWithPool, connOf, h]

/-! ## The text handed to the quorum parser (C23) -/

theorem flatMap_escapeChar_same :
    ∀ l : List Char, (∀ c ∈ l, escapeChar c = [c]) → l.flatMap escapeChar = l := by
  intro l
  induction l with
  | nil => intro _; rfl
  | cons c cs ih =>
    intro h
    rw [List.flatMap_cons, h c (List.mem_cons_self _ _),
      ih (fun d hd => h d (List.mem_cons_of_mem _ hd))]
    rfl

theorem Marshal_current_setting (s : String) (h : ∀ c ∈ s.data, escapeChar c = [c]) :
    (Marshal [[("current_setting", JVal.str s)]]).data =
      "[\x7b\"current_setting\"".data ++ ':' :: ('"' :: (s.data ++ ['"', '\x7d', ']'])) := by
  have hq : quote "current_setting" = "\"current_setting\"".data := by decide
  simp only [Marshal, marshalRow, marshalValue, List.map_cons, List.map_nil, hq]
  simp only [quote, flatMap_escapeChar_same s.data h]
  simp [List.intercalate]

theorem standbyNamesOf_plain (s : String)
    (h : ∀ c ∈ s.data, escapeChar c = [c] ∧ c ≠ ':') :
    standbyNamesOf (Marshal [[("current_setting", JVal.str s)]]) = Run.ret s := by
  have hesc : ∀ c ∈ s.data, escapeChar c = [c] := fun c hc => (h c hc).1
  have hcolon : ':' ∉ s.data := fun hin => (h ':' hin).2 rfl
  have hquote : '"' ∉ s.data := fun hin => absurd (h '"' hin).1 (by decide)
  have hsplit : splitChars ':' (Marshal [[("current_setting", JVal.str s)]]).data =
      ["[\x7b\"current_setting\"".data, '"' :: (s.data ++ ['"', '\x7d', ']'])] := by
    rw [Marshal_current_setting s hesc, splitChars_append_sep ':' _ _ (by decide)]
    rw [splitChars_no_sep]
    intro hin
    rcases List.mem_cons.mp hin with h1 | h1
    · exact absurd h1 (by decide)
    · rcases List.mem_append.mp h1 with h2 | h2
      · exact hcolon h2
      · exact absurd h2 (by decide)
  have hsplit2 : splitChars '"' ('"' :: (s.data ++ ['"', '\x7d', ']'])) =
      [[], s.data, ['\x7d', ']']] := by
    have h0 := splitChars_append_sep '"' (s.data ++ ['"', '\x7d', ']']) [] (by simp)
    rw [List.nil_append] at h0
    rw [h0]
    have h1 := splitChars_append_sep '"' ['\x7d', ']'] s.data hquote
    rw [h1, splitChars_no_sep '"' ['\x7d', ']'] (by decide)]
  simp only [standbyNamesOf, Split, hsplit, List.map_cons, List.map_nil, index,
    List.getElem?_cons_succ, List.getElem?_cons_zero, Run.ret_bind, hsplit2]

/-- C23 fails on the code: line 348 cuts the response at the first double quote after the
colon, and `json.Marshal` writes a double quote of the value as a backslash and a double
quote.  Of the value `FIRST 1 ("m-1", m2)` the parser receives `FIRST 1 (\`, and the member
`m2` it lists is taken as not synchronized.  A value without a colon and without a character
that JSON escapes is handed over as it is. -/
theorem standbyNamesOf_quoted :
    standbyNamesOf (Query quotedNamesWorld standbyNamesSQL).1 = Run.ret "FIRST 1 (\\" ∧
    "FIRST 1 (\\" ≠ quotedNames ∧
    quotedNamesWorld.parsePGSyncStandby quotedNames =
      Except.ok (PGStandby.mk ["m-1", "m2"] false) ∧
    checkStandbySynchronizedToLeader quotedNamesWorld "m2" true (some twoMembers) =
      Run.ret false ∧
    standbyNamesOf (Marshal [[("current_setting", JVal.str "FIRST 1 (m1, m2)")]]) =
      Run.ret "FIRST 1 (m1, m2)" ∧
    (∀ s : String, (∀ c ∈ s.data, escapeChar c = [c] ∧ c ≠ ':') →
      standbyNamesOf (Marshal [[("current_setting", JVal.str s)]]) = Run.ret s) :=
  ⟨by decide, by decide, rfl, by decide, by decide, standbyNamesOf_plain⟩


/-! ## Another healthy leader (C27) -/

theorem HasOtherHealthyLeader_nil (w : World) (c : Cluster) :
    HasOtherHealthyLeader w (some c) = Run.ret none := by
  cases hpools : GetOtherPoolsWithHosts w (GetMemberAddrs w c) with
  | panic => exact absurd hpools (GetOtherPoolsWithHosts_no_panic w _)
  | ret res =>
    obtain ⟨pools, err⟩ := res
    obtain ⟨_, herr⟩ := GetOtherPoolsWithHosts_never_pools w _ pools err hpools
    simp only [HasOtherHealthyLeader, hpools, herr, if_true]

/-- C27: for every cluster `HasOtherHealthyLeader` returns nil, also when no other member
reports the primary role: `GetOtherPoolsWithHosts` returns an error for every host list
(line 798), so the loop over the pools is not reached.  No member is ever returned, so every
member returned differs from the current one and reported the primary role. -/
theorem HasOtherHealthyLeader_spec (w : World) (c : Cluster) :
    HasOtherHealthyLeader w (some c) = Run.ret none ∧
    (∀ m : Member, HasOtherHealthyLeader w (some c) = Run.ret (some m) →
      m.Name ≠ w.CurrentMemberName ∧
      (IsLeaderWithPool w (some (Pool.forHost (w.GetMemberAddr c m)))).1 = true) := by
  refine ⟨HasOtherHealthyLeader_nil w c, ?_⟩
  intro m hm
  rw [HasOtherHealthyLeader_nil w c] at hm
  exact absurd hm (by simp)

/-! ## Other healthy members in asynchronous mode (C26) -/

theorem healthyMembersLoop_eq (w : World) (c : Cluster) (leader : String) :
    ∀ (l acc : List Member),
      (∀ m ∈ l, m.Name ≠ leader → IsMemberHealthy w (some c) (some m) ≠ Run.panic) →
      healthyMembersLoop w c leader l acc =
        Run.ret (acc ++ l.filter (fun m => decide (m.Name ≠ leader) &&
          decide (IsMemberHealthy w (some c) (some m) = Run.ret true))) := by
  intro l
  induction l with
  | nil => intro acc _; simp [healthyMembersLoop]
  | cons m rest ih =>
    intro acc h
    have hrest : ∀ x ∈ rest, x.Name ≠ leader →
        IsMemberHealthy w (some c) (some x) ≠ Run.panic :=
      fun x hx => h x (List.mem_cons_of_mem _ hx)
    by_cases hname : m.Name = leader
    · simp only [healthyMembersLoop, hname, ne_eq, not_true_eq_false, if_false]
      rw [ih acc hrest]
      simp [List.filter, hname]
    · have hm := h m (List.mem_cons_self _ _) hname
      cases hhealth : IsMemberHealthy w (some c) (some m) with
      | panic => exact absurd hhealth hm
      | ret b =>
        cases b with
        | true =>
          simp only [healthyMembersLoop, hname, ne_eq, not_false_eq_true, if_true, hhealth]
          rw [ih (acc ++ [m]) hrest]
          simp [List.filter, hname, hhealth]
        | false =>
          simp only [healthyMembersLoop, hname, ne_eq, not_false_eq_true, if_true, hhealth]
          rw [ih acc hrest]
          simp [List.filter, hname, hhealth]

theorem healthyMembersLoop_panic (w : World) (c : Cluster) (leader : String) :
    ∀ (l acc : List Member),
      (∃ m ∈ l, m.Name ≠ leader ∧ IsMemberHealthy w (some c) (some m) = Run.panic) →
      healthyMembersLoop w c leader l acc = Run.panic := by
  intro l
  induction l with
  | nil => intro acc h; obtain ⟨m, hm, _⟩ := h; simp at hm
  | cons m rest ih =>
    intro acc h
    by_cases hname : m.Name = leader
    · simp only [healthyMembersLoop, hname, ne_eq, not_true_eq_false, if_false]
      apply ih
      obtain ⟨x, hx, hxn, hxp⟩ := h
      rcases List.mem_cons.1 hx with rfl | hx
      · exact absurd hname hxn
      · exact ⟨x, hx, hxn, hxp⟩
    · cases hhealth : IsMemberHealthy w (some c) (some m) with
      | panic => simp only [healthyMembersLoop, hname, ne_eq, not_false_eq_true, if_true, hhealth]
      | ret b =>
        have hrest : ∃ x ∈ rest, x.Name ≠ leader ∧
            IsMemberHealthy w (some c) (some x) = Run.panic := by
          obtain ⟨x, hx, hxn, hxp⟩ := h
          rcases List.mem_cons.1 hx with rfl | hx
          · rw [hhealth] at hxp; exact absurd hxp (by simp)
          · exact ⟨x, hx, hxn, hxp⟩
        cases b with
        | true =>
          simp only [healthyMembersLoop, hname, ne_eq, not_false_eq_true, if_true, hhealth]
          exact ih _ hrest
        | false =>
          simp only [healthyMembersLoop, hname, ne_eq, not_false_eq_true, if_true, hhealth]
          exact ih _ hrest

/-- C26, as stated, fails: in asynchronous mode the member `m2` differs from the leader `m1`
and `IsMemberHealthy` is true for it, and `HasOtherHealthyMembers` returns the empty
list. -/
theorem HasOtherHealthyMembers_empty_when_asynchronous :
    getReplicationMode (standbyWorld "m2" "off" "1(m2)" 950 940) =
      Run.ret ("asynchronous", none) ∧
    Member.mk "m2" "5432" ∈ twoMembers.Members ∧
    (Member.mk "m2" "5432").Name ≠ "m1" ∧
    IsMemberHealthy (standbyWorld "m2" "off" "1(m2)" 950 940) (some twoMembers)
      (some (Member.mk "m2" "5432")) = Run.ret true ∧
    HasOtherHealthyMembers (standbyWorld "m2" "off" "1(m2)" 950 940) (some twoMembers) "m1" =
      Run.ret [] := by
  decide

/-- C26 (amended): once the replication mode is read, `HasOtherHealthyMembers` returns the
empty list when the mode is not synchronous or was read with an error.  In synchronous mode
it returns, in cluster order, exactly the members whose name differs from `leader` and for
which `IsMemberHealthy` is true, provided no such health check crashes; when one crashes, it
crashes. -/
theorem HasOtherHealthyMembers_spec (w : World) (c : Cluster) (leader mode : String)
    (err : Option GoError) (hmode : getReplicationMode w = Run.ret (mode, err)) :
    (err.isSome = true ∨ mode ≠ "synchronous" →
      HasOtherHealthyMembers w (some c) leader = Run.ret []) ∧
    (err = none → mode = "synchronous" →
      ((∀ m ∈ c.Members, m.Name ≠ leader →
          IsMemberHealthy w (some c) (some m) ≠ Run.panic) →
        HasOtherHealthyMembers w (some c) leader =
          Run.ret (c.Members.filter (fun m => decide (m.Name ≠ leader) &&
            decide (IsMemberHealthy w (some c) (some m) = Run.ret true)))) ∧
      ((∃ m ∈ c.Members, m.Name ≠ leader ∧
          IsMemberHealthy w (some c) (some m) = Run.panic) →
        HasOtherHealthyMembers w (some c) leader = Run.panic)) := by
  constructor
  · intro h
    cases err with
    | some e => simp [HasOtherHealthyMembers, hmode]
    | none =>
      rcases h with h | h
      · simp at h
      · simp [HasOtherHealthyMembers, hmode, h]
  · intro herr hsync
    subst herr hsync
    constructor
    · intro h
      simp only [HasOtherHealthyMembers, hmode, if_true]
      rw [healthyMembersLoop_eq w c leader c.Members [] h]
      rfl
    · intro h
      simp only [HasOtherHealthyMembers, hmode, if_true]
      exact healthyMembersLoop_panic w c leader c.Members [] h

/-- Witness of `HasOtherHealthyMembers_spec`: with the settings `on` and `1(m2)` the result is
the member `m2`; with the setting `off` it is empty. -/
theorem HasOtherHealthyMembers_spec_witness :
    HasOtherHealthyMembers (standbyWorld "m2" "on" "1(m2)" 950 940) (some twoMembers) "m1" =
      Run.ret [Member.mk "m2" "5432"] ∧
    HasOtherHealthyMembers (standbyWorld "m2" "off" "1(m2)" 950 940) (some twoMembers) "m1" =
      Run.ret [] :=
  ⟨(((HasOtherHealthyMembers_spec (standbyWorld "m2" "on" "1(m2)" 950 940) twoMembers "m1"
      "synchronous" none (by decide)).2 rfl rfl).1 (by decide)).trans (by decide),
    (HasOtherHealthyMembers_spec (standbyWorld "m2" "off" "1(m2)" 950 940) twoMembers "m1"
      "asynchronous" none (by decide)).1 (Or.inr (by decide))⟩

end Postgres

namespace V1alpha1

@[simp] theorem Exec.bind_of_ret {α β : Type} (a : α) (f : α → Exec β) :
    (Exec.ret a >>= f) = f a := rfl

@[simp] theorem Exec.bind_of_panic {α β : Type} (f : α → Exec β) :
    ((Exec.panic : Exec α) >>= f) = Exec.panic := rfl

@[simp] theorem Exec.bind_of_hang {α β : Type} (f : α → Exec β) :
    ((Exec.hang : Exec α) >>= f) = Exec.hang := rfl

@[simp] theorem Exec.pure_eq_ret {α : Type} (a : α) : (pure a : Exec α) = Exec.ret a := rfl

/-! ## Decimals -/

theorem Dec.value_lt_iff (x y : Dec) :
    x.value < y.value ↔ x.unscaled * 10 ^ y.scale < y.unscaled * 10 ^ x.scale := by
  unfold Dec.value
  have hx : (0 : ℚ) < (10 : ℚ) ^ x.scale := by positivity
  have hy : (0 : ℚ) < (10 : ℚ) ^ y.scale := by positivity
  rw [div_lt_div_iff₀ hx hy]
  constructor
  · intro h
    exact_mod_cast h
  · intro h
    exact_mod_cast h

theorem Dec.value_eq_iff (x y : Dec) :
    x.value = y.value ↔ x.unscaled * 10 ^ y.scale = y.unscaled * 10 ^ x.scale := by
  unfold Dec.value
  have hx : (10 : ℚ) ^ x.scale ≠ 0 := by positivity
  have hy : (10 : ℚ) ^ y.scale ≠ 0 := by positivity
  rw [div_eq_div_iff hx hy]
  constructor
  · intro h
    exact_mod_cast h
  · intro h
    exact_mod_cast h

theorem Dec.Cmp_spec (x y : Dec) :
    x.Cmp y = if x.value < y.value then -1 else if x.value = y.value then 0 else 1 := by
  unfold Dec.Cmp
  simp only [Dec.value_lt_iff, Dec.value_eq_iff]

theorem Dec.Cmp_pos_iff (x y : Dec) : x.Cmp y > 0 ↔ y.value < x.value := by
  rw [Dec.Cmp_spec]
  split_ifs with h1 h2
  · constructor
    · intro h; omega
    · intro h; exact absurd h (not_lt.mpr (le_of_lt h1))
  · constructor
    · intro h; omega
    · intro h; rw [h2] at h; exact absurd h (lt_irrefl _)
  · constructor
    · intro _; exact lt_of_le_of_ne (not_lt.mp h1) (fun h => h2 h.symm)
    · intro _; omega

theorem Dec.Cmp_neg_iff (x y : Dec) : x.Cmp y < 0 ↔ x.value < y.value := by
  rw [Dec.Cmp_spec]
  split_ifs with h1 h2
  · constructor
    · intro _; exact h1
    · intro _; omega
  · constructor
    · intro h; omega
    · intro h; exact absurd h h1
  · constructor
    · intro h; omega
    · intro h; exact absurd h h1

theorem Dec.Cmp_zero_iff (x y : Dec) : x.Cmp y = 0 ↔ x.value = y.value := by
  rw [Dec.Cmp_spec]
  split_ifs with h1 h2
  · constructor
    · intro h; exact absurd h (by decide)
    · intro h; rw [h] at h1; exact absurd h1 (lt_irrefl _)
  · simp [h2]
  · constructor
    · intro h; exact absurd h (by decide)
    · intro h; exact absurd h h2

theorem Dec.Mul_value (x y : Dec) : (Dec.Mul x y).value = x.value * y.value := by
  unfold Dec.Mul Dec.value
  simp only [Int.cast_mul, pow_add]
  field_simp

theorem Quantity.IsZero_iff (q : Quantity) : q.IsZero = true ↔ q.value = 0 := by
  unfold Quantity.IsZero Quantity.value Dec.value
  have h : (10 : ℚ) ^ q.dec.scale ≠ 0 := by positivity
  simp [h]

/-! ## Slots do not switch off Min, Max and Step (C16) -/

/-- C16 fails on the code: with the slots 4 and 8 and the range Min 0.5, Max 2, Step 0.5 left
in place, `ValidateCPU` rejects the slot 4 (its `Max` check returns false), while it accepts
it when the slots stand alone. -/
theorem ValidateCPU_slots_not_alone :
    whole 4 ∈ [whole 4, whole 8] ∧
    slotsWithRange.CPU.Slots = some [whole 4, whole 8] ∧
    ValidateCPU slotsWithRange (whole 4) = Exec.ret false ∧
    ValidateCPU slotsOnly (whole 4) = Exec.ret true := by
  decide

/-! ## Memory per core (C18) -/

theorem ValidateMemory_of_cpu (m : ResourceConstraint) (cpu memory : Quantity)
    (hcpu : cpu.IsZero = false) (hmem : memory.IsZero = false) :
    ValidateMemory m (some cpu) memory = memoryMatches m memory [cpu] := by
  simp [ValidateMemory, hcpu, hmem]

/-- What `ValidateMemory` returns for a non-zero cpu and a non-zero memory: when
`SizePerCPU` is set and not zero, whether memory equals cpu times `SizePerCPU`, whatever
`MinPerCPU` and `MaxPerCPU` are; otherwise, with `MinPerCPU` and `MaxPerCPU` both set,
whether memory lies between cpu times `MinPerCPU` and cpu times `MaxPerCPU`. -/
theorem ValidateMemory_spec (m : ResourceConstraint) (cpu memory : Quantity)
    (hcpu : cpu.IsZero = false) (hmem : memory.IsZero = false) :
    (∀ size, m.Memory.SizePerCPU = some size → size.IsZero = false →
      ValidateMemory m (some cpu) memory =
        Exec.ret (decide (memory.value = cpu.value * size.value))) ∧
    (∀ lo hi, (m.Memory.SizePerCPU = none ∨
        ∃ size, m.Memory.SizePerCPU = some size ∧ size.IsZero = true) →
      m.Memory.MinPerCPU = some lo → m.Memory.MaxPerCPU = some hi →
      ValidateMemory m (some cpu) memory =
        Exec.ret (decide (cpu.value * lo.value ≤ memory.value ∧
          memory.value ≤ cpu.value * hi.value))) := by
  rw [ValidateMemory_of_cpu m cpu memory hcpu hmem]
  constructor
  · intro size hsize hzero
    have hiff : (Dec.Mul cpu.AsDec size.AsDec).Cmp memory.AsDec = 0 ↔
        memory.value = cpu.value * size.value := by
      rw [Dec.Cmp_zero_iff, Dec.Mul_value]
      exact eq_comm
    by_cases hv : memory.value = cpu.value * size.value
    · simp [memoryMatches, hsize, hzero, hiff.mpr hv, hv]
    · have hn : ¬ (Dec.Mul cpu.AsDec size.AsDec).Cmp memory.AsDec = 0 := fun h => hv (hiff.mp h)
      simp [memoryMatches, hsize, hzero, hn, hv]
  · intro lo hi hsize hlo hhi
    have hcond : (match m.Memory.SizePerCPU with
        | some size => !size.IsZero
        | none => false) = false := by
      rcases hsize with h | ⟨size, h, hz⟩
      · simp [h]
      · simp [h, hz]
    have hmax : (Dec.Mul cpu.AsDec hi.AsDec).Cmp memory.AsDec ≥ 0 ↔
        memory.value ≤ cpu.value * hi.value := by
      rw [ge_iff_le, ← not_lt, Dec.Cmp_neg_iff, Dec.Mul_value, not_lt]
      rfl
    have hmin : (Dec.Mul cpu.AsDec lo.AsDec).Cmp memory.AsDec ≤ 0 ↔
        cpu.value * lo.value ≤ memory.value := by
      rw [← not_lt, ← gt_iff_lt, Dec.Cmp_pos_iff, Dec.Mul_value, not_lt]
      rfl
    by_cases hv : cpu.value * lo.value ≤ memory.value ∧ memory.value ≤ cpu.value * hi.value
    · have hc : (Dec.Mul cpu.AsDec hi.AsDec).Cmp memory.AsDec ≥ 0 ∧
          (Dec.Mul cpu.AsDec lo.AsDec).Cmp memory.AsDec ≤ 0 := ⟨hmax.mpr hv.2, hmin.mpr hv.1⟩
      simp only [memoryMatches, hcond, hhi, hlo, hc, hv]
      simp
    · have hc : ¬ ((Dec.Mul cpu.AsDec hi.AsDec).Cmp memory.AsDec ≥ 0 ∧
          (Dec.Mul cpu.AsDec lo.AsDec).Cmp memory.AsDec ≤ 0) :=
        fun h => hv ⟨hmin.mp h.2, hmax.mp h.1⟩
      simp only [memoryMatches, hcond, hhi, hlo, hc, hv]
      simp

/-- Examples of `ValidateMemory_spec`: half a core with one gibibyte per core takes 512Mi
and nothing else; with one to four gibibytes per core it takes 1Gi. -/
theorem ValidateMemory_examples :
    ValidateMemory gibiPerCore (some (tenths 5)) (whole 536870912) = Exec.ret true ∧
    ValidateMemory gibiPerCore (some (tenths 5)) gibi = Exec.ret false ∧
    ValidateMemory gibiRange (some (tenths 5)) gibi = Exec.ret true :=
  have h1 := ValidateMemory_spec gibiPerCore (tenths 5) (whole 536870912) (by decide)
    (by decide)
  have h2 := ValidateMemory_spec gibiPerCore (tenths 5) gibi (by decide) (by decide)
  have h3 := ValidateMemory_spec gibiRange (tenths 5) gibi (by decide) (by decide)
  ⟨(h1.1 gibi rfl (by decide)).trans
      (by norm_num [whole, tenths, gibi, Quantity.value, Dec.value]),
    (h2.1 gibi rfl (by decide)).trans
      (by norm_num [whole, tenths, gibi, Quantity.value, Dec.value]),
    (h3.2 gibi (whole 4294967296) (Or.inl rfl) rfl rfl).trans
      (by norm_num [whole, tenths, gibi, Quantity.value, Dec.value])⟩

/-- Without a `SizePerCPU` that counts, `ValidateMemory` dereferences `MaxPerCPU` and then
`MinPerCPU` (lines 193-194): it crashes when one of them is nil. -/
theorem ValidateMemory_of_nil_bound (m : ResourceConstraint) (cpu memory : Quantity)
    (hcpu : cpu.IsZero = false) (hmem : memory.IsZero = false)
    (hsize : m.Memory.SizePerCPU = none ∨
      ∃ size, m.Memory.SizePerCPU = some size ∧ size.IsZero = true)
    (hnil : m.Memory.MaxPerCPU = none ∨ m.Memory.MinPerCPU = none) :
    ValidateMemory m (some cpu) memory = Exec.panic := by
  rw [ValidateMemory_of_cpu m cpu memory hcpu hmem]
  have hcond : (match m.Memory.SizePerCPU with
      | some size => !size.IsZero
      | none => false) = false := by
    rcases hsize with h | ⟨size, h, hz⟩
    · simp [h]
    · simp [h, hz]
  cases hmax : m.Memory.MaxPerCPU with
  | none => simp [memoryMatches, hcond, hmax]
  | some hi =>
    rcases hnil with h | h
    · rw [hmax] at h; exact absurd h (by simp)
    · simp [memoryMatches, hcond, hmax, h]

/-- C18 fails on the code: with `SizePerCPU` and `MaxPerCPU` unset and `MinPerCPU` 1Gi,
`ValidateMemory` crashes for one core and 2Gi instead of returning a verdict, and so it does
whenever `SizePerCPU` does not count and one of the two bounds is nil; `ValidateCPU` tests
its bounds for nil and returns.  With `SizePerCPU` set, and with both bounds set, it returns
what the claim says. -/
theorem ValidateMemory_crashes_on_nil_bound :
    gibiAtLeast.Memory = MemoryConstraint.mk none none (some gibi) ∧
    ValidateMemory gibiAtLeast (some (whole 1)) (whole 2147483648) = Exec.panic ∧
    ValidateCPU atMostHalf (tenths 5) = Exec.ret true ∧
    (∀ (m : ResourceConstraint) (cpu memory : Quantity),
      cpu.IsZero = false → memory.IsZero = false →
      (m.Memory.SizePerCPU = none ∨
        ∃ size, m.Memory.SizePerCPU = some size ∧ size.IsZero = true) →
      (m.Memory.MaxPerCPU = none ∨ m.Memory.MinPerCPU = none) →
      ValidateMemory m (some cpu) memory = Exec.panic) ∧
    (∀ (m : ResourceConstraint) (cpu memory size : Quantity),
      cpu.IsZero = false → memory.IsZero = false →
      m.Memory.SizePerCPU = some size → size.IsZero = false →
      ValidateMemory m (some cpu) memory =
        Exec.ret (decide (memory.value = cpu.value * size.value))) ∧
    (∀ (m : ResourceConstraint) (cpu memory lo hi : Quantity),
      cpu.IsZero = false → memory.IsZero = false →
      (m.Memory.SizePerCPU = none ∨
        ∃ size, m.Memory.SizePerCPU = some size ∧ size.IsZero = true) →
      m.Memory.MinPerCPU = some lo → m.Memory.MaxPerCPU = some hi →
      ValidateMemory m (some cpu) memory =
        Exec.ret (decide (cpu.value * lo.value ≤ memory.value ∧
          memory.value ≤ cpu.value * hi.value))) :=
  ⟨rfl, by decide, by decide, ValidateMemory_of_nil_bound,
    fun m cpu memory size hcpu hmem hsize hzero =>
      (ValidateMemory_spec m cpu memory hcpu hmem).1 size hsize hzero,
    fun m cpu memory lo hi hcpu hmem hsize hlo hhi =>
      (ValidateMemory_spec m cpu memory hcpu hmem).2 lo hi hsize hlo hhi⟩

/-! ## The minimal resources (C19) -/

/-- C19 fails on the code: for the constraint of at most half a core `GetMinimalResources`
returns one core with 1Gi, which `ValidateResources` rejects; for the slots 2 and 1 it
returns two cores with 2Gi although one core with 1Gi meets the constraint. -/
theorem GetMinimalResources_not_minimal :
    GetMinimalResources atMostHalf =
      Exec.ret (ResourceList.mk (some (whole 1)) (some gibi) none) ∧
    ValidateResources atMostHalf (ResourceList.mk (some (whole 1)) (some gibi) none) =
      Exec.ret false ∧
    GetMinimalResources unsortedSlots =
      Exec.ret (ResourceList.mk (some (whole 2)) (some (whole 2147483648)) none) ∧
    ValidateResources unsortedSlots (ResourceList.mk (some (whole 1)) (some gibi) none) =
      Exec.ret true ∧
    (whole 1).value < (whole 2).value := by
  refine ⟨by decide, by decide, by decide, by decide, ?_⟩
  norm_num [whole, Quantity.value, Dec.value]


/-! ## The exact quotient -/

theorem factorCount_pow_mul (p m : Nat) (hp : 1 < p) (hm : 0 < m) (hpm : ¬ p ∣ m) :
    ∀ (i fuel : Nat), i ≤ fuel → factorCount p fuel (p ^ i * m) = i := by
  intro i
  induction i with
  | zero =>
    intro fuel _
    cases fuel with
    | zero => rfl
    | succ fuel =>
      have hmod : ¬ m % p = 0 := fun h => hpm (Nat.dvd_of_mod_eq_zero h)
      simp [factorCount, hmod]
  | succ i ih =>
    intro fuel hle
    cases fuel with
    | zero => omega
    | succ fuel =>
      have hp0 : 0 < p := by omega
      have hne : p ^ (i + 1) * m ≠ 0 := by positivity
      have hform : p ^ (i + 1) * m = p * (p ^ i * m) := by ring
      have hmod : p ^ (i + 1) * m % p = 0 := by rw [hform]; exact Nat.mul_mod_right _ _
      have hdiv : p ^ (i + 1) * m / p = p ^ i * m := by
        rw [hform]; exact Nat.mul_div_cancel_left _ hp0
      simp only [factorCount, hne, hmod, ne_eq, not_false_eq_true, and_self, if_true, hdiv]
      rw [ih fuel (by omega)]

/-- A divisor of a power of ten divides ten to the larger of its powers of 2 and of 5, as
`factorCount` finds them. -/
theorem dvd_ten_pow_factorCount (d n : Nat) (hd : d ∣ 10 ^ n) :
    d ∣ 10 ^ max (factorCount 2 d d) (factorCount 5 d d) := by
  have hten : (10 : Nat) ^ n = 2 ^ n * 5 ^ n := by rw [← Nat.mul_pow]
  rw [hten] at hd
  obtain ⟨a, b, ha, hb, hab⟩ := (Nat.dvd_mul).1 hd
  obtain ⟨i, _, hi⟩ := (Nat.dvd_prime_pow Nat.prime_two).1 ha
  obtain ⟨j, _, hj⟩ := (Nat.dvd_prime_pow Nat.prime_five).1 hb
  subst hi hj
  have h2 : factorCount 2 d d = i := by
    rw [← hab]
    refine factorCount_pow_mul 2 (5 ^ j) (by norm_num) (by positivity) ?_ i _ ?_
    · intro h
      have := (Nat.Prime.dvd_of_dvd_pow Nat.prime_two h)
      omega
    · have h1 : i < 2 ^ i := Nat.lt_pow_self (by norm_num) i
      have h2 : 2 ^ i ≤ 2 ^ i * 5 ^ j := Nat.le_mul_of_pos_right _ (by positivity)
      omega
  have h5 : factorCount 5 d d = j := by
    rw [← hab, Nat.mul_comm]
    refine factorCount_pow_mul 5 (2 ^ i) (by norm_num) (by positivity) ?_ j _ ?_
    · intro h
      have := (Nat.Prime.dvd_of_dvd_pow Nat.prime_five h)
      omega
    · have h1 : j < 5 ^ j := Nat.lt_pow_self (by norm_num) j
      have h2 : 5 ^ j ≤ 5 ^ j * 2 ^ i := Nat.le_mul_of_pos_right _ (by positivity)
      omega
  rw [h2, h5, ← hab]
  have hten2 : (10 : Nat) ^ max i j = 2 ^ max i j * 5 ^ max i j := by rw [← Nat.mul_pow]
  rw [hten2]
  exact Nat.mul_dvd_mul (pow_dvd_pow 2 (le_max_left i j)) (pow_dvd_pow 5 (le_max_right i j))

/-- What `QuoExact` divides: when `y.unscaled` divides `x.unscaled` times a power of ten, it
divides `x.unscaled` times the power of ten that `QuoExact` takes. -/
theorem QuoExact_dvd (xu yu : Int) (n : Nat) (hy : yu ≠ 0) (hdvd : yu ∣ xu * 10 ^ n) :
    yu ∣ xu * 10 ^ max
      (factorCount 2 (yu.natAbs / Int.gcd xu yu) (yu.natAbs / Int.gcd xu yu))
      (factorCount 5 (yu.natAbs / Int.gcd xu yu) (yu.natAbs / Int.gcd xu yu)) := by
  have hg : 0 < Int.gcd xu yu := Int.gcd_pos_of_ne_zero_right _ hy
  have hgy : Int.gcd xu yu ∣ yu.natAbs := Nat.gcd_dvd_right xu.natAbs yu.natAbs
  have hgx : Int.gcd xu yu ∣ xu.natAbs := Nat.gcd_dvd_left xu.natAbs yu.natAbs
  obtain ⟨d, hd⟩ := hgy
  obtain ⟨a, ha⟩ := hgx
  have hdiv : yu.natAbs / Int.gcd xu yu = d := by
    rw [hd]; exact Nat.mul_div_cancel_left _ hg
  rw [hdiv]
  have hcop : Nat.Coprime d a := by
    have h := Nat.coprime_div_gcd_div_gcd (m := xu.natAbs) (n := yu.natAbs) hg
    have hxa : xu.natAbs / Nat.gcd xu.natAbs yu.natAbs = a := by
      show xu.natAbs / Int.gcd xu yu = a
      rw [ha]; exact Nat.mul_div_cancel_left _ hg
    have hyd : yu.natAbs / Nat.gcd xu.natAbs yu.natAbs = d := hdiv
    rw [hxa, hyd] at h
    exact h.symm
  have hnat : yu.natAbs ∣ xu.natAbs * 10 ^ n := by
    have h := Int.natAbs_dvd_natAbs.2 hdvd
    rwa [Int.natAbs_mul, Int.natAbs_pow] at h
  have hd10 : d ∣ 10 ^ n := by
    rw [hd, ha, Nat.mul_assoc] at hnat
    have h1 : d ∣ a * 10 ^ n := (Nat.mul_dvd_mul_iff_left hg).1 hnat
    exact hcop.dvd_of_dvd_mul_left h1
  have hfin := dvd_ten_pow_factorCount d n hd10
  apply Int.natAbs_dvd_natAbs.1
  rw [Int.natAbs_mul, Int.natAbs_pow, hd, ha]
  show Int.gcd xu yu * d ∣ Int.gcd xu yu * a * 10 ^ _
  rw [Nat.mul_assoc]
  exact Nat.mul_dvd_mul_left _ (Dvd.dvd.mul_left hfin a)

/-- The quotient `QuoExact` returns is exact. -/
theorem Dec.QuoExact_value (x y z : Dec) (h : Dec.QuoExact x y = Exec.ret (some z)) :
    z.value * y.value = x.value := by
  unfold Dec.QuoExact at h
  by_cases hy : y.unscaled = 0
  · simp [hy] at h
  · simp only [hy, if_false] at h
    generalize max (factorCount 2 (y.unscaled.natAbs / Int.gcd x.unscaled y.unscaled)
        (y.unscaled.natAbs / Int.gcd x.unscaled y.unscaled))
      (factorCount 5 (y.unscaled.natAbs / Int.gcd x.unscaled y.unscaled)
        (y.unscaled.natAbs / Int.gcd x.unscaled y.unscaled)) = f at h
    by_cases hrem : x.unscaled * 10 ^ f % y.unscaled = 0
    · have hq : x.unscaled * 10 ^ f / y.unscaled * y.unscaled = x.unscaled * 10 ^ f :=
        Int.ediv_mul_cancel (Int.dvd_of_emod_eq_zero hrem)
      have hqq : ((x.unscaled * 10 ^ f / y.unscaled : Int) : ℚ) * (y.unscaled : ℚ) =
          (x.unscaled : ℚ) * 10 ^ f := by
        have := congrArg (fun i : Int => (i : ℚ)) hq
        simpa using this
      have h10 : ∀ n : Nat, (10 : ℚ) ^ n ≠ 0 := fun n => by positivity
      simp only [hrem, ne_eq, not_true_eq_false, if_false] at h
      by_cases hs : y.scale ≤ x.scale + f
      · simp only [hs, if_true, Exec.ret.injEq, Option.some.injEq] at h
        subst h
        simp only [Dec.value]
        rw [div_mul_div_comm, hqq, ← pow_add, Nat.sub_add_cancel hs, pow_add]
        field_simp
        ring
      · simp only [hs, if_false, Exec.ret.injEq, Option.some.injEq] at h
        subst h
        simp only [Dec.value, pow_zero, div_one]
        push_cast
        have hsplit : y.scale = (y.scale - (x.scale + f)) + (x.scale + f) := by omega
        have hpow : (10 : ℚ) ^ y.scale =
            10 ^ (y.scale - (x.scale + f)) * (10 ^ x.scale * 10 ^ f) := by
          rw [← pow_add, ← pow_add]
          congr 1
        have hqq2 : ((x.unscaled : ℚ) * 10 ^ f / (y.unscaled : ℚ)) * (y.unscaled : ℚ) =
            (x.unscaled : ℚ) * 10 ^ f := by
          have hyq : (y.unscaled : ℚ) ≠ 0 := by exact_mod_cast hy
          field_simp
        rw [hpow]
        have hcast : ((x.unscaled * 10 ^ f / y.unscaled : Int) : ℚ) =
            (x.unscaled : ℚ) * 10 ^ f / (y.unscaled : ℚ) := by
          have hyq : (y.unscaled : ℚ) ≠ 0 := by exact_mod_cast hy
          rw [eq_div_iff hyq, hqq]
        have h1 := h10 (y.scale - (x.scale + f))
        have h2 := h10 x.scale
        have h3 := h10 f
        have hyq : (y.unscaled : ℚ) ≠ 0 := by exact_mod_cast hy
        rw [show (((x.unscaled * 10 ^ f / y.unscaled : Int) : ℚ)) =
          (x.unscaled : ℚ) * 10 ^ f / (y.unscaled : ℚ) from hcast]
        field_simp
        ring
    · simp [hrem] at h

/-- The method `QuoExact` returns, and returns a quotient whenever `x` is a whole multiple
of `y`. -/
theorem Dec.QuoExact_of_multiple (x y : Dec) (hy : y.unscaled ≠ 0) (k : Int)
    (hk : x.value = (k : ℚ) * y.value) : ∃ z, Dec.QuoExact x y = Exec.ret (some z) := by
  have h10 : ∀ n : Nat, (10 : ℚ) ^ n ≠ 0 := fun n => by positivity
  have hint : x.unscaled * 10 ^ y.scale = y.unscaled * (k * 10 ^ x.scale) := by
    have h1 := h10 x.scale
    have h2 := h10 y.scale
    simp only [Dec.value] at hk
    rw [← mul_div_assoc, div_eq_div_iff h1 h2] at hk
    have : ((x.unscaled * 10 ^ y.scale : Int) : ℚ) =
        ((y.unscaled * (k * 10 ^ x.scale) : Int) : ℚ) := by
      push_cast
      rw [hk]
      ring
    exact_mod_cast this
  have hdvd : y.unscaled ∣ x.unscaled * 10 ^ y.scale := ⟨_, hint⟩
  have hd := QuoExact_dvd x.unscaled y.unscaled y.scale hy hdvd
  have hrem := Int.emod_eq_zero_of_dvd hd
  unfold Dec.QuoExact
  simp only [hy, if_false, hrem, ne_eq, not_true_eq_false]
  split
  · exact ⟨_, rfl⟩
  · exact ⟨_, rfl⟩

/-- The method `QuoExact` does not panic on a divisor that is not zero. -/
theorem Dec.QuoExact_returns (x y : Dec) (hy : y.unscaled ≠ 0) :
    ∃ r, Dec.QuoExact x y = Exec.ret r := by
  unfold Dec.QuoExact
  simp only [hy, if_false]
  split
  · exact ⟨_, rfl⟩
  · split
    · exact ⟨_, rfl⟩
    · exact ⟨_, rfl⟩

/-! ## The decimal notation of a quotient -/

theorem digitChar_ne_point (d : Nat) (h : d < 10) : Nat.digitChar d ≠ '.' := by
  interval_cases d <;> decide

theorem digitChar_eq_zero_iff (d : Nat) (h : d < 10) : Nat.digitChar d = '0' ↔ d = 0 := by
  interval_cases d <;> decide

theorem toDigitsCore_no_point :
    ∀ (fuel n : Nat) (ds : List Char), '.' ∉ ds → '.' ∉ Nat.toDigitsCore 10 fuel n ds := by
  intro fuel
  induction fuel with
  | zero => intro n ds h; simpa [Nat.toDigitsCore] using h
  | succ fuel ih =>
    intro n ds h
    have hcons : '.' ∉ Nat.digitChar (n % 10) :: ds := by
      simp only [List.mem_cons, not_or]
      exact ⟨fun e => digitChar_ne_point _ (Nat.mod_lt _ (by norm_num)) e.symm, h⟩
    simp only [Nat.toDigitsCore]
    split
    · exact hcons
    · exact ih _ _ hcons

theorem repr_no_point (n : Nat) : '.' ∉ (Nat.repr n).data := by
  show '.' ∉ (Nat.toDigitsCore 10 (n + 1) n [])
  exact toDigitsCore_no_point _ _ _ (by simp)

theorem toString_int_no_point (i : Int) : '.' ∉ (toString i).data := by
  cases i with
  | ofNat m => exact repr_no_point m
  | negSucc m =>
    show '.' ∉ ("-" ++ Nat.repr (m + 1)).data
    rw [String.data_append]
    simp only [List.mem_append, not_or]
    exact ⟨by decide, repr_no_point _⟩

theorem fracDigits_no_point : ∀ (count n : Nat), '.' ∉ fracDigits count n := by
  intro count
  induction count with
  | zero => intro n; simp [fracDigits]
  | succ count ih =>
    intro n
    simp only [fracDigits, List.mem_append, List.mem_singleton, not_or]
    exact ⟨ih _, fun e => digitChar_ne_point _ (Nat.mod_lt _ (by norm_num)) e.symm⟩

theorem fracDigits_all_zero_iff :
    ∀ (count n : Nat), (∀ ch ∈ fracDigits count n, ch = '0') ↔ n % 10 ^ count = 0 := by
  intro count
  induction count with
  | zero => intro n; simp [fracDigits, Nat.mod_one]
  | succ count ih =>
    intro n
    have hlast : Nat.digitChar (n % 10) = '0' ↔ n % 10 = 0 :=
      digitChar_eq_zero_iff _ (Nat.mod_lt _ (by norm_num))
    have hsplit : n % 10 ^ (count + 1) = 0 ↔ n % 10 = 0 ∧ n / 10 % 10 ^ count = 0 := by
      rw [pow_succ, Nat.mul_comm]
      constructor
      · intro h
        have hd : 10 * 10 ^ count ∣ n := Nat.dvd_of_mod_eq_zero h
        obtain ⟨q, hq⟩ := hd
        subst hq
        constructor
        · rw [Nat.mul_assoc]; exact Nat.mul_mod_right _ _
        · rw [Nat.mul_assoc, Nat.mul_div_cancel_left _ (by norm_num : 0 < 10)]
          exact Nat.mul_mod_right _ _
      · rintro ⟨h1, h2⟩
        obtain ⟨a, ha⟩ := Nat.dvd_of_mod_eq_zero h1
        subst ha
        rw [Nat.mul_div_cancel_left _ (by norm_num : 0 < 10)] at h2
        obtain ⟨b, hb⟩ := Nat.dvd_of_mod_eq_zero h2
        subst hb
        rw [← Nat.mul_assoc]
        exact Nat.mul_mod_right _ _
    rw [hsplit, ← ih (n / 10), ← hlast]
    simp only [fracDigits, List.mem_append, List.mem_singleton]
    constructor
    · intro h
      exact ⟨h _ (Or.inr rfl), fun ch hch => h ch (Or.inl hch)⟩
    · rintro ⟨h1, h2⟩ ch (hch | hch)
      · exact h2 ch hch
      · rw [hch]; exact h1

theorem dropWhile_append_all (p : Char → Bool) :
    ∀ (l rest : List Char), (∀ c ∈ l, p c = true) →
      (l ++ rest).dropWhile p = rest.dropWhile p := by
  intro l
  induction l with
  | nil => intro rest _; rfl
  | cons a l ih =>
    intro rest h
    have ha : p a = true := h a (List.mem_cons_self _ _)
    simp only [List.cons_append, List.dropWhile_cons, ha, if_true]
    exact ih rest (fun c hc => h c (List.mem_cons_of_mem _ hc))

theorem dropWhile_append_some (p : Char → Bool) :
    ∀ (l rest : List Char), (∃ c ∈ l, p c = false) →
      (l ++ rest).dropWhile p = l.dropWhile p ++ rest := by
  intro l
  induction l with
  | nil => intro rest h; obtain ⟨c, hc, _⟩ := h; simp at hc
  | cons a l ih =>
    intro rest h
    by_cases ha : p a = true
    · simp only [List.cons_append, List.dropWhile_cons, ha, if_true]
      apply ih
      obtain ⟨c, hc, hpc⟩ := h
      rcases List.mem_cons.1 hc with rfl | hc
      · rw [ha] at hpc; exact absurd hpc (by decide)
      · exact ⟨c, hc, hpc⟩
    · simp [List.dropWhile_cons, ha]

/-- What the test of `ValidateCPU` on the quotient finds: a point is left after trimming
the characters `.` and `0` from the right exactly when a digit after the point is not 0. -/
theorem TrimRight_point (pre frac : List Char) (hpre : '.' ∉ pre) (hfrac : '.' ∉ frac) :
    Contains (TrimRight (String.mk (pre ++ '.' :: frac)) ".0") '.' = true ↔
      ¬ ∀ ch ∈ frac, ch = '0' := by
  have hcut : ∀ c : Char, decide (c ∈ (".0" : String).data) = true ↔ c = '.' ∨ c = '0' := by
    intro c
    simp [show (".0" : String).data = ['.', '0'] from rfl]
  unfold Contains TrimRight
  simp only [decide_eq_true_eq, List.mem_reverse, List.reverse_append, List.reverse_cons,
    List.append_assoc, List.singleton_append]
  by_cases hall : ∀ ch ∈ frac, ch = '0'
  · refine iff_of_false ?_ (not_not.2 hall)
    rw [dropWhile_append_all _ frac.reverse _
      (fun c hc => (hcut c).2 (Or.inr (hall c (List.mem_reverse.1 hc))))]
    rw [List.dropWhile_cons, if_pos ((hcut '.').2 (Or.inl rfl))]
    intro hmem
    exact hpre (List.mem_reverse.1 ((List.dropWhile_sublist _).subset hmem))
  · refine iff_of_true ?_ hall
    have hex : ∃ c ∈ frac.reverse, decide (c ∈ (".0" : String).data) = false := by
      push_neg at hall
      obtain ⟨c, hc, hne⟩ := hall
      refine ⟨c, List.mem_reverse.2 hc, ?_⟩
      rw [← Bool.not_eq_true, hcut]
      rintro (h | h)
      · exact hfrac (h ▸ hc)
      · exact hne h
    rw [dropWhile_append_some _ frac.reverse _ hex]
    simp

theorem TrimRight_subset (s cutset : String) (c : Char)
    (h : Contains (TrimRight s cutset) c = true) : c ∈ s.data := by
  unfold Contains TrimRight at h
  simp only [decide_eq_true_eq, List.mem_reverse] at h
  exact List.mem_reverse.1 ((List.dropWhile_sublist _).subset h)

/-- A decimal is a whole number exactly when its digits after the point are all 0. -/
theorem Dec.value_int_iff (z : Dec) :
    (∃ k : Int, z.value = (k : ℚ)) ↔ z.unscaled.natAbs % 10 ^ z.scale = 0 := by
  have h10 : (10 : ℚ) ^ z.scale ≠ 0 := by positivity
  constructor
  · rintro ⟨k, hk⟩
    simp only [Dec.value] at hk
    rw [div_eq_iff h10] at hk
    have hint : z.unscaled = k * ((10 ^ z.scale : Nat) : Int) := by
      have : ((z.unscaled : Int) : ℚ) = ((k * ((10 ^ z.scale : Nat) : Int) : Int) : ℚ) := by
        push_cast
        exact hk
      exact_mod_cast this
    have hdvd : ((10 ^ z.scale : Nat) : Int) ∣ z.unscaled := ⟨k, by rw [hint]; ring⟩
    obtain ⟨q, hq⟩ := Int.natCast_dvd.1 hdvd
    rw [hq]
    exact Nat.mul_mod_right _ _
  · intro h
    have hdvd : ((10 ^ z.scale : Nat) : Int) ∣ z.unscaled :=
      Int.natCast_dvd.2 (Nat.dvd_of_mod_eq_zero h)
    obtain ⟨k, hk⟩ := hdvd
    refine ⟨k, ?_⟩
    simp only [Dec.value]
    rw [div_eq_iff h10, hk]
    push_cast
    ring

/-- The test of `ValidateCPU` on the quotient: a point is left in the trimmed notation
exactly when the quotient is not a whole number. -/
theorem Dec.String_point (z : Dec) :
    Contains (TrimRight z.String ".0") '.' = true ↔ ¬ ∃ k : Int, z.value = (k : ℚ) := by
  rw [Dec.value_int_iff]
  unfold Dec.String
  by_cases hs : z.scale = 0
  · simp only [hs, if_true, pow_zero, Nat.mod_one, not_true_eq_false, iff_false]
    intro h
    exact toString_int_no_point _ (TrimRight_subset _ _ _ h)
  · simp only [hs, if_false]
    have hpre : '.' ∉ (if z.unscaled < 0 then ['-'] else []) ++
        (Nat.repr (z.unscaled.natAbs / 10 ^ z.scale)).data := by
      simp only [List.mem_append, not_or]
      refine ⟨?_, repr_no_point _⟩
      split <;> decide
    exact (TrimRight_point _ _ hpre (fracDigits_no_point _ _)).trans
      (not_congr ((fracDigits_all_zero_iff _ _).trans (by rw [Nat.mod_mod])))

/-- Lines 150-159 of `ValidateCPU` return, for a step that is not zero, whether the value is
a whole multiple of the step. -/
theorem stepAllows_spec (st cpu : Quantity) (hst : st.dec.unscaled ≠ 0) :
    ∃ b, stepAllows (some st) cpu = Exec.ret b ∧
      (b = true ↔ ∃ k : Int, cpu.value = (k : ℚ) * st.value) := by
  have hsv : st.value ≠ 0 := by
    intro h
    have := (Quantity.IsZero_iff st).2 h
    simp [Quantity.IsZero, hst] at this
  obtain ⟨r, hr⟩ := Dec.QuoExact_returns cpu.AsDec st.AsDec hst
  cases r with
  | none =>
    refine ⟨false, by simp [stepAllows, hr], ?_⟩
    simp only [Bool.false_eq_true, false_iff]
    rintro ⟨k, hk⟩
    obtain ⟨z, hz⟩ := Dec.QuoExact_of_multiple cpu.AsDec st.AsDec hst k hk
    rw [hr] at hz
    simp at hz
  | some z =>
    have hval : z.value * st.value = cpu.value := Dec.QuoExact_value _ _ _ hr
    have hiff : (∃ k : Int, z.value = (k : ℚ)) ↔ ∃ k : Int, cpu.value = (k : ℚ) * st.value := by
      constructor
      · rintro ⟨k, hk⟩
        exact ⟨k, by rw [← hval, hk]⟩
      · rintro ⟨k, hk⟩
        refine ⟨k, ?_⟩
        rw [← hval] at hk
        exact mul_right_cancel₀ hsv hk
    by_cases hp : Contains (TrimRight z.String ".0") '.' = true
    · refine ⟨false, by simp [stepAllows, hr, hp], ?_⟩
      simp only [Bool.false_eq_true, false_iff, ← hiff]
      exact (Dec.String_point z).1 hp
    · refine ⟨true, by simp [stepAllows, hr, hp], ?_⟩
      simp only [true_iff, ← hiff]
      exact not_not.1 (fun h => hp ((Dec.String_point z).2 h))

/-! ## The range and the step of the CPU (C17) -/

theorem unscaled_ne_zero_of_pos (q : Quantity) (h : 0 < q.value) : q.dec.unscaled ≠ 0 := by
  intro h0
  simp [Quantity.value, Dec.value, h0] at h

/-- What `ValidateCPU` returns without slots, with `Min`, `Max` and a `Step` that is not
zero. -/
theorem ValidateCPU_of_range (m : ResourceConstraint) (cpu lo hi st : Quantity)
    (hslots : m.CPU.Slots = none) (hmin : m.CPU.Min = some lo) (hmax : m.CPU.Max = some hi)
    (hstep : m.CPU.Step = some st) (hst : st.dec.unscaled ≠ 0) (hcpu : cpu.IsZero = false) :
    ∃ b, ValidateCPU m cpu = Exec.ret b ∧
      (b = true ↔ lo.value ≤ cpu.value ∧ cpu.value ≤ hi.value ∧
        ∃ k : Int, cpu.value = (k : ℚ) * st.value) := by
  obtain ⟨b, hb, hbiff⟩ := stepAllows_spec st cpu hst
  have hlo : lo.Cmp cpu > 0 ↔ cpu.value < lo.value := Dec.Cmp_pos_iff lo.dec cpu.dec
  have hhi : hi.Cmp cpu < 0 ↔ hi.value < cpu.value := Dec.Cmp_neg_iff hi.dec cpu.dec
  by_cases h1 : cpu.value < lo.value
  · refine ⟨false, ?_, ?_⟩
    · simp [ValidateCPU, hcpu, hmin, hlo.2 h1]
    · simp only [Bool.false_eq_true, false_iff]
      intro h
      exact absurd h.1 (not_le.2 h1)
  · by_cases h2 : hi.value < cpu.value
    · refine ⟨false, ?_, ?_⟩
      · have hn : ¬ lo.Cmp cpu > 0 := fun h => h1 (hlo.1 h)
        simp only [ValidateCPU, hcpu, hmin, hmax, hn, hhi.2 h2]
        simp
      · simp only [Bool.false_eq_true, false_iff]
        intro h
        exact absurd h.2.1 (not_le.2 h2)
    · refine ⟨b, ?_, ?_⟩
      · have hn1 : ¬ lo.Cmp cpu > 0 := fun h => h1 (hlo.1 h)
        have hn2 : ¬ hi.Cmp cpu < 0 := fun h => h2 (hhi.1 h)
        simp only [ValidateCPU, hcpu, hmin, hmax, hstep, hslots, hn1, hn2, hb]
        cases b <;> simp
      · rw [hbiff]
        exact ⟨fun h => ⟨not_lt.1 h1, not_lt.1 h2, h⟩, fun h => h.2.2⟩

/-- C17: with `Slots` unset and `Min`, `Max` and a positive `Step` set, `ValidateCPU`
returns for a non-zero cpu, and it returns true if and only if Min ≤ cpu ≤ Max and cpu is a
whole multiple of `Step`. -/
theorem ValidateCPU_range_step (m : ResourceConstraint) (cpu lo hi st : Quantity)
    (hslots : m.CPU.Slots = none) (hmin : m.CPU.Min = some lo) (hmax : m.CPU.Max = some hi)
    (hstep : m.CPU.Step = some st) (hpos : 0 < st.value) (hcpu : cpu.IsZero = false) :
    (∃ b, ValidateCPU m cpu = Exec.ret b) ∧
    (ValidateCPU m cpu = Exec.ret true ↔
      lo.value ≤ cpu.value ∧ cpu.value ≤ hi.value ∧
        ∃ k : Int, cpu.value = (k : ℚ) * st.value) := by
  obtain ⟨b, hb, hbiff⟩ := ValidateCPU_of_range m cpu lo hi st hslots hmin hmax hstep
    (unscaled_ne_zero_of_pos st hpos) hcpu
  refine ⟨⟨b, hb⟩, ?_⟩
  rw [← hbiff, hb]
  simp

/-- Witness of `ValidateCPU_range_step`: the constraint Min 2, Max 8, Step 2 accepts 4 and
does not accept 5, and the non-zero values it accepts are exactly 2, 4, 6 and 8; the
constraint Min 0.5, Max 2, Step 0.5 accepts exactly 0.5, 1, 1.5 and 2. -/
theorem ValidateCPU_range_step_witness :
    ValidateCPU evenCores (whole 4) = Exec.ret true ∧
    ValidateCPU evenCores (whole 5) ≠ Exec.ret true ∧
    (∀ cpu : Quantity, cpu.IsZero = false →
      (ValidateCPU evenCores cpu = Exec.ret true ↔
        cpu.value = 2 ∨ cpu.value = 4 ∨ cpu.value = 6 ∨ cpu.value = 8)) ∧
    (∀ cpu : Quantity, cpu.IsZero = false →
      (ValidateCPU halfCores cpu = Exec.ret true ↔
        cpu.value = 1 / 2 ∨ cpu.value = 1 ∨ cpu.value = 3 / 2 ∨ cpu.value = 2)) := by
  have v2 : (whole 2).value = 2 := by norm_num [whole, Quantity.value, Dec.value]
  have v8 : (whole 8).value = 8 := by norm_num [whole, Quantity.value, Dec.value]
  have v4 : (whole 4).value = 4 := by norm_num [whole, Quantity.value, Dec.value]
  have v5 : (whole 5).value = 5 := by norm_num [whole, Quantity.value, Dec.value]
  have t5 : (tenths 5).value = 1 / 2 := by norm_num [tenths, Quantity.value, Dec.value]
  have even := fun cpu => ValidateCPU_range_step evenCores cpu (whole 2) (whole 8) (whole 2)
    rfl rfl rfl rfl (by rw [v2]; norm_num)
  have half := fun cpu => ValidateCPU_range_step halfCores cpu (tenths 5) (whole 2) (tenths 5)
    rfl rfl rfl rfl (by rw [t5]; norm_num)
  refine ⟨?_, ?_, ?_, ?_⟩
  · refine ((even (whole 4) (by decide)).2).2 ?_
    rw [v2, v4, v8]
    exact ⟨by norm_num, by norm_num, 2, by norm_num⟩
  · intro h
    obtain ⟨_, _, k, hk⟩ := ((even (whole 5) (by decide)).2).1 h
    rw [v2, v5] at hk
    have : (5 : Int) = k * 2 := by exact_mod_cast hk
    omega
  · intro cpu hcpu
    rw [(even cpu hcpu).2, v2, v8]
    constructor
    · rintro ⟨h1, h2, k, hk⟩
      rw [hk] at h1 h2
      have h3 : (1 : Int) ≤ k := by
        have : (1 : ℚ) ≤ (k : ℚ) := by linarith
        exact_mod_cast this
      have h4 : k ≤ (4 : Int) := by
        have : (k : ℚ) ≤ 4 := by linarith
        exact_mod_cast this
      rw [hk]
      interval_cases k <;> norm_num
    · rintro (h | h | h | h) <;> rw [h]
      · exact ⟨by norm_num, by norm_num, 1, by norm_num⟩
      · exact ⟨by norm_num, by norm_num, 2, by norm_num⟩
      · exact ⟨by norm_num, by norm_num, 3, by norm_num⟩
      · exact ⟨by norm_num, by norm_num, 4, by norm_num⟩
  · intro cpu hcpu
    rw [(half cpu hcpu).2, v2, t5]
    constructor
    · rintro ⟨h1, h2, k, hk⟩
      rw [hk] at h1 h2
      have h3 : (1 : Int) ≤ k := by
        have : (1 : ℚ) ≤ (k : ℚ) := by linarith
        exact_mod_cast this
      have h4 : k ≤ (4 : Int) := by
        have : (k : ℚ) ≤ 4 := by linarith
        exact_mod_cast this
      rw [hk]
      interval_cases k <;> norm_num
    · rintro (h | h | h | h) <;> rw [h]
      · exact ⟨by norm_num, by norm_num, 1, by norm_num⟩
      · exact ⟨by norm_num, by norm_num, 2, by norm_num⟩
      · exact ⟨by norm_num, by norm_num, 3, by norm_num⟩
      · exact ⟨by norm_num, by norm_num, 4, by norm_num⟩

end V1alpha1

namespace Authprovider

/-! ## The round tripper leaves the request as it is (C20) -/

theorem Header.lookup_assign (key : String) (values : List String) (k : String) :
    ∀ h : Header, (h.assign key values).lookup k =
      if k = key then some values else h.lookup k := by
  intro h
  induction h with
  | nil =>
    by_cases hk : k = key
    · simp [Header.assign, Header.lookup, hk]
    · simp [Header.assign, Header.lookup, hk, Ne.symm hk]
  | cons e rest ih =>
    obtain ⟨k0, v0⟩ := e
    unfold Header.assign
    by_cases h0 : k0 = key
    · by_cases hk : k = key
      · simp [Header.lookup, h0, hk]
      · simp [Header.lookup, h0, hk, Ne.symm hk]
    · by_cases hk : k = key
      · subst hk
        simp only [h0, if_false, Header.lookup, ih, if_true]
      · simp only [h0, if_false, Header.lookup, ih, hk]

theorem Store.read_write (st : Store) (addr : Nat) (h : Header) (a : Nat)
    (haddr : addr < st.length) :
    (st.write addr h).read a = if a = addr then h else st.read a := by
  unfold Store.read Store.write
  by_cases ha : a = addr
  · subst ha
    simp [List.getD_eq_getElem?_getD, haddr]
  · simp [List.getD_eq_getElem?_getD, ha, List.getElem?_set_ne (Ne.symm ha)]

theorem Store.length_write (st : Store) (addr : Nat) (h : Header) :
    (st.write addr h).length = st.length := by
  simp [Store.write]

theorem copyHeader_length (target : Nat) :
    ∀ (es : List (String × List String)) (st : Store),
      (copyHeader target es st).length = st.length := by
  intro es
  induction es with
  | nil => intro st; rfl
  | cons e rest ih =>
    intro st
    obtain ⟨k, s⟩ := e
    simp [copyHeader, ih, Store.length_write]

theorem copyHeader_other (target : Nat) :
    ∀ (es : List (String × List String)) (st : Store) (a : Nat),
      target < st.length → a ≠ target → (copyHeader target es st).read a = st.read a := by
  intro es
  induction es with
  | nil => intro st a _ _; rfl
  | cons e rest ih =>
    intro st a htarget ha
    obtain ⟨k, s⟩ := e
    simp only [copyHeader]
    rw [ih _ a (by rw [Store.length_write]; exact htarget) ha,
      Store.read_write st target _ a htarget, if_neg ha]

theorem copyHeader_lookup (target : Nat) (key : String) :
    ∀ (es : List (String × List String)) (st : Store),
      target < st.length → (es.map Prod.fst).Nodup →
      ((copyHeader target es st).read target).lookup key =
        if key ∈ es.map Prod.fst then Header.lookup es key
        else (st.read target).lookup key := by
  intro es
  induction es with
  | nil => intro st _ _; simp [copyHeader]
  | cons e rest ih =>
    intro st htarget hnodup
    obtain ⟨k, s⟩ := e
    simp only [List.map_cons, List.nodup_cons] at hnodup
    obtain ⟨hk, hrest⟩ := hnodup
    simp only [copyHeader]
    rw [ih _ (by rw [Store.length_write]; exact htarget) hrest,
      Store.read_write st target _ target htarget, if_pos rfl, Header.lookup_assign]
    by_cases hkey : key = k
    · subst hkey
      simp [hk, Header.lookup]
    · have hkey2 : ¬ k = key := fun h => hkey h.symm
      simp only [hkey, if_false, Header.lookup, hkey2, List.map_cons, List.mem_cons, false_or]

theorem Header.lookup_of_not_mem (key : String) :
    ∀ h : Header, key ∉ h.map Prod.fst → h.lookup key = none := by
  intro h
  induction h with
  | nil => intro _; rfl
  | cons e rest ih =>
    intro hmem
    obtain ⟨k, v⟩ := e
    simp only [List.map_cons, List.mem_cons, not_or] at hmem
    simp [Header.lookup, Ne.symm hmem.1, ih hmem.2]

theorem Store.read_append (st : Store) (h : Header) (a : Nat) :
    (st ++ [h]).read a = if a = st.length then h else st.read a := by
  unfold Store.read
  by_cases ha : a = st.length
  · subst ha
    simp [List.getD_eq_getElem?_getD]
  · rcases Nat.lt_or_gt_of_ne ha with hlt | hgt
    · simp [List.getD_eq_getElem?_getD, ha, List.getElem?_append_left hlt]
    · have h1 : (st ++ [h]).length ≤ a := by simp; omega
      have h2 : st.length ≤ a := by omega
      simp [List.getD_eq_getElem?_getD, ha, List.getElem?_eq_none h1,
        List.getElem?_eq_none h2]

/-- C20: `RoundTrip` leaves every header map that existed before the call as it was, that of
the request included.  A request whose `Authorization` header is not empty is forwarded as
it is and no token is fetched.  Otherwise, with a token from the provider, the wrapped
transport receives a copy of the request with a header map of its own, which holds
`Authorization: Bearer <token>` and every other header of the request. -/
theorem RoundTrip_frame (provider : Provider) (st : Store) (req : Request)
    (href : req.Header < st.length)
    (hkeys : ((st.read req.Header).map Prod.fst).Nodup) :
    (∀ a, a < st.length → (RoundTrip provider st req).store.read a = st.read a) ∧
    (((st.read req.Header).Get "Authorization").length ≠ 0 →
      RoundTrip provider st req = Trip.mk st (some req) false none) ∧
    (((st.read req.Header).Get "Authorization").length = 0 →
      ∀ token, provider.GetIDToken = (token, none) →
        (RoundTrip provider st req).forwarded =
          some (Request.mk req.Method req.URL st.length) ∧
        st.length ≠ req.Header ∧
        ((RoundTrip provider st req).store.read st.length).lookup "Authorization" =
          some ["Bearer " ++ token] ∧
        ∀ k, k ≠ "Authorization" →
          ((RoundTrip provider st req).store.read st.length).lookup k =
            (st.read req.Header).lookup k) := by
  have hfresh : st.length < (st ++ [([] : Header)]).length := by simp
  have hcopy : st.length < (copyHeader st.length (st.read req.Header)
      (st ++ [([] : Header)])).length := by
    rw [copyHeader_length]; exact hfresh
  refine ⟨?_, ?_, ?_⟩
  · intro a ha
    unfold RoundTrip
    split_ifs with hauth
    · rfl
    · rcases htok : provider.GetIDToken with ⟨token, _ | err⟩
      · have hne : a ≠ st.length := by omega
        simp only []
        rw [Store.read_write _ _ _ _ hcopy, if_neg hne,
          copyHeader_other _ _ _ _ hfresh hne, Store.read_append, if_neg hne]
      · rfl
  · intro hauth
    simp [RoundTrip, hauth]
  · intro hauth token htok
    have hauth2 : ¬ ((st.read req.Header).Get "Authorization").length ≠ 0 := by simp [hauth]
    refine ⟨?_, ?_, ?_, ?_⟩
    · simp [RoundTrip, hauth, htok]
    · omega
    · simp only [RoundTrip, hauth2, if_false, htok]
      rw [Store.read_write _ _ _ _ hcopy, if_pos rfl, Header.Set, Header.lookup_assign,
        if_pos rfl]
    · intro k hk
      simp only [RoundTrip, hauth2, if_false, htok]
      rw [Store.read_write _ _ _ _ hcopy, if_pos rfl, Header.Set, Header.lookup_assign,
        if_neg hk, copyHeader_lookup _ _ _ _ hfresh hkeys, Store.read_append, if_pos rfl]
      split_ifs with hmem
      · rfl
      · rw [Header.lookup_of_not_mem k _ hmem]
        rfl

/-- Witness of `RoundTrip_frame`: a request with the headers `Accept` and `User-Agent` and
the token `tok`. -/
theorem RoundTrip_frame_witness :
    (RoundTrip tokProvider plainStore firstRequest).store.read 0 = plainStore.read 0 ∧
    (RoundTrip tokProvider plainStore firstRequest).forwarded =
      some (Request.mk "GET" "https://api.example/v1/targets" 1) ∧
    ((RoundTrip tokProvider plainStore firstRequest).store.read 1).lookup "Authorization" =
      some ["Bearer tok"] ∧
    RoundTrip tokProvider signedStore firstRequest =
      Trip.mk signedStore (some firstRequest) false none :=
  have h := RoundTrip_frame tokProvider plainStore firstRequest (by decide) (by decide)
  have h2 := RoundTrip_frame tokProvider signedStore firstRequest (by decide) (by decide)
  ⟨h.1 0 (by decide), (h.2.2 (by decide) "tok" rfl).1, (h.2.2 (by decide) "tok" rfl).2.2.1,
    h2.2.1 (by decide)⟩

end Authprovider
